import Mathlib

/-!
# Authorization rule engine of the gateway (`gateway/modules/auth/match.go`)

A shallow embedding of `matchRule` and the functions it dispatches to.
Go's mutable `args` map, the mutable rule tree and the log of external calls
are threaded explicitly; a failed type assertion or nil dereference is the
outcome `Outcome.panic`.

# Update-query compiler (`modules/crud/sql`)

`SQL.generateUpdateQuery` is known through its tests, `update_test.go`, only: it is
modelled from the specification as a list of statement pieces, rendered in one of
three dialects, and the model is checked against every case of the tests.
-/

set_option linter.dupNamespace false

namespace SpaceCloud

/-! ## Dynamic values (`interface{}`) and string-keyed maps -/

/-- A Go `interface{}` value as it occurs in `args`, `auth` and rule fields. -/
inductive Value where
  | null : Value
  | bool (b : Bool) : Value
  /-- A Go `int`. -/
  | int (n : Int) : Value
  /-- A sized signed integer: `int8`, `int16`, `int32` or `int64`, by its width in bits. -/
  | intN (width : Nat) (n : Int) : Value
  /-- A `float64`, by its bits. -/
  | float (bits : Nat) : Value
  | str (s : String) : Value
  | list (xs : List Value) : Value
  | obj (kvs : List (String × Value)) : Value

/-- A Go `map[string]interface{}`: association list, first binding of a key wins. -/
abbrev GoMap := List (String × Value)

/-- The map index expression `m[k]` with the comma-ok result. -/
def mapGet (k : String) : GoMap → Option Value
  | [] => none
  | (k', v) :: rest => if k' = k then some v else mapGet k rest

/-- The builtin `delete(m, k)`. -/
def mapDelete (k : String) : GoMap → GoMap
  | [] => []
  | (k', v) :: rest => if k' = k then mapDelete k rest else (k', v) :: mapDelete k rest

/-- The assignment `m[k] = v`. -/
def mapSet (k : String) (v : Value) : GoMap → GoMap
  | [] => [(k, v)]
  | (k', v') :: rest => if k' = k then (k, v) :: rest else (k', v') :: mapSet k v rest

/-- Go's `strings.HasPrefix(s, p)`. -/
def HasPrefix (s p : String) : Bool :=
  p.data.isPrefixOf s.data

/-! ## Data model -/

/-- Error values returned by the engine and its collaborators. -/
inductive Err where
  /-- `errors.New("invalid project details provided")` -/
  | invalidProject : Err
  /-- The package variable `ErrIncorrectMatch`. -/
  | ErrIncorrectMatch : Err
  /-- The package variable `ErrIncorrectRuleFieldType`. -/
  | ErrIncorrectRuleFieldType : Err
  /-- Any other error produced by a collaborator. -/
  | other (msg : String) : Err
  deriving DecidableEq, Repr

/-- The struct `model.PostProcessAction`. -/
structure PostProcessAction where
  Action : String
  Field : String
  Value : Value

/-- The struct `model.PostProcess`. -/
structure PostProcess where
  PostProcessAction : List PostProcessAction

/-- The struct `config.Rule`, with the fields `match.go` reads or writes. -/
inductive Rule where
  | mk (rule : String) (type : String) (clauses : List Rule) (db col : String)
      (find : GoMap) (url : String) (fields : List String) (field : String)
      (value : Value) : Rule

namespace Rule

def «Type» : Rule → String
  | mk _ t _ _ _ _ _ _ _ _ => t

def Clauses : Rule → List Rule
  | mk _ _ cs _ _ _ _ _ _ _ => cs

def DB : Rule → String
  | mk _ _ _ db _ _ _ _ _ _ => db

def Col : Rule → String
  | mk _ _ _ _ col _ _ _ _ _ => col

def Find : Rule → GoMap
  | mk _ _ _ _ _ f _ _ _ _ => f

def URL : Rule → String
  | mk _ _ _ _ _ _ u _ _ _ => u

def Fields : Rule → List String
  | mk _ _ _ _ _ _ _ fs _ _ => fs

def Field : Rule → String
  | mk _ _ _ _ _ _ _ _ f _ => f

def Value : Rule → SpaceCloud.Value
  | mk _ _ _ _ _ _ _ _ _ v => v

/-- The assignment `rule.Find = f`. -/
def setFind (f : GoMap) : Rule → Rule
  | mk r t cs db col _ u fs fd v => mk r t cs db col f u fs fd v

/-- The rule with its clause pointers' targets replaced by `cs`. -/
def setClauses (cs : List Rule) : Rule → Rule
  | mk r t _ db col f u fs fd v => mk r t cs db col f u fs fd v

end Rule

/-- The field `rule.Rule`: the kind of the node. -/
def Rule.Rule : SpaceCloud.Rule → String
  | .mk r _ _ _ _ _ _ _ _ _ => r

/-- The struct `model.ReadRequest`, with the fields `matchQuery` sets. -/
structure ReadRequest where
  Find : GoMap
  Operation : String

/-- Modelled from the spec: the constant `utils.One`, the single-result read mode
(`mode=one`), declared outside the files at hand. -/
def One : String := "one"

/-- One call to an external collaborator, as recorded in the call log. -/
inductive Call where
  /-- `MakeHttpRequest(ctx, method, url, token, scToken, params, &result)` -/
  | http (method url token scToken : String) (params : GoMap) : Call
  /-- `crud.Read(ctx, dbAlias, project, col, req)` -/
  | read (dbAlias project col : String) (req : ReadRequest) : Call

/-- What a Go call ends with: its return values, or a run-time panic. -/
inductive Outcome where
  /-- `return pp, err`: a possibly nil `*model.PostProcess` and a possibly nil error. -/
  | ret (pp : Option PostProcess) (err : Option Err) : Outcome
  /-- A failed type assertion or a nil pointer dereference. -/
  | panic : Outcome

/-- The mutable world of one evaluation: the `args` map and the log of external calls. -/
structure State where
  args : GoMap
  calls : List Call

/-- The auth module with the collaborators `match.go` calls. The functions declared
outside `match.go` are fields: their behaviour is arbitrary, and the external ones
may depend on the calls made so far. -/
structure Module where
  /-- `m.project` -/
  project : String
  /-- The constant `utils.InternalUserID`. -/
  InternalUserID : String
  /-- `matchString(rule, args)` -/
  matchString : Rule → GoMap → Option Err
  /-- `matchNumber(rule, args)` -/
  matchNumber : Rule → GoMap → Option Err
  /-- `matchBool(rule, args)` -/
  matchBool : Rule → GoMap → Option Err
  /-- `m.GetSCAccessToken()` -/
  GetSCAccessToken : List Call → Except Err String
  /-- `m.makeHttpRequest`; the result is the returned error. -/
  makeHttpRequest : List Call → String → String → String → String → GoMap → Option Err
  /-- `m.crud.Read`; the result is the read value and the returned error. -/
  crudRead : List Call → String → String → String → ReadRequest → Value × Option Err
  /-- `utils.Adjust(obj, state)` -/
  Adjust : Value → GoMap → Value
  /-- `utils.LoadValue(key, state)` -/
  LoadValue : String → GoMap → Except Err Value
  /-- `utils.StoreValue(key, value, state)`; the result is the map afterwards and the error. -/
  StoreValue : String → Value → GoMap → GoMap × Option Err
  /-- `utils.DeleteValue(key, state)`; the result is the map afterwards and the error. -/
  DeleteValue : String → GoMap → GoMap × Option Err

/-! ## The functions of `match.go` -/

/-- The function `match`. -/
def «match» (m : Module) (rule : Rule) (args : GoMap) : Option Err :=
  if rule.«Type» = "string" then m.matchString rule args
  else if rule.«Type» = "number" then m.matchNumber rule args
  else if rule.«Type» = "bool" then m.matchBool rule args
  else some Err.ErrIncorrectMatch

/-- The method `matchFunc` (the `webhook` rule). The result is the state afterwards and
the returned error, or `none` when a type assertion panics. -/
def matchFunc (m : Module) (rule : Rule) (st : State) : State × Option (Option Err) :=
  match mapGet "args" st.args with
  | some (Value.obj obj) =>
    match mapGet "token" obj with
    | some (Value.str token) =>
      let obj' := mapDelete "token" obj
      let st' : State := { st with args := mapSet "args" (Value.obj obj') st.args }
      match m.GetSCAccessToken st'.calls with
      | Except.error err => (st', some (some err))
      | Except.ok scToken =>
        ({ st' with calls := st'.calls ++ [Call.http "POST" rule.URL token scToken obj'] },
          some (m.makeHttpRequest st'.calls "POST" rule.URL token scToken obj'))
    | _ => (st, none)
  | _ => (st, none)

/-- The function `matchQuery`. The result is the rule and the state afterwards and the
returned error, or `none` when the type assertion on the adjusted filter panics. -/
def matchQuery (m : Module) (project : String) (rule : Rule) (st : State) :
    Rule × State × Option (Option Err) :=
  match m.Adjust (Value.obj rule.Find) st.args with
  | Value.obj find =>
    let rule' := rule.setFind find
    let req : ReadRequest := { Find := rule'.Find, Operation := One }
    (rule', { st with calls := st.calls ++ [Call.read rule'.DB project rule'.Col req] },
      some (m.crudRead st.calls rule'.DB project rule'.Col req).2)
  | _ => (rule, st, none)

/-- The function `matchForce`. -/
def matchForce (m : Module) (rule : Rule) (args : GoMap) : GoMap × Outcome :=
  let value : Value :=
    match rule.Value with
    | Value.str stringValue =>
      match m.LoadValue stringValue args with
      | Except.ok loadedValue => loadedValue
      | Except.error _ => rule.Value
    | _ => rule.Value
  if HasPrefix rule.Field "res" then
    (args, Outcome.ret (some ⟨[⟨"force", rule.Field, value⟩]⟩) none)
  else if HasPrefix rule.Field "args" then
    let r := m.StoreValue rule.Field value args
    (r.1, Outcome.ret (some ⟨[]⟩) r.2)
  else
    (args, Outcome.ret none (some Err.ErrIncorrectRuleFieldType))

/-- The loop of `matchRemove` over the remaining fields, `actions` holding the
actions gathered so far. -/
def matchRemoveLoop (m : Module) :
    List String → GoMap → List PostProcessAction → GoMap × Outcome
  | [], args, actions => (args, Outcome.ret (some ⟨actions⟩) none)
  | field :: rest, args, actions =>
    if HasPrefix field "res" then
      matchRemoveLoop m rest args (actions ++ [⟨"remove", field, Value.null⟩])
    else if HasPrefix field "args" then
      match m.DeleteValue field args with
      | (args', some err) => (args', Outcome.ret none (some err))
      | (args', none) => matchRemoveLoop m rest args' actions
    else
      (args, Outcome.ret none (some Err.ErrIncorrectRuleFieldType))

/-- The function `matchRemove`. -/
def matchRemove (m : Module) (rule : Rule) (args : GoMap) : GoMap × Outcome :=
  matchRemoveLoop m rule.Fields args []

/-- The test `auth["id"]` is present, is a string and equals `utils.InternalUserID`. -/
def isInternalUser (m : Module) (auth : GoMap) : Bool :=
  match mapGet "id" auth with
  | some (Value.str id) => id == m.InternalUserID
  | _ => false

mutual

/-- The method `matchRule`: the rule tree and the state afterwards, and the outcome. -/
def matchRule (m : Module) (project : String) (rule : Rule) (st : State) (auth : GoMap) :
    Rule × State × Outcome :=
  match rule with
  | Rule.mk r t cs db col f u fs fd v =>
    let rule := Rule.mk r t cs db col f u fs fd v
    if project ≠ m.project then
      (rule, st, Outcome.ret (some ⟨[]⟩) (some Err.invalidProject))
    else if r = "allow" ∨ r = "authenticated" then
      (rule, st, Outcome.ret (some ⟨[]⟩) none)
    else if isInternalUser m auth then
      (rule, st, Outcome.ret (some ⟨[]⟩) none)
    else if r = "deny" then
      (rule, st, Outcome.ret (some ⟨[]⟩) (some Err.ErrIncorrectMatch))
    else if r = "match" then
      (rule, st, Outcome.ret (some ⟨[]⟩) («match» m rule st.args))
    else if r = "and" then
      match matchAndLoop m project cs st auth [] with
      | (cs', st', o) => (Rule.mk r t cs' db col f u fs fd v, st', o)
    else if r = "or" then
      match matchOrLoop m project cs st auth with
      | (cs', st', o) => (Rule.mk r t cs' db col f u fs fd v, st', o)
    else if r = "webhook" then
      match matchFunc m rule st with
      | (st', some err) => (rule, st', Outcome.ret (some ⟨[]⟩) err)
      | (st', none) => (rule, st', Outcome.panic)
    else if r = "query" then
      match matchQuery m project rule st with
      | (rule', st', some err) => (rule', st', Outcome.ret (some ⟨[]⟩) err)
      | (rule', st', none) => (rule', st', Outcome.panic)
    else if r = "force" then
      match matchForce m rule st.args with
      | (args', o) => (rule, { st with args := args' }, o)
    else if r = "remove" then
      match matchRemove m rule st.args with
      | (args', o) => (rule, { st with args := args' }, o)
    else
      (rule, st, Outcome.ret (some ⟨[]⟩) (some Err.ErrIncorrectMatch))

/-- The loop of the method `matchAnd` over the remaining clauses, `completeAction`
holding the actions gathered so far. Reading `postProcess.PostProcessAction` of a
nil `postProcess` panics. -/
def matchAndLoop (m : Module) (project : String) (clauses : List Rule) (st : State)
    (auth : GoMap) (completeAction : List PostProcessAction) :
    List Rule × State × Outcome :=
  match clauses with
  | [] => ([], st, Outcome.ret (some ⟨completeAction⟩) none)
  | r :: rest =>
    match matchRule m project r st auth with
    | (r', st', Outcome.panic) => (r' :: rest, st', Outcome.panic)
    | (r', st', Outcome.ret _ (some err)) =>
      (r' :: rest, st', Outcome.ret (some ⟨[]⟩) (some err))
    | (r', st', Outcome.ret none none) => (r' :: rest, st', Outcome.panic)
    | (r', st', Outcome.ret (some postProcess) none) =>
      match matchAndLoop m project rest st' auth
          (completeAction ++ postProcess.PostProcessAction) with
      | (rest', st'', o) => (r' :: rest', st'', o)

/-- The loop of the method `matchOr` over the remaining clauses. -/
def matchOrLoop (m : Module) (project : String) (clauses : List Rule) (st : State)
    (auth : GoMap) : List Rule × State × Outcome :=
  match clauses with
  | [] => ([], st, Outcome.ret (some ⟨[]⟩) (some Err.ErrIncorrectMatch))
  | r :: rest =>
    match matchRule m project r st auth with
    | (r', st', Outcome.panic) => (r' :: rest, st', Outcome.panic)
    | (r', st', Outcome.ret postProcess none) => (r' :: rest, st', Outcome.ret postProcess none)
    | (r', st', Outcome.ret _ (some _)) =>
      match matchOrLoop m project rest st' auth with
      | (rest', st'', o) => (r' :: rest', st'', o)

end

/-- The method `matchAnd`. -/
def matchAnd (m : Module) (projectID : String) (rule : Rule) (st : State) (auth : GoMap) :
    Rule × State × Outcome :=
  match matchAndLoop m projectID rule.Clauses st auth [] with
  | (cs', st', o) => (rule.setClauses cs', st', o)

/-- The method `matchOr`. -/
def matchOr (m : Module) (projectID : String) (rule : Rule) (st : State) (auth : GoMap) :
    Rule × State × Outcome :=
  match matchOrLoop m projectID rule.Clauses st auth with
  | (cs', st', o) => (rule.setClauses cs', st', o)

/-! ## Notions used to state the properties -/

/-- The action list of a returned `*model.PostProcess`; a nil pointer carries none. -/
def actionsOf : Option PostProcess → List PostProcessAction
  | some p => p.PostProcessAction
  | none => []

/-- The clauses are evaluated in order, each in the state left by the one before, and
every one returns a nil error: the clauses and the state afterwards, and the action
lists the clauses returned, concatenated in clause order. `none` as soon as a clause
returns an error or panics. -/
def succeedAll (m : Module) (project : String) (auth : GoMap) :
    List Rule → State → Option (List Rule × State × List PostProcessAction)
  | [], st => some ([], st, [])
  | r :: rest, st =>
    match matchRule m project r st auth with
    | (r', st', Outcome.ret pp none) =>
      match succeedAll m project auth rest st' with
      | some (rest', st'', acts) => some (r' :: rest', st'', actionsOf pp ++ acts)
      | none => none
    | _ => none

/-- The clauses are evaluated in order, each in the state left by the one before, and
every one returns a non-nil error: the clauses and the state afterwards. `none` as
soon as a clause succeeds or panics. -/
def failAll (m : Module) (project : String) (auth : GoMap) :
    List Rule → State → Option (List Rule × State)
  | [], st => some ([], st)
  | r :: rest, st =>
    match matchRule m project r st auth with
    | (r', st', Outcome.ret _ (some _)) =>
      match failAll m project auth rest st' with
      | some (rest', st'') => some (r' :: rest', st'')
      | none => none
    | _ => none

/-- The value `matchForce` forces: `rule.Value`, replaced by what `utils.LoadValue`
resolves it to when it is a string and the resolution succeeds. -/
def effectiveValue (m : Module) (rule : Rule) (args : GoMap) : Value :=
  match rule.Value with
  | Value.str stringValue =>
    match m.LoadValue stringValue args with
    | Except.ok loadedValue => loadedValue
    | Except.error _ => rule.Value
  | _ => rule.Value

/-- The part of `matchForce` after the effective `value` is computed: the test of the
prefix of `rule.Field` and the three branches. -/
def forceWith (m : Module) (rule : Rule) (args : GoMap) (value : Value) : GoMap × Outcome :=
  if HasPrefix rule.Field "res" then
    (args, Outcome.ret (some ⟨[⟨"force", rule.Field, value⟩]⟩) none)
  else if HasPrefix rule.Field "args" then
    ((m.StoreValue rule.Field value args).1,
      Outcome.ret (some ⟨[]⟩) (m.StoreValue rule.Field value args).2)
  else
    (args, Outcome.ret none (some Err.ErrIncorrectRuleFieldType))

/-- One action `{"remove", f, nil}` for each field `f` that starts with `"res"`, in the
order of the list. -/
def removeActions (fields : List String) : List PostProcessAction :=
  (fields.filter fun f => HasPrefix f "res").map fun f => ⟨"remove", f, Value.null⟩

/-- The fields that start with `"args"`, in the order of the list. -/
def argsFields (fields : List String) : List String :=
  fields.filter fun f => HasPrefix f "args"

/-- The fields are deleted from `args` one after the other through `utils.DeleteValue`,
each deletion returning a nil error: the map afterwards. `none` as soon as a deletion
returns an error. -/
def deleteEach (m : Module) : List String → GoMap → Option GoMap
  | [], args => some args
  | f :: rest, args =>
    match m.DeleteValue f args with
    | (args', none) => deleteEach m rest args'
    | (_, some _) => none

/-- The outcome carries no actions when its error is not nil. -/
def Outcome.ErrNoActions : Outcome → Prop
  | Outcome.ret pp (some _) => actionsOf pp = []
  | _ => True

/-- The outcome is not "a nil `*model.PostProcess` together with a nil error". -/
def Outcome.Sound : Outcome → Prop
  | Outcome.ret none none => False
  | _ => True

/-! ## A concrete module, for evaluating the engine on examples -/

/-- The segments of a dotted path; `acc` holds the current segment, reversed. -/
def splitPath : List Char → List Char → List String
  | acc, [] => [String.mk acc.reverse]
  | acc, c :: cs =>
    if c = '.' then String.mk acc.reverse :: splitPath [] cs else splitPath (c :: acc) cs

/-- The value at a path of keys inside nested maps. -/
def getPath : List String → Value → Option Value
  | [], v => some v
  | k :: ks, Value.obj kvs =>
    match mapGet k kvs with
    | some v => getPath ks v
    | none => none
  | _ :: _, _ => none

/-- Writes a value at a path of keys inside nested maps; `none` on an invalid path. -/
def setPath : List String → Value → GoMap → Option GoMap
  | [], _, _ => none
  | [k], v, mp => some (mapSet k v mp)
  | k :: k' :: ks, v, mp =>
    match mapGet k mp with
    | some (Value.obj sub) =>
      match setPath (k' :: ks) v sub with
      | some sub' => some (mapSet k (Value.obj sub') mp)
      | none => none
    | _ => none

/-- Deletes the key at a path of keys inside nested maps; `none` on an invalid path. -/
def deletePath : List String → GoMap → Option GoMap
  | [], _ => none
  | [k], mp => some (mapDelete k mp)
  | k :: k' :: ks, mp =>
    match mapGet k mp with
    | some (Value.obj sub) =>
      match deletePath (k' :: ks) sub with
      | some sub' => some (mapSet k (Value.obj sub') mp)
      | none => none
    | _ => none

/-- Modelled from the spec: the variable resolver `utils.LoadValue`, which "resolves
dotted/templated field paths against the args map"; its code is outside the files at
hand. -/
def exampleLoadValue (key : String) (state : GoMap) : Except Err Value :=
  match getPath (splitPath [] key.data) (Value.obj state) with
  | some v => Except.ok v
  | none => Except.error (Err.other "key not found")

/-- Modelled from the spec: the resolver `utils.Adjust` applied to a find filter, which
replaces each string that resolves against the args map by the value it resolves to;
its code is outside the files at hand. -/
def exampleAdjust (obj : Value) (state : GoMap) : Value :=
  match obj with
  | Value.obj kvs =>
    Value.obj (kvs.map fun kv =>
      match kv.2 with
      | Value.str s =>
        match exampleLoadValue s state with
        | Except.ok v => (kv.1, v)
        | Except.error _ => kv
      | _ => kv)
  | Value.str s =>
    match exampleLoadValue s state with
    | Except.ok v => v
    | Except.error _ => obj
  | _ => obj

/-- Modelled from the spec: the comparator `matchString`, string equality of `rule.Value`
and the value read from `args` at `rule.Field`, "mismatch or missing field ⇒
`RuleMismatch`"; its code is outside the files at hand. -/
def exampleMatchString (rule : Rule) (args : GoMap) : Option Err :=
  match getPath (splitPath [] rule.Field.data) (Value.obj args), rule.Value with
  | some (Value.str a), Value.str b => if a = b then none else some Err.ErrIncorrectMatch
  | _, _ => some Err.ErrIncorrectMatch

/-- Modelled from the spec: an auth module of project `"project"` whose collaborators,
all declared outside the files at hand, behave as the spec describes them: a field
writer and deleter over dotted paths "failing if the path is structurally invalid",
a token provider, an HTTP requester and a read executor that succeed. -/
def exampleModule : Module where
  project := "project"
  InternalUserID := "internal-sc-user"
  matchString := exampleMatchString
  matchNumber := fun _ _ => some Err.ErrIncorrectMatch
  matchBool := fun _ _ => some Err.ErrIncorrectMatch
  GetSCAccessToken := fun _ => Except.ok "sc-token"
  makeHttpRequest := fun _ _ _ _ _ _ => none
  crudRead := fun _ _ _ _ _ => (Value.null, none)
  Adjust := exampleAdjust
  LoadValue := exampleLoadValue
  StoreValue := fun key value state =>
    match setPath (splitPath [] key.data) value state with
    | some state' => (state', none)
    | none => (state, some (Err.other "invalid path"))
  DeleteValue := fun key state =>
    match deletePath (splitPath [] key.data) state with
    | some state' => (state', none)
    | none => (state, some (Err.other "invalid path"))

/-- The module `exampleModule` with a token provider that returns `token`, an HTTP
requester that returns the error `http` and a read executor that returns the error
`read`. -/
def exampleModuleWith (token : Except Err String) (http read : Option Err) : Module :=
  { exampleModule with
    GetSCAccessToken := fun _ => token
    makeHttpRequest := fun _ _ _ _ _ _ => http
    crudRead := fun _ _ _ _ _ => (Value.null, read) }

/-- The module `m` with a read executor that returns the value `g v` where the one of
`m` returns `v`, and the same error. -/
def withReadValue (m : Module) (g : Value → Value) : Module :=
  { m with
    crudRead := fun calls dbAlias project col req =>
      (g (m.crudRead calls dbAlias project col req).1,
        (m.crudRead calls dbAlias project col req).2) }

/-- A rule of the given kind with every other field empty. -/
def ruleOfKind (kind : String) : Rule :=
  Rule.mk kind "" [] "" "" [] "" [] "" Value.null

/-- The rule `{rule: and, clauses: cs}`. -/
def andRule (cs : List Rule) : Rule :=
  Rule.mk "and" "" cs "" "" [] "" [] "" Value.null

/-- The rule `{rule: or, clauses: cs}`. -/
def orRule (cs : List Rule) : Rule :=
  Rule.mk "or" "" cs "" "" [] "" [] "" Value.null

/-- The rule `{rule: match, type: t, field: f, value: v}`. -/
def matchRuleOf (t f : String) (v : Value) : Rule :=
  Rule.mk "match" t [] "" "" [] "" [] f v

/-- The rule `{rule: force, field: f, value: v}`. -/
def forceRule (f : String) (v : Value) : Rule :=
  Rule.mk "force" "" [] "" "" [] "" [] f v

/-- The rule `{rule: remove, fields: fs}`. -/
def removeRule (fs : List String) : Rule :=
  Rule.mk "remove" "" [] "" "" [] "" fs "" Value.null

/-- The rule `{rule: webhook, url: u}`. -/
def webhookRule (u : String) : Rule :=
  Rule.mk "webhook" "" [] "" "" [] u [] "" Value.null

/-- The rule `{rule: query, db: db, col: col, find: find}`. -/
def queryRule (db col : String) (find : GoMap) : Rule :=
  Rule.mk "query" "" [] db col find "" [] "" Value.null

/-- The args `{"args": {"auth": {"id": id}, "token": "tkn"}}`. -/
def argsOfUser (id : String) : GoMap :=
  [("args", Value.obj [("auth", Value.obj [("id", Value.str id)]), ("token", Value.str "tkn")])]

/-! ## The update-query compiler (`modules/crud/sql`) -/

/-- The database families of `SQL.dbType`. -/
inductive Dialect where
  | mysql : Dialect
  | postgres : Dialect
  | sqlserver : Dialect
  deriving DecidableEq, Repr

/-- The struct `SQL`, with the field the compiler reads. -/
structure SQL where
  dbType : Dialect

/-- The struct `model.UpdateRequest`. -/
structure UpdateRequest where
  Find : GoMap
  Update : GoMap

/-- The error kinds of the compiler. -/
inductive CompileErr where
  | MissingOperatorPayload : CompileErr
  | UnsupportedOperator : CompileErr
  | InvalidOperand : CompileErr
  deriving DecidableEq, Repr

/-- A piece of a statement: literal text, or a placeholder with its ordinal and the
value bound to it. -/
inductive Piece where
  | text (s : String) : Piece
  | ph (ordinal : Nat) (value : Value) : Piece

/-- Modelled from the spec: the placeholder of a dialect for an ordinal, "a single
repeated placeholder token", "`$1, $2, …`" or "`@p1, @p2, …`"; the code of
`generateUpdateQuery` and its helpers is outside the files at hand. -/
def placeholder : Dialect → Nat → String
  | Dialect.mysql, _ => "?"
  | Dialect.postgres, n => "$" ++ toString n
  | Dialect.sqlserver, n => "@p" ++ toString n

/-- The text of a piece in a dialect. -/
def renderPiece (d : Dialect) : Piece → String
  | Piece.text s => s
  | Piece.ph n _ => placeholder d n

/-- The text of a list of pieces in a dialect. -/
def render (d : Dialect) : List Piece → String
  | [] => ""
  | p :: ps => renderPiece d p ++ render d ps

/-- The placeholders of a list of pieces, read left to right: ordinal and bound value. -/
def placeholders : List Piece → List (Nat × Value)
  | [] => []
  | Piece.text _ :: ps => placeholders ps
  | Piece.ph n v :: ps => (n, v) :: placeholders ps

/-- Modelled from the spec: the numeric coercion rule, "any integral operand (regardless
of input width) is carried as a 64-bit signed integer parameter; any non-integral numeric
operand is carried as a 64-bit floating-point parameter"; `none` for an operand that is
not numeric. The code of `generateUpdateQuery` and its helpers is outside the files at
hand. -/
def checkIfNum : Value → Option Value
  | Value.int n => some (Value.intN 64 n)
  | Value.intN _ n => some (Value.intN 64 n)
  | Value.float bits => some (Value.float bits)
  | _ => none

/-- Modelled from the spec: the six supported operators; the code of
`generateUpdateQuery` and its helpers is outside the files at hand. -/
def supportedOperators : List String :=
  ["$set", "$inc", "$mul", "$min", "$max", "$currentDate"]

/-- Modelled from the spec: the SET fragment of one field under an operator, with the
ordinal `n` (the table "Per-operator rendering"); the code of `generateUpdateQuery` and
its helpers is outside the files at hand. -/
def setFragment (op field : String) (operand : Value) (n : Nat) :
    Except CompileErr (List Piece) :=
  if op = "$set" then
    Except.ok [Piece.text (field ++ "="), Piece.ph n operand]
  else if op = "$inc" then
    match checkIfNum operand with
    | some p => Except.ok [Piece.text (field ++ "=" ++ field ++ "+"), Piece.ph n p]
    | none => Except.error CompileErr.InvalidOperand
  else if op = "$mul" then
    match checkIfNum operand with
    | some p => Except.ok [Piece.text (field ++ "=" ++ field ++ "*"), Piece.ph n p]
    | none => Except.error CompileErr.InvalidOperand
  else if op = "$min" then
    match checkIfNum operand with
    | some p =>
      Except.ok [Piece.text (field ++ "=LEAST(" ++ field ++ ","), Piece.ph n p, Piece.text ")"]
    | none => Except.error CompileErr.InvalidOperand
  else if op = "$max" then
    match checkIfNum operand with
    | some p =>
      Except.ok
        [Piece.text (field ++ "=GREATEST(" ++ field ++ ","), Piece.ph n p, Piece.text ")"]
    | none => Except.error CompileErr.InvalidOperand
  else if op = "$currentDate" then
    match operand with
    | Value.obj operandMap =>
      match mapGet "$type" operandMap with
      | some (Value.str t) =>
        if t = "timestamp" then Except.ok [Piece.text (field ++ "=CURRENT_TIMESTAMP")]
        else if t = "date" then Except.ok [Piece.text (field ++ "=CURRENT_DATE")]
        else Except.error CompileErr.InvalidOperand
      | _ => Except.error CompileErr.InvalidOperand
    | _ => Except.error CompileErr.InvalidOperand
  else
    Except.error CompileErr.UnsupportedOperator

/-- Modelled from the spec: the comma-joined SET fragments of the fields of the operator
map, in the map's key order, the first with ordinal `n` and each next field with the
next ordinal; the first failing field ends the loop with its error. The code of
`generateUpdateQuery` and its helpers is outside the files at hand. -/
def setFragments (op : String) : GoMap → Nat → Except CompileErr (List Piece)
  | [], _ => Except.ok []
  | [(field, operand)], n => setFragment op field operand n
  | (field, operand) :: next :: rest, n =>
    match setFragment op field operand n with
    | Except.error e => Except.error e
    | Except.ok fragment =>
      match setFragments op (next :: rest) (n + 1) with
      | Except.error e => Except.error e
      | Except.ok fragments => Except.ok (fragment ++ Piece.text "," :: fragments)

/-- Modelled from the spec: the parameter of a find value, coerced like an operand when
it is numeric and as given otherwise; the code of `generateUpdateQuery` and its helpers
is outside the files at hand. -/
def findParam (v : Value) : Value :=
  match checkIfNum v with
  | some p => p
  | none => v

/-- Modelled from the spec: the equality predicates `(field = <placeholder>)` of a find
map joined by `" AND "`, in the map's key order, the first with ordinal `n`; the code of
`generateUpdateQuery` and its helpers is outside the files at hand. -/
def wherePredicates : GoMap → Nat → List Piece
  | [], _ => []
  | [(field, v)], n =>
    [Piece.text ("(" ++ field ++ " = "), Piece.ph n (findParam v), Piece.text ")"]
  | (field, v) :: next :: rest, n =>
    [Piece.text ("(" ++ field ++ " = "), Piece.ph n (findParam v), Piece.text ")",
      Piece.text " AND "] ++ wherePredicates (next :: rest) (n + 1)

/-- Modelled from the spec: the WHERE clause of a find map, none for no predicate, the
predicate alone for one, and the conjunction in one more pair of parentheses for
several; the code of `generateUpdateQuery` and its helpers is outside the files at
hand. -/
def whereClause (find : GoMap) (n : Nat) : List Piece :=
  match find with
  | [] => []
  | [_] => Piece.text " WHERE " :: wherePredicates find n
  | _ :: _ :: _ => Piece.text " WHERE (" :: wherePredicates find n ++ [Piece.text ")"]

/-- Modelled from the spec: the pieces of the statement `UPDATE ... SET ... WHERE ...`
for a request and an operator (§4.2): the payload of the operator must be a map, the
operator one of the six, every field must render; the WHERE ordinals continue after one
ordinal per SET field. The code of `generateUpdateQuery` and its helpers is outside the
files at hand. -/
def updatePieces (project col : String) (req : UpdateRequest) (op : String) :
    Except CompileErr (List Piece) :=
  match mapGet op req.Update with
  | some (Value.obj m) =>
    if op ∈ supportedOperators then
      match setFragments op m 1 with
      | Except.error e => Except.error e
      | Except.ok fragments =>
        Except.ok (Piece.text ("UPDATE " ++ project ++ "." ++ col ++ " SET ") :: fragments
          ++ whereClause req.Find (m.length + 1))
    else Except.error CompileErr.UnsupportedOperator
  | _ => Except.error CompileErr.MissingOperatorPayload

/-- Modelled from the spec: the method `SQL.generateUpdateQuery`: the statement text, the
parameters (`none` is the nil slice) and the error (`none` is nil); on an error the text
is empty and the parameters are nil. Its code is outside the files at hand, which hold its
tests. -/
def generateUpdateQuery (s : SQL) (project col : String) (req : UpdateRequest) (op : String) :
    String × Option (List Value) × Option CompileErr :=
  match updatePieces project col req op with
  | Except.error e => ("", none, some e)
  | Except.ok pieces =>
    (render s.dbType pieces, some ((placeholders pieces).map Prod.snd), none)

/-! ## Notions used to state the properties of the compiler -/

/-- The fragments joined by the text `","`. -/
def joinFragments : List (List Piece) → List Piece
  | [] => []
  | [f] => f
  | f :: g :: rest => f ++ Piece.text "," :: joinFragments (g :: rest)

/-- The strings joined by `","`. -/
def joinComma : List String → String
  | [] => ""
  | [s] => s
  | s :: t :: rest => s ++ "," ++ joinComma (t :: rest)

/-- The text of the SET fragment of a field under one of the five operators that bind a
value, with the placeholder of the dialect for the ordinal `n`: `f=<ph>`, `f=f+<ph>`,
`f=f*<ph>`, `f=LEAST(f,<ph>)`, `f=GREATEST(f,<ph>)`. -/
def fragmentText (d : Dialect) (op field : String) (n : Nat) : String :=
  if op = "$set" then field ++ "=" ++ placeholder d n
  else if op = "$inc" then field ++ "=" ++ field ++ "+" ++ placeholder d n
  else if op = "$mul" then field ++ "=" ++ field ++ "*" ++ placeholder d n
  else if op = "$min" then field ++ "=LEAST(" ++ field ++ "," ++ placeholder d n ++ ")"
  else field ++ "=GREATEST(" ++ field ++ "," ++ placeholder d n ++ ")"

/-- The operand of `$currentDate` is a map whose `$type` is the string `t`. -/
def HasDateType (operand : Value) (t : String) : Prop :=
  ∃ operandMap, operand = Value.obj operandMap ∧
    mapGet "$type" operandMap = some (Value.str t)

/-- The keyword of a `$type`: `CURRENT_TIMESTAMP` for `"timestamp"`, `CURRENT_DATE`
otherwise. -/
def dateKeyword (t : String) : String :=
  if t = "timestamp" then "CURRENT_TIMESTAMP" else "CURRENT_DATE"

/-- The parameters of the find values, in the map's key order. -/
def findParams (find : GoMap) : List Value :=
  find.map fun kv => findParam kv.2

/-- The operand `v` is an integer of some width or a float and `p` is the 64-bit signed
integer or the 64-bit float of the same value. -/
def Coerced (v p : Value) : Prop :=
  (∃ n, v = Value.int n ∧ p = Value.intN 64 n) ∨
  (∃ w n, v = Value.intN w n ∧ p = Value.intN 64 n) ∨
  (∃ bits, v = Value.float bits ∧ p = Value.float bits)

/-- The text of the equality predicate of a field, `(f = <ph>)`, with the placeholder of
the dialect for the ordinal `n`. -/
def predicateText (d : Dialect) (field : String) (n : Nat) : String :=
  "(" ++ field ++ " = " ++ placeholder d n ++ ")"

/-- The strings joined by `" AND "`. -/
def joinAnd : List String → String
  | [] => ""
  | [s] => s
  | s :: t :: rest => s ++ " AND " ++ joinAnd (t :: rest)

/-- The text of the WHERE clause of a find map whose first predicate has the ordinal `n`:
nothing for no predicate, ` WHERE (f1 = <ph>)` for one, and
` WHERE ((f1 = <ph>) AND (f2 = <ph>) ...)` for several. -/
def whereText (d : Dialect) (find : GoMap) (n : Nat) : String :=
  match find with
  | [] => ""
  | [(field, _)] => " WHERE " ++ predicateText d field n
  | _ :: _ :: _ =>
    " WHERE (" ++ joinAnd ((find.enumFrom n).map fun ikv => predicateText d ikv.2.1 ikv.1)
      ++ ")"

mutual

/-- The number of force nodes of a rule tree plus the number of fields of its remove
nodes. -/
def actionBound : Rule → Nat
  | Rule.mk r _ cs _ _ _ _ fs _ _ =>
    (if r = "force" then 1 else 0) + (if r = "remove" then fs.length else 0)
      + actionBoundList cs

/-- The sum of `actionBound` over a list of rule trees. -/
def actionBoundList : List Rule → Nat
  | [] => 0
  | r :: rs => actionBound r + actionBoundList rs

end

/-- The action is a force or a remove on a field that starts with `"res"`, a remove with
a nil value. -/
def ResAction (a : PostProcessAction) : Prop :=
  (a.Action = "force" ∨ (a.Action = "remove" ∧ a.Value = Value.null)) ∧
    HasPrefix a.Field "res" = true

/-- The outcome, when its error is nil, holds only actions on `res` fields, at most `n`
of them. -/
def Outcome.ResActions (n : Nat) : Outcome → Prop
  | Outcome.ret pp none => (∀ a ∈ actionsOf pp, ResAction a) ∧ (actionsOf pp).length ≤ n
  | _ => True

/-- The map `args["args"]` exists, is a map, and holds a string under `"token"`. -/
def HasToken (args : GoMap) : Prop :=
  ∃ (obj : GoMap) (token : String),
    mapGet "args" args = some (Value.obj obj) ∧ mapGet "token" obj = some (Value.str token)

/-! # Lemmas about the embedding -/

theorem isInternalUser_eq_true_iff (m : Module) (auth : GoMap) :
    isInternalUser m auth = true ↔ mapGet "id" auth = some (Value.str m.InternalUserID) := by
  unfold isInternalUser
  split
  · rename_i id h
    rw [h]
    simp
  · rename_i h
    constructor
    · intro hf; cases hf
    · intro hg; exact absurd hg (h _)

/-! ## Unfolding lemmas -/

theorem matchAndLoop_nil (m : Module) (project : String) (st : State) (auth : GoMap)
    (acc : List PostProcessAction) :
    matchAndLoop m project [] st auth acc = ([], st, Outcome.ret (some ⟨acc⟩) none) := by
  rw [matchAndLoop]

theorem matchAndLoop_cons (m : Module) (project : String) (r : Rule) (rest : List Rule)
    (st : State) (auth : GoMap) (acc : List PostProcessAction) :
    matchAndLoop m project (r :: rest) st auth acc =
      match matchRule m project r st auth with
      | (r', st', Outcome.panic) => (r' :: rest, st', Outcome.panic)
      | (r', st', Outcome.ret _ (some err)) =>
        (r' :: rest, st', Outcome.ret (some ⟨[]⟩) (some err))
      | (r', st', Outcome.ret none none) => (r' :: rest, st', Outcome.panic)
      | (r', st', Outcome.ret (some postProcess) none) =>
        match matchAndLoop m project rest st' auth (acc ++ postProcess.PostProcessAction) with
        | (rest', st'', o) => (r' :: rest', st'', o) := by
  rw [matchAndLoop]

theorem matchOrLoop_nil (m : Module) (project : String) (st : State) (auth : GoMap) :
    matchOrLoop m project [] st auth
      = ([], st, Outcome.ret (some ⟨[]⟩) (some Err.ErrIncorrectMatch)) := by
  rw [matchOrLoop]

theorem matchOrLoop_cons (m : Module) (project : String) (r : Rule) (rest : List Rule)
    (st : State) (auth : GoMap) :
    matchOrLoop m project (r :: rest) st auth =
      match matchRule m project r st auth with
      | (r', st', Outcome.panic) => (r' :: rest, st', Outcome.panic)
      | (r', st', Outcome.ret postProcess none) =>
        (r' :: rest, st', Outcome.ret postProcess none)
      | (r', st', Outcome.ret _ (some _)) =>
        match matchOrLoop m project rest st' auth with
        | (rest', st'', o) => (r' :: rest', st'', o) := by
  rw [matchOrLoop]

theorem matchForce_sound (m : Module) (rule : Rule) (args : GoMap) :
    (matchForce m rule args).2.Sound := by
  simp only [matchForce]
  split_ifs <;> trivial

theorem matchRemoveLoop_sound (m : Module) (fields : List String) :
    ∀ (args : GoMap) (actions : List PostProcessAction),
      (matchRemoveLoop m fields args actions).2.Sound := by
  induction fields with
  | nil => intro args actions; trivial
  | cons field rest ih =>
    intro args actions
    unfold matchRemoveLoop
    split
    · exact ih _ _
    · split
      · split
        · trivial
        · exact ih _ _
      · trivial

theorem matchAndLoop_sound (m : Module) (project : String) (auth : GoMap)
    (clauses : List Rule) :
    ∀ (st : State) (acc : List PostProcessAction),
      (matchAndLoop m project clauses st auth acc).2.2.Sound := by
  induction clauses with
  | nil => intro st acc; rw [matchAndLoop_nil]; trivial
  | cons r rest ih =>
    intro st acc
    rw [matchAndLoop_cons]
    split
    · trivial
    · trivial
    · trivial
    · exact ih _ _

theorem matchOrLoop_sound (m : Module) (project : String) (auth : GoMap)
    (clauses : List Rule)
    (hcl : ∀ r ∈ clauses, ∀ st, (matchRule m project r st auth).2.2.Sound) :
    ∀ (st : State), (matchOrLoop m project clauses st auth).2.2.Sound := by
  induction clauses with
  | nil => intro st; rw [matchOrLoop_nil]; trivial
  | cons r rest ih =>
    intro st
    rw [matchOrLoop_cons]
    have h1 := hcl r (List.mem_cons_self _ _) st
    split
    · trivial
    · rename_i heq
      rw [heq] at h1
      exact h1
    · exact ih (fun r' hr' => hcl r' (List.mem_cons_of_mem _ hr')) _

/-- The body of `matchRule`, with the two combinators as calls of `matchAnd`, `matchOr`. -/
theorem matchRule_eq (m : Module) (project : String) (rule : Rule) (st : State)
    (auth : GoMap) :
    matchRule m project rule st auth =
      if project ≠ m.project then
        (rule, st, Outcome.ret (some ⟨[]⟩) (some Err.invalidProject))
      else if rule.Rule = "allow" ∨ rule.Rule = "authenticated" then
        (rule, st, Outcome.ret (some ⟨[]⟩) none)
      else if isInternalUser m auth then
        (rule, st, Outcome.ret (some ⟨[]⟩) none)
      else if rule.Rule = "deny" then
        (rule, st, Outcome.ret (some ⟨[]⟩) (some Err.ErrIncorrectMatch))
      else if rule.Rule = "match" then
        (rule, st, Outcome.ret (some ⟨[]⟩) («match» m rule st.args))
      else if rule.Rule = "and" then matchAnd m project rule st auth
      else if rule.Rule = "or" then matchOr m project rule st auth
      else if rule.Rule = "webhook" then
        match matchFunc m rule st with
        | (st', some err) => (rule, st', Outcome.ret (some ⟨[]⟩) err)
        | (st', none) => (rule, st', Outcome.panic)
      else if rule.Rule = "query" then
        match matchQuery m project rule st with
        | (rule', st', some err) => (rule', st', Outcome.ret (some ⟨[]⟩) err)
        | (rule', st', none) => (rule', st', Outcome.panic)
      else if rule.Rule = "force" then
        ((rule, { st with args := (matchForce m rule st.args).1 }, (matchForce m rule st.args).2))
      else if rule.Rule = "remove" then
        ((rule, { st with args := (matchRemove m rule st.args).1 }, (matchRemove m rule st.args).2))
      else
        (rule, st, Outcome.ret (some ⟨[]⟩) (some Err.ErrIncorrectMatch)) := by
  cases rule with
  | mk r t cs db col f u fs fd v =>
    rw [matchRule]
    rfl

theorem matchRule_and (m : Module) (project : String) (rule : Rule) (st : State)
    (auth : GoMap) (hp : project = m.project) (hi : isInternalUser m auth = false)
    (hr : rule.Rule = "and") :
    matchRule m project rule st auth = matchAnd m project rule st auth := by
  rw [matchRule_eq]
  simp [hp, hi, hr]

theorem matchRule_or (m : Module) (project : String) (rule : Rule) (st : State)
    (auth : GoMap) (hp : project = m.project) (hi : isInternalUser m auth = false)
    (hr : rule.Rule = "or") :
    matchRule m project rule st auth = matchOr m project rule st auth := by
  rw [matchRule_eq]
  simp [hp, hi, hr]

theorem matchRule_match (m : Module) (project : String) (rule : Rule) (st : State)
    (auth : GoMap) (hp : project = m.project) (hi : isInternalUser m auth = false)
    (hr : rule.Rule = "match") :
    matchRule m project rule st auth
      = (rule, st, Outcome.ret (some ⟨[]⟩) («match» m rule st.args)) := by
  rw [matchRule_eq]
  simp [hp, hi, hr]

theorem matchRule_webhook (m : Module) (project : String) (rule : Rule) (st : State)
    (auth : GoMap) (hp : project = m.project) (hi : isInternalUser m auth = false)
    (hr : rule.Rule = "webhook") :
    matchRule m project rule st auth =
      match matchFunc m rule st with
      | (st', some err) => (rule, st', Outcome.ret (some ⟨[]⟩) err)
      | (st', none) => (rule, st', Outcome.panic) := by
  rw [matchRule_eq]
  simp [hp, hi, hr]

theorem matchRule_query (m : Module) (project : String) (rule : Rule) (st : State)
    (auth : GoMap) (hp : project = m.project) (hi : isInternalUser m auth = false)
    (hr : rule.Rule = "query") :
    matchRule m project rule st auth =
      match matchQuery m project rule st with
      | (rule', st', some err) => (rule', st', Outcome.ret (some ⟨[]⟩) err)
      | (rule', st', none) => (rule', st', Outcome.panic) := by
  rw [matchRule_eq]
  simp [hp, hi, hr]

theorem matchRule_force (m : Module) (project : String) (rule : Rule) (st : State)
    (auth : GoMap) (hp : project = m.project) (hi : isInternalUser m auth = false)
    (hr : rule.Rule = "force") :
    matchRule m project rule st auth
      = (rule, { st with args := (matchForce m rule st.args).1 },
          (matchForce m rule st.args).2) := by
  rw [matchRule_eq]
  simp [hp, hi, hr]

theorem matchRule_remove (m : Module) (project : String) (rule : Rule) (st : State)
    (auth : GoMap) (hp : project = m.project) (hi : isInternalUser m auth = false)
    (hr : rule.Rule = "remove") :
    matchRule m project rule st auth
      = (rule, { st with args := (matchRemove m rule st.args).1 },
          (matchRemove m rule st.args).2) := by
  rw [matchRule_eq]
  simp [hp, hi, hr]

/-- Case analysis on the branch `matchRule` takes. -/
theorem matchRule_cases (m : Module) (project : String) (rule : Rule) (st : State)
    (auth : GoMap) (P : Rule × State × Outcome → Prop)
    (h_err : ∀ e, P (rule, st, Outcome.ret (some ⟨[]⟩) (some e)))
    (h_ok : P (rule, st, Outcome.ret (some ⟨[]⟩) none))
    (h_and : P (matchAnd m project rule st auth))
    (h_or : P (matchOr m project rule st auth))
    (h_webhook : P (match matchFunc m rule st with
      | (st', some err) => (rule, st', Outcome.ret (some ⟨[]⟩) err)
      | (st', none) => (rule, st', Outcome.panic)))
    (h_query : P (match matchQuery m project rule st with
      | (rule', st', some err) => (rule', st', Outcome.ret (some ⟨[]⟩) err)
      | (rule', st', none) => (rule', st', Outcome.panic)))
    (h_force : P (rule, { st with args := (matchForce m rule st.args).1 },
          (matchForce m rule st.args).2))
    (h_remove : P (rule, { st with args := (matchRemove m rule st.args).1 },
          (matchRemove m rule st.args).2)) :
    P (matchRule m project rule st auth) := by
  rw [matchRule_eq]
  by_cases h0 : project ≠ m.project
  · rw [if_pos h0]; exact h_err _
  rw [if_neg h0]
  by_cases h1 : rule.Rule = "allow" ∨ rule.Rule = "authenticated"
  · rw [if_pos h1]; exact h_ok
  rw [if_neg h1]
  by_cases h2 : isInternalUser m auth = true
  · rw [if_pos h2]; exact h_ok
  rw [if_neg h2]
  by_cases h3 : rule.Rule = "deny"
  · rw [if_pos h3]; exact h_err _
  rw [if_neg h3]
  by_cases h4 : rule.Rule = "match"
  · rw [if_pos h4]
    cases h : «match» m rule st.args
    · exact h_ok
    · exact h_err _
  rw [if_neg h4]
  by_cases h5 : rule.Rule = "and"
  · rw [if_pos h5]; exact h_and
  rw [if_neg h5]
  by_cases h6 : rule.Rule = "or"
  · rw [if_pos h6]; exact h_or
  rw [if_neg h6]
  by_cases h7 : rule.Rule = "webhook"
  · rw [if_pos h7]; exact h_webhook
  rw [if_neg h7]
  by_cases h8 : rule.Rule = "query"
  · rw [if_pos h8]; exact h_query
  rw [if_neg h8]
  by_cases h9 : rule.Rule = "force"
  · rw [if_pos h9]; exact h_force
  rw [if_neg h9]
  by_cases h10 : rule.Rule = "remove"
  · rw [if_pos h10]; exact h_remove
  rw [if_neg h10]
  exact h_err _

theorem matchRule_sound (m : Module) (project : String) (auth : GoMap) (rule : Rule) :
    ∀ st, (matchRule m project rule st auth).2.2.Sound :=
  Rule.rec
    (motive_1 := fun rule => ∀ st, (matchRule m project rule st auth).2.2.Sound)
    (motive_2 := fun cs => ∀ r ∈ cs, ∀ st, (matchRule m project r st auth).2.2.Sound)
    (fun r t cs db col f u fs fd v ih st => by
      apply matchRule_cases m project _ st auth (fun x => x.2.2.Sound)
      · intro e; trivial
      · trivial
      · exact matchAndLoop_sound m _ auth cs st []
      · exact matchOrLoop_sound m _ auth cs ih st
      · show Outcome.Sound (Prod.snd (Prod.snd _))
        split <;> trivial
      · show Outcome.Sound (Prod.snd (Prod.snd _))
        split <;> trivial
      · exact matchForce_sound m _ _
      · exact matchRemoveLoop_sound m _ _ _)
    (fun r hr => by cases hr)
    (fun head tail ih1 ih2 r hr => by
      cases hr with
      | head => exact ih1
      | tail _ h => exact ih2 r h)
    rule

/-! ## The two combinator loops along a run of clauses -/

theorem matchRule_ok_some (m : Module) (project : String) (auth : GoMap) (rule : Rule)
    (st : State) (r' : Rule) (st' : State) (pp : Option PostProcess)
    (h : matchRule m project rule st auth = (r', st', Outcome.ret pp none)) :
    ∃ p, pp = some p := by
  have hs := matchRule_sound m project auth rule st
  rw [h] at hs
  cases pp with
  | none => exact absurd hs (by simp [Outcome.Sound])
  | some p => exact ⟨p, rfl⟩

theorem matchAndLoop_cons_ok (m : Module) (project : String) (auth : GoMap) (r : Rule)
    (rest : List Rule) (st : State) (acc : List PostProcessAction) (r' : Rule) (st' : State)
    (pp : Option PostProcess)
    (h : matchRule m project r st auth = (r', st', Outcome.ret pp none)) :
    matchAndLoop m project (r :: rest) st auth acc =
      (r' :: (matchAndLoop m project rest st' auth (acc ++ actionsOf pp)).1,
        (matchAndLoop m project rest st' auth (acc ++ actionsOf pp)).2) := by
  obtain ⟨p, rfl⟩ := matchRule_ok_some m project auth r st r' st' pp h
  rw [matchAndLoop_cons, h]
  rfl

theorem matchAndLoop_cons_err (m : Module) (project : String) (auth : GoMap) (r : Rule)
    (rest : List Rule) (st : State) (acc : List PostProcessAction) (r' : Rule) (st' : State)
    (pp : Option PostProcess) (e : Err)
    (h : matchRule m project r st auth = (r', st', Outcome.ret pp (some e))) :
    matchAndLoop m project (r :: rest) st auth acc =
      (r' :: rest, st', Outcome.ret (some ⟨[]⟩) (some e)) := by
  rw [matchAndLoop_cons, h]
  cases pp <;> rfl

theorem matchOrLoop_cons_ok (m : Module) (project : String) (auth : GoMap) (r : Rule)
    (rest : List Rule) (st : State) (r' : Rule) (st' : State) (pp : Option PostProcess)
    (h : matchRule m project r st auth = (r', st', Outcome.ret pp none)) :
    matchOrLoop m project (r :: rest) st auth = (r' :: rest, st', Outcome.ret pp none) := by
  rw [matchOrLoop_cons, h]

theorem matchOrLoop_cons_err (m : Module) (project : String) (auth : GoMap) (r : Rule)
    (rest : List Rule) (st : State) (r' : Rule) (st' : State) (pp : Option PostProcess)
    (e : Err) (h : matchRule m project r st auth = (r', st', Outcome.ret pp (some e))) :
    matchOrLoop m project (r :: rest) st auth =
      (r' :: (matchOrLoop m project rest st' auth).1,
        (matchOrLoop m project rest st' auth).2) := by
  rw [matchOrLoop_cons, h]

/-- What `succeedAll` says about a first clause and the rest. -/
theorem succeedAll_cons_eq_some (m : Module) (project : String) (auth : GoMap) (r : Rule)
    (rest : List Rule) (st : State) (cs' : List Rule) (st' : State)
    (acts : List PostProcessAction)
    (h : succeedAll m project auth (r :: rest) st = some (cs', st', acts)) :
    ∃ r' st1 pp rest' acts',
      matchRule m project r st auth = (r', st1, Outcome.ret pp none) ∧
      succeedAll m project auth rest st1 = some (rest', st', acts') ∧
      cs' = r' :: rest' ∧ acts = actionsOf pp ++ acts' := by
  rw [succeedAll] at h
  split at h
  · rename_i r' st1 pp hm
    split at h
    · rename_i rest' st2 acts' hs
      simp only [Option.some.injEq, Prod.mk.injEq] at h
      obtain ⟨h1, h2, h3⟩ := h
      subst h2
      exact ⟨r', st1, pp, rest', acts', hm, hs, h1.symm, h3.symm⟩
    · cases h
  · cases h

/-- What `failAll` says about a first clause and the rest. -/
theorem failAll_cons_eq_some (m : Module) (project : String) (auth : GoMap) (r : Rule)
    (rest : List Rule) (st : State) (cs' : List Rule) (st' : State)
    (h : failAll m project auth (r :: rest) st = some (cs', st')) :
    ∃ r' st1 pp e rest',
      matchRule m project r st auth = (r', st1, Outcome.ret pp (some e)) ∧
      failAll m project auth rest st1 = some (rest', st') ∧ cs' = r' :: rest' := by
  rw [failAll] at h
  split at h
  · rename_i r' st1 pp e hm
    split at h
    · rename_i rest' st2 hs
      simp only [Option.some.injEq, Prod.mk.injEq] at h
      obtain ⟨h1, h2⟩ := h
      subst h2
      exact ⟨r', st1, pp, e, rest', hm, hs, h1.symm⟩
    · cases h
  · cases h

theorem matchAndLoop_of_succeedAll (m : Module) (project : String) (auth : GoMap)
    (cs : List Rule) :
    ∀ (st : State) (acc : List PostProcessAction) (cs' : List Rule) (st' : State)
      (acts : List PostProcessAction),
      succeedAll m project auth cs st = some (cs', st', acts) →
      matchAndLoop m project cs st auth acc
        = (cs', st', Outcome.ret (some ⟨acc ++ acts⟩) none) := by
  induction cs with
  | nil =>
    intro st acc cs' st' acts h
    simp only [succeedAll, Option.some.injEq, Prod.mk.injEq] at h
    obtain ⟨h1, h2, h3⟩ := h
    subst h1 h2 h3
    rw [matchAndLoop_nil, List.append_nil]
  | cons r rest ih =>
    intro st acc cs' st' acts h
    obtain ⟨r', st1, pp, rest', acts', hm, hs, hcs, hacts⟩ :=
      succeedAll_cons_eq_some m project auth r rest st cs' st' acts h
    rw [matchAndLoop_cons_ok m project auth r rest st acc r' st1 pp hm,
      ih st1 (acc ++ actionsOf pp) rest' st' acts' hs, hcs, hacts, List.append_assoc]

theorem matchAndLoop_short_circuit (m : Module) (project : String) (auth : GoMap)
    (pre : List Rule) :
    ∀ (st : State) (acc : List PostProcessAction) (pre' : List Rule) (st1 : State)
      (acts : List PostProcessAction) (c : Rule) (post : List Rule) (c' : Rule) (st2 : State)
      (pp : Option PostProcess) (e : Err),
      succeedAll m project auth pre st = some (pre', st1, acts) →
      matchRule m project c st1 auth = (c', st2, Outcome.ret pp (some e)) →
      matchAndLoop m project (pre ++ c :: post) st auth acc
        = (pre' ++ c' :: post, st2, Outcome.ret (some ⟨[]⟩) (some e)) := by
  induction pre with
  | nil =>
    intro st acc pre' st1 acts c post c' st2 pp e h hc
    simp only [succeedAll, Option.some.injEq, Prod.mk.injEq] at h
    obtain ⟨h1, h2, _⟩ := h
    subst h1 h2
    rw [List.nil_append, matchAndLoop_cons_err m project auth c post st acc c' st2 pp e hc]
    rfl
  | cons r rest ih =>
    intro st acc pre' st1 acts c post c' st2 pp e h hc
    obtain ⟨r', st0, pp0, rest', acts', hm, hs, hcs, _⟩ :=
      succeedAll_cons_eq_some m project auth r rest st pre' st1 acts h
    rw [List.cons_append, matchAndLoop_cons_ok m project auth r _ st acc r' st0 pp0 hm,
      ih st0 (acc ++ actionsOf pp0) rest' st1 acts' c post c' st2 pp e hs hc, hcs,
      List.cons_append]

theorem matchOrLoop_first_success (m : Module) (project : String) (auth : GoMap)
    (pre : List Rule) :
    ∀ (st : State) (pre' : List Rule) (st1 : State) (c : Rule) (post : List Rule) (c' : Rule)
      (st2 : State) (pp : Option PostProcess),
      failAll m project auth pre st = some (pre', st1) →
      matchRule m project c st1 auth = (c', st2, Outcome.ret pp none) →
      matchOrLoop m project (pre ++ c :: post) st auth
        = (pre' ++ c' :: post, st2, Outcome.ret pp none) := by
  induction pre with
  | nil =>
    intro st pre' st1 c post c' st2 pp h hc
    simp only [failAll, Option.some.injEq, Prod.mk.injEq] at h
    obtain ⟨h1, h2⟩ := h
    subst h1 h2
    rw [List.nil_append, matchOrLoop_cons_ok m project auth c post st c' st2 pp hc]
    rfl
  | cons r rest ih =>
    intro st pre' st1 c post c' st2 pp h hc
    obtain ⟨r', st0, pp0, e, rest', hm, hs, hcs⟩ :=
      failAll_cons_eq_some m project auth r rest st pre' st1 h
    rw [List.cons_append, matchOrLoop_cons_err m project auth r _ st r' st0 pp0 e hm,
      ih st0 rest' st1 c post c' st2 pp hs hc, hcs, List.cons_append]

theorem matchOrLoop_of_failAll (m : Module) (project : String) (auth : GoMap)
    (cs : List Rule) :
    ∀ (st : State) (cs' : List Rule) (st' : State),
      failAll m project auth cs st = some (cs', st') →
      matchOrLoop m project cs st auth
        = (cs', st', Outcome.ret (some ⟨[]⟩) (some Err.ErrIncorrectMatch)) := by
  induction cs with
  | nil =>
    intro st cs' st' h
    simp only [failAll, Option.some.injEq, Prod.mk.injEq] at h
    obtain ⟨h1, h2⟩ := h
    subst h1 h2
    rw [matchOrLoop_nil]
  | cons r rest ih =>
    intro st cs' st' h
    obtain ⟨r', st0, pp0, e, rest', hm, hs, hcs⟩ :=
      failAll_cons_eq_some m project auth r rest st cs' st' h
    rw [matchOrLoop_cons_err m project auth r _ st r' st0 pp0 e hm, ih st0 rest' st' hs, hcs]

theorem isInternalUser_eq_false (m : Module) (auth : GoMap)
    (hid : mapGet "id" auth ≠ some (Value.str m.InternalUserID)) :
    isInternalUser m auth = false := by
  cases h : isInternalUser m auth
  · rfl
  · exact absurd ((isInternalUser_eq_true_iff m auth).1 h) hid

theorem setClauses_self (rule : Rule) : rule.setClauses rule.Clauses = rule := by
  cases rule; rfl

theorem matchRule_deny_eq (m : Module) (project : String) (rule : Rule) (st : State)
    (auth : GoMap) (hp : project = m.project) (hi : isInternalUser m auth = false)
    (hr : rule.Rule = "deny") :
    matchRule m project rule st auth
      = (rule, st, Outcome.ret (some ⟨[]⟩) (some Err.ErrIncorrectMatch)) := by
  rw [matchRule_eq]
  simp [hp, hi, hr]

theorem hasPrefix_args_not_res (s : String) (h : HasPrefix s "args" = true) :
    HasPrefix s "res" = false := by
  unfold HasPrefix at *
  cases hs : s.data with
  | nil => rw [hs] at h; simp [List.isPrefixOf] at h
  | cons c cs =>
    rw [hs] at h
    have hc : c = 'a' := by
      simp [List.isPrefixOf] at h
      exact h.1.symm
    subst hc
    simp [List.isPrefixOf]

theorem matchForce_value (m : Module) (rule : Rule) (args : GoMap) :
    matchForce m rule args =
      if HasPrefix rule.Field "res" then
        (args, Outcome.ret (some ⟨[⟨"force", rule.Field, effectiveValue m rule args⟩]⟩) none)
      else if HasPrefix rule.Field "args" then
        ((m.StoreValue rule.Field (effectiveValue m rule args) args).1,
          Outcome.ret (some ⟨[]⟩) (m.StoreValue rule.Field (effectiveValue m rule args) args).2)
      else
        (args, Outcome.ret none (some Err.ErrIncorrectRuleFieldType)) := by
  rfl

/-- For every module: a query rule is left with the adjusted filter as its `Find`. -/
theorem matchRule_query_sets_find (m : Module) (project : String) (rule : Rule) (st : State)
    (auth : GoMap) (find : GoMap) (hp : project = m.project)
    (hi : isInternalUser m auth = false) (hr : rule.Rule = "query")
    (ha : m.Adjust (Value.obj rule.Find) st.args = Value.obj find) :
    (matchRule m project rule st auth).1 = rule.setFind find := by
  rw [matchRule_query m project rule st auth hp hi hr]
  simp [matchQuery, ha]

/-! ## Maps -/

theorem mapGet_mapDelete_self (k : String) (mp : GoMap) : mapGet k (mapDelete k mp) = none := by
  induction mp with
  | nil => rfl
  | cons kv rest ih =>
    obtain ⟨k', v⟩ := kv
    by_cases h : k' = k
    · simp [mapDelete, h, ih]
    · simp [mapDelete, mapGet, h, ih]

theorem mapGet_mapSet_self (k : String) (v : Value) (mp : GoMap) :
    mapGet k (mapSet k v mp) = some v := by
  induction mp with
  | nil => simp [mapSet, mapGet]
  | cons kv rest ih =>
    obtain ⟨k', v'⟩ := kv
    by_cases h : k' = k
    · simp [mapSet, mapGet, h]
    · simp [mapSet, mapGet, h, ih]

theorem hasPrefix_res_not_args (s : String) (h : HasPrefix s "res" = true) :
    HasPrefix s "args" = false := by
  cases h' : HasPrefix s "args"
  · rfl
  · rw [hasPrefix_args_not_res s h'] at h
    cases h

/-! ## `matchForce` and `matchRemove` -/

theorem matchForce_eq_forceWith (m : Module) (rule : Rule) (args : GoMap) :
    matchForce m rule args = forceWith m rule args (effectiveValue m rule args) := by
  rfl

theorem matchRemoveLoop_nil (m : Module) (args : GoMap) (actions : List PostProcessAction) :
    matchRemoveLoop m [] args actions = (args, Outcome.ret (some ⟨actions⟩) none) := by
  rfl

theorem matchRemoveLoop_cons_res (m : Module) (f : String) (rest : List String) (args : GoMap)
    (actions : List PostProcessAction) (h : HasPrefix f "res" = true) :
    matchRemoveLoop m (f :: rest) args actions
      = matchRemoveLoop m rest args (actions ++ [⟨"remove", f, Value.null⟩]) := by
  rw [matchRemoveLoop, if_pos h]

theorem matchRemoveLoop_cons_args_ok (m : Module) (f : String) (rest : List String)
    (args args' : GoMap) (actions : List PostProcessAction) (h : HasPrefix f "args" = true)
    (hd : m.DeleteValue f args = (args', none)) :
    matchRemoveLoop m (f :: rest) args actions = matchRemoveLoop m rest args' actions := by
  have hres : ¬ (HasPrefix f "res" = true) := by
    rw [hasPrefix_args_not_res f h]; simp
  rw [matchRemoveLoop, if_neg hres, if_pos h, hd]

theorem matchRemoveLoop_cons_args_err (m : Module) (f : String) (rest : List String)
    (args args' : GoMap) (actions : List PostProcessAction) (e : Err)
    (h : HasPrefix f "args" = true) (hd : m.DeleteValue f args = (args', some e)) :
    matchRemoveLoop m (f :: rest) args actions = (args', Outcome.ret none (some e)) := by
  have hres : ¬ (HasPrefix f "res" = true) := by
    rw [hasPrefix_args_not_res f h]; simp
  rw [matchRemoveLoop, if_neg hres, if_pos h, hd]

theorem matchRemoveLoop_cons_other (m : Module) (f : String) (rest : List String)
    (args : GoMap) (actions : List PostProcessAction) (hres : HasPrefix f "res" = false)
    (hargs : HasPrefix f "args" = false) :
    matchRemoveLoop m (f :: rest) args actions
      = (args, Outcome.ret none (some Err.ErrIncorrectRuleFieldType)) := by
  rw [matchRemoveLoop, hres, hargs]
  rfl

theorem deleteEach_cons_eq_some (m : Module) (f : String) (rest : List String)
    (args args' : GoMap) (h : deleteEach m (f :: rest) args = some args') :
    ∃ args1, m.DeleteValue f args = (args1, none) ∧ deleteEach m rest args1 = some args' := by
  rw [deleteEach] at h
  split at h
  · rename_i args1 hd
    exact ⟨args1, hd, h⟩
  · cases h

/-- The loop of `matchRemove` along fields that all start with `"res"` or `"args"`, while
every deletion succeeds. -/
theorem matchRemoveLoop_run (m : Module) (fields : List String) :
    ∀ (args args' : GoMap) (actions : List PostProcessAction) (rest : List String),
      (∀ f ∈ fields, HasPrefix f "res" = true ∨ HasPrefix f "args" = true) →
      deleteEach m (argsFields fields) args = some args' →
      matchRemoveLoop m (fields ++ rest) args actions
        = matchRemoveLoop m rest args' (actions ++ removeActions fields) := by
  induction fields with
  | nil =>
    intro args args' actions rest _ hd
    simp only [argsFields, List.filter_nil, deleteEach, Option.some.injEq] at hd
    subst hd
    simp [removeActions]
  | cons f fs ih =>
    intro args args' actions rest hall hd
    have hfs : ∀ g ∈ fs, HasPrefix g "res" = true ∨ HasPrefix g "args" = true :=
      fun g hg => hall g (List.mem_cons_of_mem _ hg)
    rcases hall f (List.mem_cons_self _ _) with hres | hargs
    · have hna := hasPrefix_res_not_args f hres
      have hd' : deleteEach m (argsFields fs) args = some args' := by
        simpa [argsFields, List.filter_cons, hna] using hd
      rw [List.cons_append, matchRemoveLoop_cons_res m f _ args actions hres,
        ih args args' _ rest hfs hd']
      simp [removeActions, List.filter_cons, hres]
    · have hnr := hasPrefix_args_not_res f hargs
      have hd' : deleteEach m (f :: argsFields fs) args = some args' := by
        simpa [argsFields, List.filter_cons, hargs] using hd
      obtain ⟨args1, hdel, hrest⟩ := deleteEach_cons_eq_some m f _ args args' hd'
      rw [List.cons_append, matchRemoveLoop_cons_args_ok m f _ args args1 actions hargs hdel,
        ih args1 args' _ rest hfs hrest]
      simp [removeActions, List.filter_cons, hnr]

/-! ## No actions next to an error -/

theorem forceWith_errNoActions (m : Module) (rule : Rule) (args : GoMap) (value : Value) :
    (forceWith m rule args value).2.ErrNoActions := by
  unfold forceWith
  by_cases h1 : HasPrefix rule.Field "res" = true
  · rw [if_pos h1]; trivial
  rw [if_neg h1]
  by_cases h2 : HasPrefix rule.Field "args" = true
  · rw [if_pos h2]
    show Outcome.ErrNoActions (Outcome.ret _ _)
    cases (m.StoreValue rule.Field value args).2 <;> simp [Outcome.ErrNoActions, actionsOf]
  · rw [if_neg h2]
    simp [Outcome.ErrNoActions, actionsOf]

theorem matchRemoveLoop_errNoActions (m : Module) (fields : List String) :
    ∀ (args : GoMap) (actions : List PostProcessAction),
      (matchRemoveLoop m fields args actions).2.ErrNoActions := by
  induction fields with
  | nil => intro args actions; trivial
  | cons f rest ih =>
    intro args actions
    cases hres : HasPrefix f "res"
    · cases hargs : HasPrefix f "args"
      · rw [matchRemoveLoop_cons_other m f rest args actions hres hargs]
        simp [Outcome.ErrNoActions, actionsOf]
      · cases hd : m.DeleteValue f args with
        | mk args' err =>
          cases err with
          | none =>
            rw [matchRemoveLoop_cons_args_ok m f rest args args' actions hargs hd]
            exact ih _ _
          | some e =>
            rw [matchRemoveLoop_cons_args_err m f rest args args' actions e hargs hd]
            simp [Outcome.ErrNoActions, actionsOf]
    · rw [matchRemoveLoop_cons_res m f rest args actions hres]
      exact ih _ _

theorem matchAndLoop_errNoActions (m : Module) (project : String) (auth : GoMap)
    (clauses : List Rule) :
    ∀ (st : State) (acc : List PostProcessAction),
      (matchAndLoop m project clauses st auth acc).2.2.ErrNoActions := by
  induction clauses with
  | nil => intro st acc; rw [matchAndLoop_nil]; trivial
  | cons r rest ih =>
    intro st acc
    rw [matchAndLoop_cons]
    split
    · trivial
    · simp [Outcome.ErrNoActions, actionsOf]
    · trivial
    · exact ih _ _

theorem matchOrLoop_errNoActions (m : Module) (project : String) (auth : GoMap)
    (clauses : List Rule) :
    ∀ (st : State), (matchOrLoop m project clauses st auth).2.2.ErrNoActions := by
  induction clauses with
  | nil => intro st; rw [matchOrLoop_nil]; simp [Outcome.ErrNoActions, actionsOf]
  | cons r rest ih =>
    intro st
    rw [matchOrLoop_cons]
    split
    · trivial
    · trivial
    · exact ih _

theorem matchRule_errNoActions (m : Module) (project : String) (auth : GoMap) (rule : Rule)
    (st : State) : (matchRule m project rule st auth).2.2.ErrNoActions := by
  apply matchRule_cases m project rule st auth (fun x => x.2.2.ErrNoActions)
  · intro e; simp [Outcome.ErrNoActions, actionsOf]
  · trivial
  · exact matchAndLoop_errNoActions m project auth _ st []
  · exact matchOrLoop_errNoActions m project auth _ st
  · show Outcome.ErrNoActions (Prod.snd (Prod.snd _))
    split
    · rename_i err _
      cases err <;> simp [Outcome.ErrNoActions, actionsOf]
    · trivial
  · show Outcome.ErrNoActions (Prod.snd (Prod.snd _))
    split
    · rename_i err _
      cases err <;> simp [Outcome.ErrNoActions, actionsOf]
    · trivial
  · rw [matchForce_eq_forceWith]
    exact forceWith_errNoActions m rule st.args _
  · exact matchRemoveLoop_errNoActions m _ _ _

/-! ## The `query` and `webhook` rules -/

theorem setFind_fields (rule : Rule) (f : GoMap) :
    (rule.setFind f).DB = rule.DB ∧ (rule.setFind f).Col = rule.Col ∧
      (rule.setFind f).Find = f := by
  cases rule; exact ⟨rfl, rfl, rfl⟩

theorem matchQuery_run (m : Module) (project : String) (rule : Rule) (st : State)
    (find : GoMap) (ha : m.Adjust (Value.obj rule.Find) st.args = Value.obj find) :
    matchQuery m project rule st
      = (rule.setFind find,
          { st with calls := st.calls ++ [Call.read rule.DB project rule.Col ⟨find, One⟩] },
          some (m.crudRead st.calls rule.DB project rule.Col ⟨find, One⟩).2) := by
  obtain ⟨h1, h2, h3⟩ := setFind_fields rule find
  simp only [matchQuery, ha, h1, h2, h3]

theorem matchRule_query_run (m : Module) (project : String) (rule : Rule) (st : State)
    (auth : GoMap) (find : GoMap) (hp : project = m.project)
    (hi : isInternalUser m auth = false) (hr : rule.Rule = "query")
    (ha : m.Adjust (Value.obj rule.Find) st.args = Value.obj find) :
    matchRule m project rule st auth
      = (rule.setFind find,
          { st with calls := st.calls ++ [Call.read rule.DB project rule.Col ⟨find, One⟩] },
          Outcome.ret (some ⟨[]⟩)
            (m.crudRead st.calls rule.DB project rule.Col ⟨find, One⟩).2) := by
  rw [matchRule_query m project rule st auth hp hi hr, matchQuery_run m project rule st find ha]

theorem matchFunc_run_ok (m : Module) (rule : Rule) (st : State) (obj : GoMap)
    (token scToken : String) (hargs : mapGet "args" st.args = some (Value.obj obj))
    (htoken : mapGet "token" obj = some (Value.str token))
    (hsc : m.GetSCAccessToken st.calls = Except.ok scToken) :
    matchFunc m rule st
      = (⟨mapSet "args" (Value.obj (mapDelete "token" obj)) st.args,
            st.calls ++ [Call.http "POST" rule.URL token scToken (mapDelete "token" obj)]⟩,
          some (m.makeHttpRequest st.calls "POST" rule.URL token scToken
            (mapDelete "token" obj))) := by
  simp only [matchFunc, hargs, htoken, hsc]

theorem matchFunc_run_err (m : Module) (rule : Rule) (st : State) (obj : GoMap)
    (token : String) (err : Err) (hargs : mapGet "args" st.args = some (Value.obj obj))
    (htoken : mapGet "token" obj = some (Value.str token))
    (hsc : m.GetSCAccessToken st.calls = Except.error err) :
    matchFunc m rule st
      = (⟨mapSet "args" (Value.obj (mapDelete "token" obj)) st.args, st.calls⟩,
          some (some err)) := by
  simp only [matchFunc, hargs, htoken, hsc]

/-! ## Pieces, text and placeholders -/

theorem render_append (d : Dialect) (a b : List Piece) :
    render d (a ++ b) = render d a ++ render d b := by
  induction a with
  | nil => simp [render]
  | cons p ps ih => simp [render, ih, String.append_assoc]

theorem placeholders_append (a b : List Piece) :
    placeholders (a ++ b) = placeholders a ++ placeholders b := by
  induction a with
  | nil => rfl
  | cons p ps ih => cases p <;> simp [placeholders, ih]

theorem render_joinFragments (d : Dialect) (frags : List (List Piece)) :
    render d (joinFragments frags) = joinComma (frags.map (render d)) := by
  induction frags with
  | nil => rfl
  | cons f rest ih =>
    cases rest with
    | nil => rfl
    | cons g rest' =>
      simp only [joinFragments, List.map_cons, joinComma] at ih ⊢
      rw [render_append, render, renderPiece, ih, String.append_assoc]

theorem placeholders_joinFragments (frags : List (List Piece)) :
    placeholders (joinFragments frags) = (frags.map placeholders).flatten := by
  induction frags with
  | nil => rfl
  | cons f rest ih =>
    cases rest with
    | nil => simp [joinFragments]
    | cons g rest' =>
      simp only [joinFragments, List.map_cons, List.flatten_cons] at ih ⊢
      rw [placeholders_append, placeholders, ih]

/-! ## The SET fragments -/

theorem setFragments_ok (op : String) (m : GoMap) :
    ∀ (n : Nat) (pieces : List Piece), setFragments op m n = Except.ok pieces →
      ∃ frags : List (List Piece),
        List.Forall₂ (fun (ikv : Nat × String × Value) frag =>
          setFragment op ikv.2.1 ikv.2.2 ikv.1 = Except.ok frag) (m.enumFrom n) frags ∧
        pieces = joinFragments frags := by
  induction m with
  | nil =>
    intro n pieces h
    simp only [setFragments, Except.ok.injEq] at h
    exact ⟨[], List.Forall₂.nil, h.symm⟩
  | cons kv rest ih =>
    intro n pieces h
    obtain ⟨field, operand⟩ := kv
    cases rest with
    | nil =>
      simp only [setFragments] at h
      exact ⟨[pieces], List.Forall₂.cons h List.Forall₂.nil, rfl⟩
    | cons next rest' =>
      simp only [setFragments] at h
      cases h1 : setFragment op field operand n with
      | error e => rw [h1] at h; cases h
      | ok fragment =>
        rw [h1] at h
        cases h2 : setFragments op (next :: rest') (n + 1) with
        | error e => rw [h2] at h; cases h
        | ok fragments =>
          rw [h2] at h
          simp only [Except.ok.injEq] at h
          obtain ⟨frags, hall, hj⟩ := ih (n + 1) fragments h2
          refine ⟨fragment :: frags, List.Forall₂.cons h1 hall, ?_⟩
          rw [← h, hj]
          cases frags with
          | nil => cases hall
          | cons g gs => rfl

theorem setFragments_of_forall (op : String) (m : GoMap) :
    ∀ (n : Nat) (frags : List (List Piece)),
      List.Forall₂ (fun (ikv : Nat × String × Value) frag =>
        setFragment op ikv.2.1 ikv.2.2 ikv.1 = Except.ok frag) (m.enumFrom n) frags →
      setFragments op m n = Except.ok (joinFragments frags) := by
  induction m with
  | nil =>
    intro n frags h
    cases h
    rfl
  | cons kv rest ih =>
    intro n frags h
    obtain ⟨field, operand⟩ := kv
    cases h with
    | cons h1 hrest =>
      rename_i frag frags'
      cases rest with
      | nil =>
        cases hrest
        simpa [setFragments, joinFragments] using h1
      | cons next rest' =>
        have h2 := ih (n + 1) frags' hrest
        simp only [setFragments]
        simp only at h1
        rw [h1, h2]
        cases hrest with
        | cons _ _ => rfl

theorem setFragments_error (op : String) (m : GoMap) :
    ∀ (n : Nat), (∃ kv ∈ m, ∀ k, ∃ e, setFragment op kv.1 kv.2 k = Except.error e) →
      ∃ e, setFragments op m n = Except.error e := by
  induction m with
  | nil => intro n h; obtain ⟨kv, hkv, _⟩ := h; cases hkv
  | cons kv rest ih =>
    intro n h
    obtain ⟨field, operand⟩ := kv
    obtain ⟨kv', hmem, hbad⟩ := h
    cases rest with
    | nil =>
      simp only [List.mem_singleton] at hmem
      subst hmem
      exact hbad n
    | cons next rest' =>
      simp only [setFragments]
      cases h1 : setFragment op field operand n with
      | error e => exact ⟨e, rfl⟩
      | ok fragment =>
        rcases List.mem_cons.1 hmem with heq | htail
        · subst heq
          obtain ⟨e, he⟩ := hbad n
          rw [he] at h1
          cases h1
        · obtain ⟨e, he⟩ := ih (n + 1) ⟨kv', htail, hbad⟩
          rw [he]
          exact ⟨e, rfl⟩

theorem numeric_fragment_error (operand : Value) (e : CompileErr)
    (k : Value → List Piece)
    (h : (match checkIfNum operand with
      | some p => (Except.ok (k p) : Except CompileErr (List Piece))
      | none => Except.error CompileErr.InvalidOperand) = Except.error e) :
    checkIfNum operand = none ∧ e = CompileErr.InvalidOperand := by
  cases hc : checkIfNum operand with
  | none =>
    rw [hc] at h
    simp only [Except.error.injEq] at h
    exact ⟨rfl, h.symm⟩
  | some p => rw [hc] at h; cases h

theorem currentDate_fragment_error (field : String) (operand : Value) (e : CompileErr)
    (k : Nat)
    (h : setFragment "$currentDate" field operand k = Except.error e) :
    e = CompileErr.InvalidOperand := by
  simp only [setFragment, String.reduceEq, if_false, if_true] at h
  split at h
  · split at h
    · split_ifs at h
      simp only [Except.error.injEq] at h
      exact h.symm
    · simp only [Except.error.injEq] at h
      exact h.symm
  · simp only [Except.error.injEq] at h
    exact h.symm

theorem setFragment_error_kind (op field : String) (operand : Value) (n : Nat)
    (e : CompileErr) (hop : op ∈ supportedOperators)
    (h : setFragment op field operand n = Except.error e) :
    e = CompileErr.InvalidOperand := by
  simp only [supportedOperators, List.mem_cons, List.mem_singleton, List.not_mem_nil,
    or_false] at hop
  rcases hop with rfl | rfl | rfl | rfl | rfl | rfl
  · simp [setFragment] at h
  · simp only [setFragment, String.reduceEq, if_false, if_true] at h
    exact (numeric_fragment_error operand e _ h).2
  · simp only [setFragment, String.reduceEq, if_false, if_true] at h
    exact (numeric_fragment_error operand e _ h).2
  · simp only [setFragment, String.reduceEq, if_false, if_true] at h
    exact (numeric_fragment_error operand e _ h).2
  · simp only [setFragment, String.reduceEq, if_false, if_true] at h
    exact (numeric_fragment_error operand e _ h).2
  · exact currentDate_fragment_error field operand e n h

theorem setFragments_error_kind (op : String) (m : GoMap) (hop : op ∈ supportedOperators) :
    ∀ (n : Nat) (e : CompileErr), setFragments op m n = Except.error e →
      e = CompileErr.InvalidOperand := by
  induction m with
  | nil => intro n e h; simp [setFragments] at h
  | cons kv rest ih =>
    intro n e h
    obtain ⟨field, operand⟩ := kv
    cases rest with
    | nil =>
      simp only [setFragments] at h
      exact setFragment_error_kind op field operand n e hop h
    | cons next rest' =>
      simp only [setFragments] at h
      cases h1 : setFragment op field operand n with
      | error e1 =>
        rw [h1] at h
        simp only [Except.error.injEq] at h
        subst h
        exact setFragment_error_kind op field operand n e1 hop h1
      | ok fragment =>
        rw [h1] at h
        cases h2 : setFragments op (next :: rest') (n + 1) with
        | error e2 =>
          rw [h2] at h
          simp only [Except.error.injEq] at h
          subst h
          exact ih (n + 1) e2 h2
        | ok fragments => rw [h2] at h; cases h

/-! ## The WHERE clause -/

theorem placeholders_wherePredicates (find : GoMap) :
    ∀ n, placeholders (wherePredicates find n)
      = (List.range' n find.length).zip (findParams find) := by
  induction find with
  | nil => intro n; rfl
  | cons kv rest ih =>
    intro n
    obtain ⟨field, v⟩ := kv
    cases rest with
    | nil => rfl
    | cons next rest' =>
      have h := ih (n + 1)
      show (n, findParam v) :: placeholders (wherePredicates (next :: rest') (n + 1)) = _
      rw [h]
      simp [findParams, List.range'_succ]

theorem placeholders_whereClause (find : GoMap) (n : Nat) :
    placeholders (whereClause find n)
      = (List.range' n find.length).zip (findParams find) := by
  unfold whereClause
  split
  · rfl
  · show placeholders (wherePredicates _ n) = _
    rw [placeholders_wherePredicates]
  · show placeholders (wherePredicates _ n ++ [Piece.text ")"]) = _
    rw [placeholders_append, placeholders_wherePredicates]
    simp [placeholders]

theorem map_snd_zip_range' (n : Nat) (vs : List Value) :
    ((List.range' n vs.length).zip vs).map Prod.snd = vs := by
  apply List.map_snd_zip
  simp

theorem map_fst_zip_range' (n : Nat) (vs : List Value) :
    ((List.range' n vs.length).zip vs).map Prod.fst = List.range' n vs.length := by
  apply List.map_fst_zip
  simp

/-! ## The compiler as a whole -/

theorem generateUpdateQuery_of_pieces (s : SQL) (project col : String) (req : UpdateRequest)
    (op : String) (pieces : List Piece)
    (h : updatePieces project col req op = Except.ok pieces) :
    generateUpdateQuery s project col req op
      = (render s.dbType pieces, some ((placeholders pieces).map Prod.snd), none) := by
  simp only [generateUpdateQuery, h]

theorem generateUpdateQuery_of_error (s : SQL) (project col : String) (req : UpdateRequest)
    (op : String) (e : CompileErr)
    (h : updatePieces project col req op = Except.error e) :
    generateUpdateQuery s project col req op = ("", none, some e) := by
  simp only [generateUpdateQuery, h]

theorem generateUpdateQuery_ok (s : SQL) (project col : String) (req : UpdateRequest)
    (op : String) (text : String) (params : Option (List Value))
    (h : generateUpdateQuery s project col req op = (text, params, none)) :
    ∃ pieces, updatePieces project col req op = Except.ok pieces ∧
      text = render s.dbType pieces ∧ params = some ((placeholders pieces).map Prod.snd) := by
  cases hp : updatePieces project col req op with
  | error e =>
    rw [generateUpdateQuery_of_error s project col req op e hp] at h
    simp at h
  | ok pieces =>
    rw [generateUpdateQuery_of_pieces s project col req op pieces hp] at h
    simp only [Prod.mk.injEq, and_true] at h
    exact ⟨pieces, rfl, h.1.symm, h.2.symm⟩

theorem updatePieces_ok (project col : String) (req : UpdateRequest) (op : String)
    (pieces : List Piece) (h : updatePieces project col req op = Except.ok pieces) :
    ∃ (m : GoMap) (frags : List (List Piece)),
      mapGet op req.Update = some (Value.obj m) ∧ op ∈ supportedOperators ∧
      List.Forall₂ (fun (ikv : Nat × String × Value) frag =>
        setFragment op ikv.2.1 ikv.2.2 ikv.1 = Except.ok frag) (m.enumFrom 1) frags ∧
      pieces = Piece.text ("UPDATE " ++ project ++ "." ++ col ++ " SET ")
        :: joinFragments frags ++ whereClause req.Find (m.length + 1) := by
  unfold updatePieces at h
  split at h
  · rename_i m hm
    by_cases hop : op ∈ supportedOperators
    · rw [if_pos hop] at h
      cases hs : setFragments op m 1 with
      | error e => rw [hs] at h; cases h
      | ok fragments =>
        rw [hs] at h
        simp only [Except.ok.injEq] at h
        obtain ⟨frags, hall, hj⟩ := setFragments_ok op m 1 fragments hs
        exact ⟨m, frags, hm, hop, hall, by rw [← h, hj]⟩
    · rw [if_neg hop] at h; cases h
  · cases h

theorem updatePieces_of_fragments (project col : String) (req : UpdateRequest) (op : String)
    (m : GoMap) (frags : List (List Piece))
    (hm : mapGet op req.Update = some (Value.obj m)) (hop : op ∈ supportedOperators)
    (hall : List.Forall₂ (fun (ikv : Nat × String × Value) frag =>
        setFragment op ikv.2.1 ikv.2.2 ikv.1 = Except.ok frag) (m.enumFrom 1) frags) :
    updatePieces project col req op
      = Except.ok (Piece.text ("UPDATE " ++ project ++ "." ++ col ++ " SET ")
        :: joinFragments frags ++ whereClause req.Find (m.length + 1)) := by
  simp only [updatePieces, hm, if_pos hop, setFragments_of_forall op m 1 frags hall]

theorem updatePieces_of_fragment_error (project col : String) (req : UpdateRequest)
    (op : String) (m : GoMap)
    (hm : mapGet op req.Update = some (Value.obj m)) (hop : op ∈ supportedOperators)
    (hbad : ∃ kv ∈ m, ∀ k, ∃ e, setFragment op kv.1 kv.2 k = Except.error e) :
    updatePieces project col req op = Except.error CompileErr.InvalidOperand := by
  obtain ⟨e, he⟩ := setFragments_error op m 1 hbad
  have hk := setFragments_error_kind op m hop 1 e he
  subst hk
  simp only [updatePieces, hm, if_pos hop, he]

theorem render_statement (d : Dialect) (pre : String) (frags : List (List Piece))
    (tail : List Piece) :
    render d (Piece.text pre :: joinFragments frags ++ tail)
      = pre ++ joinComma (frags.map (render d)) ++ render d tail := by
  show renderPiece d (Piece.text pre) ++ render d (joinFragments frags ++ tail) = _
  rw [render_append, render_joinFragments, String.append_assoc]
  rfl

theorem placeholders_statement (pre : String) (frags : List (List Piece)) (find : GoMap)
    (k : Nat) :
    placeholders (Piece.text pre :: joinFragments frags ++ whereClause find k)
      = (frags.map placeholders).flatten
        ++ (List.range' k find.length).zip (findParams find) := by
  show placeholders (joinFragments frags ++ whereClause find k) = _
  rw [placeholders_append, placeholders_joinFragments, placeholders_whereClause]

/-- When every fragment holds one placeholder, with the ordinal of its field and a value
related to the operand, the placeholders of the fragments pair the ordinals from `n` on
with such values. -/
theorem placeholders_of_single (R : Value → Value → Prop) (m : GoMap) :
    ∀ (n : Nat) (frags : List (List Piece)),
      List.Forall₂ (fun (ikv : Nat × String × Value) frag =>
        ∃ p, R ikv.2.2 p ∧ placeholders frag = [(ikv.1, p)]) (m.enumFrom n) frags →
      ∃ ps, List.Forall₂ (fun (kv : String × Value) p => R kv.2 p) m ps ∧
        (frags.map placeholders).flatten = (List.range' n m.length).zip ps := by
  induction m with
  | nil =>
    intro n frags h
    cases h
    exact ⟨[], List.Forall₂.nil, rfl⟩
  | cons kv rest ih =>
    intro n frags h
    cases h with
    | cons h1 hrest =>
      rename_i frag frags'
      obtain ⟨p, hR, hp⟩ := h1
      obtain ⟨ps, hps, hflat⟩ := ih (n + 1) frags' hrest
      refine ⟨p :: ps, List.Forall₂.cons hR hps, ?_⟩
      simp only [List.map_cons, List.flatten_cons, hp, hflat, List.length_cons,
        List.range'_succ, List.zip_cons_cons, List.singleton_append]

theorem placeholders_of_none (m : GoMap) :
    ∀ (n : Nat) (frags : List (List Piece)),
      List.Forall₂ (fun (_ : Nat × String × Value) frag => placeholders frag = [])
        (m.enumFrom n) frags →
      (frags.map placeholders).flatten = [] := by
  induction m with
  | nil => intro n frags h; cases h; rfl
  | cons kv rest ih =>
    intro n frags h
    cases h with
    | cons h1 hrest =>
      simp only [List.map_cons, List.flatten_cons, h1, List.nil_append]
      exact ih (n + 1) _ hrest

theorem forall₂_length_enumFrom (m : GoMap) (n : Nat) (frags : List (List Piece))
    (P : Nat × String × Value → List Piece → Prop)
    (h : List.Forall₂ P (m.enumFrom n) frags) : frags.length = m.length := by
  have := h.length_eq
  simpa using this.symm

/-! ## One SET fragment, operator by operator -/

/-- The four operators that take a numeric operand. -/
theorem numeric_supported (op : String) (hop : op ∈ ["$inc", "$mul", "$min", "$max"]) :
    op ∈ supportedOperators := by
  simp only [List.mem_cons, List.mem_singleton, List.not_mem_nil, or_false] at hop
  rcases hop with rfl | rfl | rfl | rfl <;> decide

theorem checkIfNum_coerced (v p : Value) (h : checkIfNum v = some p) : Coerced v p := by
  cases v with
  | int n =>
    simp only [checkIfNum, Option.some.injEq] at h
    exact Or.inl ⟨n, rfl, h.symm⟩
  | intN w n =>
    simp only [checkIfNum, Option.some.injEq] at h
    exact Or.inr (Or.inl ⟨w, n, rfl, h.symm⟩)
  | float bits =>
    simp only [checkIfNum, Option.some.injEq] at h
    exact Or.inr (Or.inr ⟨bits, rfl, h.symm⟩)
  | null => simp [checkIfNum] at h
  | bool b => simp [checkIfNum] at h
  | str s => simp [checkIfNum] at h
  | list xs => simp [checkIfNum] at h
  | obj kvs => simp [checkIfNum] at h

theorem setFragment_set_ok (d : Dialect) (field : String) (operand : Value) (n : Nat)
    (frag : List Piece) (h : setFragment "$set" field operand n = Except.ok frag) :
    placeholders frag = [(n, operand)] ∧ render d frag = fragmentText d "$set" field n := by
  simp only [setFragment, if_true, Except.ok.injEq] at h
  subst h
  refine ⟨rfl, ?_⟩
  simp [render, renderPiece, fragmentText]

theorem setFragment_numeric_ok (d : Dialect) (op field : String) (operand : Value) (n : Nat)
    (frag : List Piece) (hop : op ∈ ["$inc", "$mul", "$min", "$max"])
    (h : setFragment op field operand n = Except.ok frag) :
    (∃ p, checkIfNum operand = some p ∧ placeholders frag = [(n, p)]) ∧
      render d frag = fragmentText d op field n := by
  simp only [List.mem_cons, List.mem_singleton, List.not_mem_nil, or_false] at hop
  cases hc : checkIfNum operand with
  | none =>
    rcases hop with rfl | rfl | rfl | rfl <;>
      simp [setFragment, hc] at h
  | some p =>
    rcases hop with rfl | rfl | rfl | rfl <;>
      simp only [setFragment, String.reduceEq, if_false, if_true, hc, Except.ok.injEq] at h <;>
      subst h <;>
      refine ⟨⟨p, rfl, rfl⟩, ?_⟩ <;>
      simp [render, renderPiece, fragmentText, String.append_assoc]

theorem setFragment_numeric_string (op field s : String) (n : Nat)
    (hop : op ∈ ["$inc", "$mul", "$min", "$max"]) :
    setFragment op field (Value.str s) n = Except.error CompileErr.InvalidOperand := by
  simp only [List.mem_cons, List.mem_singleton, List.not_mem_nil, or_false] at hop
  rcases hop with rfl | rfl | rfl | rfl <;> simp [setFragment, checkIfNum]

theorem setFragment_currentDate_of_type (field : String) (operand : Value) (n : Nat)
    (t : String) (ht : HasDateType operand t) (hty : t = "timestamp" ∨ t = "date") :
    setFragment "$currentDate" field operand n
      = Except.ok [Piece.text (field ++ "=" ++ dateKeyword t)] := by
  obtain ⟨operandMap, rfl, hm⟩ := ht
  rcases hty with rfl | rfl <;>
    simp [setFragment, hm, dateKeyword, String.append_assoc]

theorem setFragment_currentDate_ok (field : String) (operand : Value) (n : Nat)
    (frag : List Piece) (h : setFragment "$currentDate" field operand n = Except.ok frag) :
    ∃ t, HasDateType operand t ∧ (t = "timestamp" ∨ t = "date") ∧
      frag = [Piece.text (field ++ "=" ++ dateKeyword t)] := by
  simp only [setFragment, String.reduceEq, if_false, if_true] at h
  split at h
  · rename_i operandMap
    split at h
    · rename_i t ht
      split_ifs at h with h1 h2
      · simp only [Except.ok.injEq] at h
        exact ⟨t, ⟨operandMap, rfl, ht⟩, Or.inl h1, by
          rw [← h, h1]; simp [dateKeyword, String.append_assoc]⟩
      · simp only [Except.ok.injEq] at h
        exact ⟨t, ⟨operandMap, rfl, ht⟩, Or.inr h2, by
          rw [← h, h2]; simp [dateKeyword, String.append_assoc]⟩
    · cases h
  · cases h

theorem setFragment_currentDate_bad (field : String) (operand : Value) (n : Nat)
    (hbad : ∀ t, HasDateType operand t → t ≠ "timestamp" ∧ t ≠ "date") :
    setFragment "$currentDate" field operand n
      = Except.error CompileErr.InvalidOperand := by
  cases h : setFragment "$currentDate" field operand n with
  | error e => rw [currentDate_fragment_error field operand e n h]
  | ok frag =>
    obtain ⟨t, ht, hty, _⟩ := setFragment_currentDate_ok field operand n frag h
    rcases hty with h1 | h2
    · exact absurd h1 (hbad t ht).1
    · exact absurd h2 (hbad t ht).2

/-! ## The placeholders of a compiled statement -/

theorem supported_cases (op : String) (hop : op ∈ supportedOperators) :
    op = "$set" ∨ op ∈ ["$inc", "$mul", "$min", "$max"] ∨ op = "$currentDate" := by
  simp only [supportedOperators, List.mem_cons, List.mem_singleton, List.not_mem_nil,
    or_false] at hop ⊢
  tauto

theorem setFragment_value_ok (op field : String) (operand : Value) (n : Nat)
    (frag : List Piece) (hop : op ∈ supportedOperators) (hne : op ≠ "$currentDate")
    (h : setFragment op field operand n = Except.ok frag) :
    ∃ p, (p = operand ∨ Coerced operand p) ∧ placeholders frag = [(n, p)] := by
  rcases supported_cases op hop with rfl | hnum | rfl
  · exact ⟨operand, Or.inl rfl,
      (setFragment_set_ok Dialect.mysql field operand n frag h).1⟩
  · obtain ⟨⟨p, hc, hph⟩, _⟩ :=
      setFragment_numeric_ok Dialect.mysql op field operand n frag hnum h
    exact ⟨p, Or.inr (checkIfNum_coerced _ _ hc), hph⟩
  · exact absurd rfl hne

theorem placeholders_updatePieces (project col : String) (req : UpdateRequest) (op : String)
    (pieces : List Piece) (h : updatePieces project col req op = Except.ok pieces) :
    ∃ (m : GoMap) (setPh : List (Nat × Value)),
      mapGet op req.Update = some (Value.obj m) ∧
      placeholders pieces
        = setPh ++ (List.range' (m.length + 1) req.Find.length).zip (findParams req.Find) ∧
      (op ≠ "$currentDate" → ∃ ps, ps.length = m.length ∧
        setPh = (List.range' 1 m.length).zip ps ∧
        List.Forall₂ (fun (kv : String × Value) p => p = kv.2 ∨ Coerced kv.2 p) m ps) ∧
      (op = "$currentDate" → setPh = []) := by
  obtain ⟨m, frags, hm, hop, hall, hpieces⟩ := updatePieces_ok project col req op pieces h
  refine ⟨m, (frags.map placeholders).flatten, hm, ?_, ?_, ?_⟩
  · rw [hpieces, placeholders_statement]
  · intro hne
    have hsingle : List.Forall₂ (fun (ikv : Nat × String × Value) frag =>
        ∃ p, (fun v p => p = v ∨ Coerced v p) ikv.2.2 p ∧ placeholders frag = [(ikv.1, p)])
        (m.enumFrom 1) frags := by
      refine hall.imp ?_
      intro ikv frag hfrag
      exact setFragment_value_ok op ikv.2.1 ikv.2.2 ikv.1 frag hop hne hfrag
    obtain ⟨ps, hps, hflat⟩ :=
      placeholders_of_single (fun v p => p = v ∨ Coerced v p) m 1 frags hsingle
    exact ⟨ps, hps.length_eq.symm, hflat, hps⟩
  · intro heq
    subst heq
    apply placeholders_of_none m 1 frags
    refine hall.imp ?_
    intro ikv frag hfrag
    obtain ⟨t, _, _, hf⟩ := setFragment_currentDate_ok ikv.2.1 ikv.2.2 ikv.1 frag hfrag
    rw [hf]
    rfl

theorem length_findParams (find : GoMap) : (findParams find).length = find.length := by
  simp [findParams]

/-! ## Texts and parameters of the SET list -/

theorem map_eq_of_forall₂ {α β γ : Type} (f : β → γ) (g : α → γ) :
    ∀ (l1 : List α) (l2 : List β), List.Forall₂ (fun a b => f b = g a) l1 l2 →
      l2.map f = l1.map g := by
  intro l1 l2 h
  induction h with
  | nil => rfl
  | cons h1 _ ih => simp [h1, ih]

theorem eq_map_snd_of_forall₂ (m : GoMap) (ps : List Value)
    (h : List.Forall₂ (fun (kv : String × Value) p => p = kv.2) m ps) :
    ps = m.map Prod.snd := by
  have := map_eq_of_forall₂ (fun p : Value => p) (fun kv : String × Value => kv.2) m ps h
  simpa using this

theorem currentDate_fragments (d : Dialect) (m : GoMap)
    (hall : ∀ kv ∈ m, ∃ t, HasDateType kv.2 t ∧ (t = "timestamp" ∨ t = "date")) :
    ∀ (n : Nat), ∃ (frags : List (List Piece)) (texts : List String),
      List.Forall₂ (fun (ikv : Nat × String × Value) frag =>
        setFragment "$currentDate" ikv.2.1 ikv.2.2 ikv.1 = Except.ok frag)
        (m.enumFrom n) frags ∧
      List.Forall₂ (fun (kv : String × Value) txt =>
        ∃ t, HasDateType kv.2 t ∧ txt = kv.1 ++ "=" ++ dateKeyword t) m texts ∧
      frags.map (render d) = texts ∧ (frags.map placeholders).flatten = [] := by
  induction m with
  | nil => intro n; exact ⟨[], [], List.Forall₂.nil, List.Forall₂.nil, rfl, rfl⟩
  | cons kv rest ih =>
    intro n
    obtain ⟨t, ht, hty⟩ := hall kv (List.mem_cons_self _ _)
    obtain ⟨frags, texts, h1, h2, h3, h4⟩ :=
      ih (fun kv' hkv' => hall kv' (List.mem_cons_of_mem _ hkv')) (n + 1)
    refine ⟨[Piece.text (kv.1 ++ "=" ++ dateKeyword t)] :: frags,
      (kv.1 ++ "=" ++ dateKeyword t) :: texts, ?_, ?_, ?_, ?_⟩
    · exact List.Forall₂.cons (setFragment_currentDate_of_type kv.1 kv.2 n t ht hty) h1
    · exact List.Forall₂.cons ⟨t, ht, rfl⟩ h2
    · simp [h3, render, renderPiece]
    · simp only [List.map_cons, List.flatten_cons, h4, List.append_nil]
      rfl

theorem five_supported (op : String) (hop : op ∈ ["$set", "$inc", "$mul", "$min", "$max"]) :
    op ∈ supportedOperators ∧ op ≠ "$currentDate" ∧
      (op = "$set" ∨ op ∈ ["$inc", "$mul", "$min", "$max"]) := by
  simp only [List.mem_cons, List.mem_singleton, List.not_mem_nil, or_false] at hop
  rcases hop with rfl | rfl | rfl | rfl | rfl <;> decide

theorem setFragment_render (d : Dialect) (op field : String) (operand : Value) (n : Nat)
    (frag : List Piece) (hop : op ∈ ["$set", "$inc", "$mul", "$min", "$max"])
    (h : setFragment op field operand n = Except.ok frag) :
    render d frag = fragmentText d op field n := by
  rcases (five_supported op hop).2.2 with rfl | hnum
  · exact (setFragment_set_ok d field operand n frag h).2
  · exact (setFragment_numeric_ok d op field operand n frag hnum h).2

/-! ## The golden outputs of `update_test.go` -/

/-- The model returns what the 22 cases of `TestSQL_generateUpdateQuery` for mysql
expect: the statement text and the parameters, or an error with the empty text and nil
parameters. -/
theorem golden_outputs_mysql :
    generateUpdateQuery ⟨Dialect.mysql⟩ "project" "col"
        ⟨[("FindString1", Value.str "1"), ("FindString2", Value.str "2")],
          [("$set", Value.obj [("String1", Value.str "1")])]⟩ "$set"
      = ("UPDATE project.col SET String1=? WHERE ((FindString1 = ?) AND (FindString2 = ?))",
          some [Value.str "1", Value.str "1", Value.str "2"], none) ∧
    (∃ e, generateUpdateQuery ⟨Dialect.mysql⟩ "project" "col"
        ⟨[("FindString1", Value.str "1"), ("FindString2", Value.str "2")],
          []⟩ "$set"
      = ("", none, some e)) ∧
    generateUpdateQuery ⟨Dialect.mysql⟩ "project" "col"
        ⟨[("today", Value.str "1")],
          [("$currentDate", Value.obj [("String1", Value.obj [("$type", Value.str "timestamp")])])]⟩ "$currentDate"
      = ("UPDATE project.col SET String1=CURRENT_TIMESTAMP WHERE (today = ?)",
          some [Value.str "1"], none) ∧
    (∃ e, generateUpdateQuery ⟨Dialect.mysql⟩ "project" "col"
        ⟨[],
          []⟩ "$currentDate"
      = ("", none, some e)) ∧
    (∃ e, generateUpdateQuery ⟨Dialect.mysql⟩ "project" "col"
        ⟨[("today", Value.str "1")],
          [("$inc", Value.obj [("String1", Value.str "1")])]⟩ "$inc"
      = ("", none, some e)) ∧
    (∃ e, generateUpdateQuery ⟨Dialect.mysql⟩ "project" "col"
        ⟨[("today", Value.str "d")],
          [("$inc", Value.obj [("String1", Value.str "r")])]⟩ "$inc"
      = ("", none, some e)) ∧
    generateUpdateQuery ⟨Dialect.mysql⟩ "project" "col"
        ⟨[("op1", Value.int 1), ("op2", Value.int 2)],
          [("$mul", Value.obj [("String1", Value.int 6)])]⟩ "$mul"
      = ("UPDATE project.col SET String1=String1*? WHERE ((op1 = ?) AND (op2 = ?))",
          some [Value.intN 64 6, Value.intN 64 1, Value.intN 64 2], none) ∧
    generateUpdateQuery ⟨Dialect.mysql⟩ "project" "col"
        ⟨[("op1", Value.int 121), ("op2", Value.int 21)],
          [("$max", Value.obj [("String1", Value.int 6132)])]⟩ "$max"
      = ("UPDATE project.col SET String1=GREATEST(String1,?) WHERE ((op1 = ?) AND (op2 = ?))",
          some [Value.intN 64 6132, Value.intN 64 121, Value.intN 64 21], none) ∧
    generateUpdateQuery ⟨Dialect.mysql⟩ "project" "col"
        ⟨[("op1", Value.int 1), ("op2", Value.int 2)],
          [("$min", Value.obj [("String1", Value.int 6)])]⟩ "$min"
      = ("UPDATE project.col SET String1=LEAST(String1,?) WHERE ((op1 = ?) AND (op2 = ?))",
          some [Value.intN 64 6, Value.intN 64 1, Value.intN 64 2], none) ∧
    generateUpdateQuery ⟨Dialect.mysql⟩ "project" "col"
        ⟨[("op1", Value.int 1), ("op2", Value.int 2)],
          [("$min", Value.obj [("String1", Value.float 0xC01A28F5C28F5C29)])]⟩ "$min"
      = ("UPDATE project.col SET String1=LEAST(String1,?) WHERE ((op1 = ?) AND (op2 = ?))",
          some [Value.float 0xC01A28F5C28F5C29, Value.intN 64 1, Value.intN 64 2], none) ∧
    generateUpdateQuery ⟨Dialect.mysql⟩ "project" "col"
        ⟨[("op1", Value.int 1), ("op2", Value.int 2)],
          [("$min", Value.obj [("String1", Value.intN 64 18)])]⟩ "$min"
      = ("UPDATE project.col SET String1=LEAST(String1,?) WHERE ((op1 = ?) AND (op2 = ?))",
          some [Value.intN 64 18, Value.intN 64 1, Value.intN 64 2], none) ∧
    (∃ e, generateUpdateQuery ⟨Dialect.mysql⟩ "project" "col"
        ⟨[("op1", Value.int 1), ("op2", Value.int 2)],
          [("$set", Value.obj [("String1", Value.intN 64 18446744)])]⟩ "$mul"
      = ("", none, some e)) ∧
    generateUpdateQuery ⟨Dialect.mysql⟩ "project" "col"
        ⟨[("today", Value.str "1")],
          [("$currentDate", Value.obj [("String1", Value.obj [("$type", Value.str "date")])])]⟩ "$currentDate"
      = ("UPDATE project.col SET String1=CURRENT_DATE WHERE (today = ?)",
          some [Value.str "1"], none) ∧
    (∃ e, generateUpdateQuery ⟨Dialect.mysql⟩ "project" "col"
        ⟨[("today", Value.str "1")],
          [("$currentDate", Value.obj [("String1", Value.obj [("$type", Value.str "")])])]⟩ "$currentDate"
      = ("", none, some e)) ∧
    (∃ e, generateUpdateQuery ⟨Dialect.mysql⟩ "project" "col"
        ⟨[],
          [("$set", Value.obj [("String1", Value.intN 64 18446744)])]⟩ "$mul"
      = ("", none, some e)) ∧
    generateUpdateQuery ⟨Dialect.mysql⟩ "project" "col"
        ⟨[("op1", Value.int 67), ("op2", Value.int 78)],
          [("$inc", Value.obj [("String1", Value.int 18446)])]⟩ "$inc"
      = ("UPDATE project.col SET String1=String1+? WHERE ((op1 = ?) AND (op2 = ?))",
          some [Value.intN 64 18446, Value.intN 64 67, Value.intN 64 78], none) ∧
    (∃ e, generateUpdateQuery ⟨Dialect.mysql⟩ "project" "col"
        ⟨[("op1", Value.str "67"), ("op2", Value.str "78")],
          [("$max", Value.obj [("String1", Value.str "s18446")])]⟩ "$max"
      = ("", none, some e)) ∧
    (∃ e, generateUpdateQuery ⟨Dialect.mysql⟩ "project" "col"
        ⟨[("op1", Value.str "67"), ("op2", Value.str "78")],
          [("$min", Value.obj [("String1", Value.str "s18446")])]⟩ "$min"
      = ("", none, some e)) ∧
    (∃ e, generateUpdateQuery ⟨Dialect.mysql⟩ "project" "col"
        ⟨[("op1", Value.str "67"), ("op2", Value.str "78")],
          [("$max", Value.obj [("String1", Value.str "s18446")])]⟩ "$maxjgf"
      = ("", none, some e)) ∧
    (∃ e, generateUpdateQuery ⟨Dialect.mysql⟩ "project" "col"
        ⟨[("op1", Value.str "67"), ("op2", Value.str "78")],
          [("$currentDate", Value.obj [("String1", Value.str "s18446")])]⟩ "$currentDate"
      = ("", none, some e)) ∧
    (∃ e, generateUpdateQuery ⟨Dialect.mysql⟩ "project" "col"
        ⟨[("op1", Value.str "67"), ("op2", Value.str "78")],
          [("$currentDate", Value.obj [("String1", Value.obj [("$type", Value.int 1)])])]⟩ "$currentDate"
      = ("", none, some e)) ∧
    (∃ e, generateUpdateQuery ⟨Dialect.mysql⟩ "project" "col"
        ⟨[("op1", Value.str "67"), ("op2", Value.str "78")],
          [("$currentDatshdge", Value.obj [("String1", Value.obj [("$type", Value.int 1)])])]⟩ "$currentDatefs"
      = ("", none, some e)) :=
  ⟨rfl, ⟨_, rfl⟩, rfl, ⟨_, rfl⟩, ⟨_, rfl⟩, ⟨_, rfl⟩, rfl, rfl, rfl, rfl, rfl, ⟨_, rfl⟩, rfl, ⟨_, rfl⟩, ⟨_, rfl⟩, rfl, ⟨_, rfl⟩, ⟨_, rfl⟩, ⟨_, rfl⟩, ⟨_, rfl⟩, ⟨_, rfl⟩, ⟨_, rfl⟩⟩

/-- The model returns what the 23 cases of `TestSQL_generateUpdateQuery` for postgres
expect: the statement text and the parameters, or an error with the empty text and nil
parameters. -/
theorem golden_outputs_postgres :
    generateUpdateQuery ⟨Dialect.postgres⟩ "project" "col"
        ⟨[("FindString1", Value.str "1"), ("FindString2", Value.str "2")],
          [("$set", Value.obj [("String1", Value.str "1")])]⟩ "$set"
      = ("UPDATE project.col SET String1=$1 WHERE ((FindString1 = $2) AND (FindString2 = $3))",
          some [Value.str "1", Value.str "1", Value.str "2"], none) ∧
    (∃ e, generateUpdateQuery ⟨Dialect.postgres⟩ "project" "col"
        ⟨[("FindString1", Value.str "1"), ("FindString2", Value.str "2")],
          []⟩ "$set"
      = ("", none, some e)) ∧
    generateUpdateQuery ⟨Dialect.postgres⟩ "project" "col"
        ⟨[("today", Value.str "1"), ("op2", Value.str "2")],
          [("$currentDate", Value.obj [("String1", Value.obj [("$type", Value.str "timestamp")])])]⟩ "$currentDate"
      = ("UPDATE project.col SET String1=CURRENT_TIMESTAMP WHERE ((today = $2) AND (op2 = $3))",
          some [Value.str "1", Value.str "2"], none) ∧
    (∃ e, generateUpdateQuery ⟨Dialect.postgres⟩ "project" "col"
        ⟨[],
          []⟩ "$currentDate"
      = ("", none, some e)) ∧
    (∃ e, generateUpdateQuery ⟨Dialect.postgres⟩ "project" "col"
        ⟨[("today", Value.str "1")],
          [("$inc", Value.obj [("String1", Value.str "1")])]⟩ "$inc"
      = ("", none, some e)) ∧
    (∃ e, generateUpdateQuery ⟨Dialect.postgres⟩ "project" "col"
        ⟨[("today", Value.str "d")],
          [("$inc", Value.obj [("String1", Value.str "r")])]⟩ "$inc"
      = ("", none, some e)) ∧
    generateUpdateQuery ⟨Dialect.postgres⟩ "project" "col"
        ⟨[("op1", Value.int 1), ("op2", Value.int 2)],
          [("$mul", Value.obj [("String1", Value.int 6)])]⟩ "$mul"
      = ("UPDATE project.col SET String1=String1*$1 WHERE ((op1 = $2) AND (op2 = $3))",
          some [Value.intN 64 6, Value.intN 64 1, Value.intN 64 2], none) ∧
    generateUpdateQuery ⟨Dialect.postgres⟩ "project" "col"
        ⟨[("op1", Value.int 121), ("op2", Value.int 21)],
          [("$max", Value.obj [("String1", Value.int 6132)])]⟩ "$max"
      = ("UPDATE project.col SET String1=GREATEST(String1,$1) WHERE ((op1 = $2) AND (op2 = $3))",
          some [Value.intN 64 6132, Value.intN 64 121, Value.intN 64 21], none) ∧
    generateUpdateQuery ⟨Dialect.postgres⟩ "project" "col"
        ⟨[("op1", Value.int 121), ("op2", Value.int 21)],
          [("$max", Value.obj [("String1", Value.int 6132), ("s2", Value.int 12)])]⟩ "$max"
      = ("UPDATE project.col SET String1=GREATEST(String1,$1),s2=GREATEST(s2,$2) WHERE ((op1 = $3) AND (op2 = $4))",
          some [Value.intN 64 6132, Value.intN 64 12, Value.intN 64 121, Value.intN 64 21], none) ∧
    generateUpdateQuery ⟨Dialect.postgres⟩ "project" "col"
        ⟨[("op1", Value.int 1), ("op2", Value.int 2)],
          [("$min", Value.obj [("String1", Value.int 6)])]⟩ "$min"
      = ("UPDATE project.col SET String1=LEAST(String1,$1) WHERE ((op1 = $2) AND (op2 = $3))",
          some [Value.intN 64 6, Value.intN 64 1, Value.intN 64 2], none) ∧
    generateUpdateQuery ⟨Dialect.postgres⟩ "project" "col"
        ⟨[("op1", Value.int 1), ("op2", Value.int 2)],
          [("$min", Value.obj [("String1", Value.float 0xC01A28F5C28F5C29)])]⟩ "$min"
      = ("UPDATE project.col SET String1=LEAST(String1,$1) WHERE ((op1 = $2) AND (op2 = $3))",
          some [Value.float 0xC01A28F5C28F5C29, Value.intN 64 1, Value.intN 64 2], none) ∧
    generateUpdateQuery ⟨Dialect.postgres⟩ "project" "col"
        ⟨[("op1", Value.int 1), ("op2", Value.int 2)],
          [("$min", Value.obj [("String1", Value.intN 64 18)])]⟩ "$min"
      = ("UPDATE project.col SET String1=LEAST(String1,$1) WHERE ((op1 = $2) AND (op2 = $3))",
          some [Value.intN 64 18, Value.intN 64 1, Value.intN 64 2], none) ∧
    (∃ e, generateUpdateQuery ⟨Dialect.postgres⟩ "project" "col"
        ⟨[("op1", Value.int 1), ("op2", Value.int 2)],
          [("$set", Value.obj [("String1", Value.intN 64 18446744)])]⟩ "$mul"
      = ("", none, some e)) ∧
    generateUpdateQuery ⟨Dialect.postgres⟩ "project" "col"
        ⟨[("today", Value.str "1")],
          [("$currentDate", Value.obj [("String1", Value.obj [("$type", Value.str "date")])])]⟩ "$currentDate"
      = ("UPDATE project.col SET String1=CURRENT_DATE WHERE (today = $2)",
          some [Value.str "1"], none) ∧
    (∃ e, generateUpdateQuery ⟨Dialect.postgres⟩ "project" "col"
        ⟨[("today", Value.str "1")],
          [("$currentDate", Value.obj [("String1", Value.obj [("$type", Value.str "")])])]⟩ "$currentDate"
      = ("", none, some e)) ∧
    (∃ e, generateUpdateQuery ⟨Dialect.postgres⟩ "project" "col"
        ⟨[],
          [("$set", Value.obj [("String1", Value.intN 64 18446744)])]⟩ "$mul"
      = ("", none, some e)) ∧
    generateUpdateQuery ⟨Dialect.postgres⟩ "project" "col"
        ⟨[("op1", Value.int 67), ("op2", Value.int 78)],
          [("$inc", Value.obj [("String1", Value.int 18446)])]⟩ "$inc"
      = ("UPDATE project.col SET String1=String1+$1 WHERE ((op1 = $2) AND (op2 = $3))",
          some [Value.intN 64 18446, Value.intN 64 67, Value.intN 64 78], none) ∧
    (∃ e, generateUpdateQuery ⟨Dialect.postgres⟩ "project" "col"
        ⟨[("op1", Value.str "67"), ("op2", Value.str "78")],
          [("$max", Value.obj [("String1", Value.str "s18446")])]⟩ "$max"
      = ("", none, some e)) ∧
    (∃ e, generateUpdateQuery ⟨Dialect.postgres⟩ "project" "col"
        ⟨[("op1", Value.str "67"), ("op2", Value.str "78")],
          [("$min", Value.obj [("String1", Value.str "s18446")])]⟩ "$min"
      = ("", none, some e)) ∧
    (∃ e, generateUpdateQuery ⟨Dialect.postgres⟩ "project" "col"
        ⟨[("op1", Value.str "67"), ("op2", Value.str "78")],
          [("$max", Value.obj [("String1", Value.str "s18446")])]⟩ "$maxjgf"
      = ("", none, some e)) ∧
    (∃ e, generateUpdateQuery ⟨Dialect.postgres⟩ "project" "col"
        ⟨[("op1", Value.str "67"), ("op2", Value.str "78")],
          [("$currentDate", Value.obj [("String1", Value.str "s18446")])]⟩ "$currentDate"
      = ("", none, some e)) ∧
    (∃ e, generateUpdateQuery ⟨Dialect.postgres⟩ "project" "col"
        ⟨[("op1", Value.str "67"), ("op2", Value.str "78")],
          [("$currentDate", Value.obj [("String1", Value.obj [("$type", Value.int 1)])])]⟩ "$currentDate"
      = ("", none, some e)) ∧
    (∃ e, generateUpdateQuery ⟨Dialect.postgres⟩ "project" "col"
        ⟨[("op1", Value.str "67"), ("op2", Value.str "78")],
          [("$currentDatshdge", Value.obj [("String1", Value.obj [("$type", Value.int 1)])])]⟩ "$currentDatefs"
      = ("", none, some e)) :=
  ⟨rfl, ⟨_, rfl⟩, rfl, ⟨_, rfl⟩, ⟨_, rfl⟩, ⟨_, rfl⟩, rfl, rfl, rfl, rfl, rfl, rfl, ⟨_, rfl⟩, rfl, ⟨_, rfl⟩, ⟨_, rfl⟩, rfl, ⟨_, rfl⟩, ⟨_, rfl⟩, ⟨_, rfl⟩, ⟨_, rfl⟩, ⟨_, rfl⟩, ⟨_, rfl⟩⟩

/-- The model returns what the 23 cases of `TestSQL_generateUpdateQuery` for sqlserver
expect: the statement text and the parameters, or an error with the empty text and nil
parameters. -/
theorem golden_outputs_sqlserver :
    generateUpdateQuery ⟨Dialect.sqlserver⟩ "project" "col"
        ⟨[("FindString1", Value.str "1"), ("FindString2", Value.str "2")],
          [("$set", Value.obj [("String1", Value.str "1")])]⟩ "$set"
      = ("UPDATE project.col SET String1=@p1 WHERE ((FindString1 = @p2) AND (FindString2 = @p3))",
          some [Value.str "1", Value.str "1", Value.str "2"], none) ∧
    (∃ e, generateUpdateQuery ⟨Dialect.sqlserver⟩ "project" "col"
        ⟨[("FindString1", Value.str "1"), ("FindString2", Value.str "2")],
          []⟩ "$set"
      = ("", none, some e)) ∧
    generateUpdateQuery ⟨Dialect.sqlserver⟩ "project" "col"
        ⟨[("today", Value.str "1"), ("op2", Value.str "2")],
          [("$currentDate", Value.obj [("String1", Value.obj [("$type", Value.str "timestamp")])])]⟩ "$currentDate"
      = ("UPDATE project.col SET String1=CURRENT_TIMESTAMP WHERE ((today = @p2) AND (op2 = @p3))",
          some [Value.str "1", Value.str "2"], none) ∧
    (∃ e, generateUpdateQuery ⟨Dialect.sqlserver⟩ "project" "col"
        ⟨[],
          []⟩ "$currentDate"
      = ("", none, some e)) ∧
    (∃ e, generateUpdateQuery ⟨Dialect.sqlserver⟩ "project" "col"
        ⟨[("today", Value.str "1")],
          [("$inc", Value.obj [("String1", Value.str "1")])]⟩ "$inc"
      = ("", none, some e)) ∧
    (∃ e, generateUpdateQuery ⟨Dialect.sqlserver⟩ "project" "col"
        ⟨[("today", Value.str "d")],
          [("$inc", Value.obj [("String1", Value.str "r")])]⟩ "$inc"
      = ("", none, some e)) ∧
    generateUpdateQuery ⟨Dialect.sqlserver⟩ "project" "col"
        ⟨[("op1", Value.int 1), ("op2", Value.int 2)],
          [("$mul", Value.obj [("String1", Value.int 6)])]⟩ "$mul"
      = ("UPDATE project.col SET String1=String1*@p1 WHERE ((op1 = @p2) AND (op2 = @p3))",
          some [Value.intN 64 6, Value.intN 64 1, Value.intN 64 2], none) ∧
    generateUpdateQuery ⟨Dialect.sqlserver⟩ "project" "col"
        ⟨[("op1", Value.int 121), ("op2", Value.int 21)],
          [("$max", Value.obj [("String1", Value.int 6132)])]⟩ "$max"
      = ("UPDATE project.col SET String1=GREATEST(String1,@p1) WHERE ((op1 = @p2) AND (op2 = @p3))",
          some [Value.intN 64 6132, Value.intN 64 121, Value.intN 64 21], none) ∧
    generateUpdateQuery ⟨Dialect.sqlserver⟩ "project" "col"
        ⟨[("op1", Value.int 121), ("op2", Value.int 21)],
          [("$max", Value.obj [("String1", Value.int 6132), ("s2", Value.int 12)])]⟩ "$max"
      = ("UPDATE project.col SET String1=GREATEST(String1,@p1),s2=GREATEST(s2,@p2) WHERE ((op1 = @p3) AND (op2 = @p4))",
          some [Value.intN 64 6132, Value.intN 64 12, Value.intN 64 121, Value.intN 64 21], none) ∧
    generateUpdateQuery ⟨Dialect.sqlserver⟩ "project" "col"
        ⟨[("op1", Value.int 1), ("op2", Value.int 2)],
          [("$min", Value.obj [("String1", Value.int 6)])]⟩ "$min"
      = ("UPDATE project.col SET String1=LEAST(String1,@p1) WHERE ((op1 = @p2) AND (op2 = @p3))",
          some [Value.intN 64 6, Value.intN 64 1, Value.intN 64 2], none) ∧
    generateUpdateQuery ⟨Dialect.sqlserver⟩ "project" "col"
        ⟨[("op1", Value.int 1), ("op2", Value.int 2)],
          [("$min", Value.obj [("String1", Value.float 0xC01A28F5C28F5C29)])]⟩ "$min"
      = ("UPDATE project.col SET String1=LEAST(String1,@p1) WHERE ((op1 = @p2) AND (op2 = @p3))",
          some [Value.float 0xC01A28F5C28F5C29, Value.intN 64 1, Value.intN 64 2], none) ∧
    generateUpdateQuery ⟨Dialect.sqlserver⟩ "project" "col"
        ⟨[("op1", Value.int 1), ("op2", Value.int 2)],
          [("$min", Value.obj [("String1", Value.intN 64 18)])]⟩ "$min"
      = ("UPDATE project.col SET String1=LEAST(String1,@p1) WHERE ((op1 = @p2) AND (op2 = @p3))",
          some [Value.intN 64 18, Value.intN 64 1, Value.intN 64 2], none) ∧
    (∃ e, generateUpdateQuery ⟨Dialect.sqlserver⟩ "project" "col"
        ⟨[("op1", Value.int 1), ("op2", Value.int 2)],
          [("$set", Value.obj [("String1", Value.intN 64 18446744)])]⟩ "$mul"
      = ("", none, some e)) ∧
    generateUpdateQuery ⟨Dialect.sqlserver⟩ "project" "col"
        ⟨[("today", Value.str "1")],
          [("$currentDate", Value.obj [("String1", Value.obj [("$type", Value.str "date")])])]⟩ "$currentDate"
      = ("UPDATE project.col SET String1=CURRENT_DATE WHERE (today = @p2)",
          some [Value.str "1"], none) ∧
    (∃ e, generateUpdateQuery ⟨Dialect.sqlserver⟩ "project" "col"
        ⟨[("today", Value.str "1")],
          [("$currentDate", Value.obj [("String1", Value.obj [("$type", Value.str "")])])]⟩ "$currentDate"
      = ("", none, some e)) ∧
    (∃ e, generateUpdateQuery ⟨Dialect.sqlserver⟩ "project" "col"
        ⟨[],
          [("$set", Value.obj [("String1", Value.intN 64 18446744)])]⟩ "$mul"
      = ("", none, some e)) ∧
    generateUpdateQuery ⟨Dialect.sqlserver⟩ "project" "col"
        ⟨[("op1", Value.int 67), ("op2", Value.int 78)],
          [("$inc", Value.obj [("String1", Value.int 18446)])]⟩ "$inc"
      = ("UPDATE project.col SET String1=String1+@p1 WHERE ((op1 = @p2) AND (op2 = @p3))",
          some [Value.intN 64 18446, Value.intN 64 67, Value.intN 64 78], none) ∧
    (∃ e, generateUpdateQuery ⟨Dialect.sqlserver⟩ "project" "col"
        ⟨[("op1", Value.str "67"), ("op2", Value.str "78")],
          [("$max", Value.obj [("String1", Value.str "s18446")])]⟩ "$max"
      = ("", none, some e)) ∧
    (∃ e, generateUpdateQuery ⟨Dialect.sqlserver⟩ "project" "col"
        ⟨[("op1", Value.str "67"), ("op2", Value.str "78")],
          [("$min", Value.obj [("String1", Value.str "s18446")])]⟩ "$min"
      = ("", none, some e)) ∧
    (∃ e, generateUpdateQuery ⟨Dialect.sqlserver⟩ "project" "col"
        ⟨[("op1", Value.str "67"), ("op2", Value.str "78")],
          [("$max", Value.obj [("String1", Value.str "s18446")])]⟩ "$maxjgf"
      = ("", none, some e)) ∧
    (∃ e, generateUpdateQuery ⟨Dialect.sqlserver⟩ "project" "col"
        ⟨[("op1", Value.str "67"), ("op2", Value.str "78")],
          [("$currentDate", Value.obj [("String1", Value.str "s18446")])]⟩ "$currentDate"
      = ("", none, some e)) ∧
    (∃ e, generateUpdateQuery ⟨Dialect.sqlserver⟩ "project" "col"
        ⟨[("op1", Value.str "67"), ("op2", Value.str "78")],
          [("$currentDate", Value.obj [("String1", Value.obj [("$type", Value.int 1)])])]⟩ "$currentDate"
      = ("", none, some e)) ∧
    (∃ e, generateUpdateQuery ⟨Dialect.sqlserver⟩ "project" "col"
        ⟨[("op1", Value.str "67"), ("op2", Value.str "78")],
          [("$currentDatshdge", Value.obj [("String1", Value.obj [("$type", Value.int 1)])])]⟩ "$currentDatefs"
      = ("", none, some e)) :=
  ⟨rfl, ⟨_, rfl⟩, rfl, ⟨_, rfl⟩, ⟨_, rfl⟩, ⟨_, rfl⟩, rfl, rfl, rfl, rfl, rfl, rfl, ⟨_, rfl⟩, rfl, ⟨_, rfl⟩, ⟨_, rfl⟩, rfl, ⟨_, rfl⟩, ⟨_, rfl⟩, ⟨_, rfl⟩, ⟨_, rfl⟩, ⟨_, rfl⟩, ⟨_, rfl⟩⟩

/-! ## The text of the WHERE clause -/

theorem render_wherePredicates (d : Dialect) (find : GoMap) :
    ∀ n, render d (wherePredicates find n)
      = joinAnd ((find.enumFrom n).map fun ikv => predicateText d ikv.2.1 ikv.1) := by
  induction find with
  | nil => intro n; rfl
  | cons kv rest ih =>
    intro n
    obtain ⟨field, v⟩ := kv
    cases rest with
    | nil => simp [wherePredicates, render, renderPiece, joinAnd, predicateText,
        String.append_assoc]
    | cons next rest' =>
      have h := ih (n + 1)
      simp only [List.enumFrom_cons, List.map_cons, joinAnd] at h ⊢
      rw [← h]
      simp only [wherePredicates, List.cons_append, List.nil_append, render, renderPiece,
        predicateText, String.append_assoc]
      rfl

theorem render_whereClause (d : Dialect) (find : GoMap) (n : Nat) :
    render d (whereClause find n) = whereText d find n := by
  unfold whereClause whereText
  split
  · rfl
  · rename_i kv
    obtain ⟨field, v⟩ := kv
    simp [wherePredicates, render, renderPiece, predicateText, String.append_assoc]
  · rename_i kv next rest
    show renderPiece d (Piece.text " WHERE (") ++ render d (wherePredicates _ n ++ _) = _
    rw [render_append, render_wherePredicates]
    simp [render, renderPiece, String.append_assoc]

/-! ## The actions of a successful evaluation -/

/-- Case analysis on the branch `matchRule` takes, with the kind of the rule at hand in
each branch. -/
theorem matchRule_cases_kind (m : Module) (project : String) (rule : Rule) (st : State)
    (auth : GoMap) (P : Rule × State × Outcome → Prop)
    (h_err : ∀ e, P (rule, st, Outcome.ret (some ⟨[]⟩) (some e)))
    (h_ok : P (rule, st, Outcome.ret (some ⟨[]⟩) none))
    (h_and : rule.Rule = "and" → P (matchAnd m project rule st auth))
    (h_or : rule.Rule = "or" → P (matchOr m project rule st auth))
    (h_webhook : rule.Rule = "webhook" → P (match matchFunc m rule st with
      | (st', some err) => (rule, st', Outcome.ret (some ⟨[]⟩) err)
      | (st', none) => (rule, st', Outcome.panic)))
    (h_query : rule.Rule = "query" → P (match matchQuery m project rule st with
      | (rule', st', some err) => (rule', st', Outcome.ret (some ⟨[]⟩) err)
      | (rule', st', none) => (rule', st', Outcome.panic)))
    (h_force : rule.Rule = "force" →
      P (rule, { st with args := (matchForce m rule st.args).1 },
          (matchForce m rule st.args).2))
    (h_remove : rule.Rule = "remove" →
      P (rule, { st with args := (matchRemove m rule st.args).1 },
          (matchRemove m rule st.args).2)) :
    P (matchRule m project rule st auth) := by
  rw [matchRule_eq]
  by_cases h0 : project ≠ m.project
  · rw [if_pos h0]; exact h_err _
  rw [if_neg h0]
  by_cases h1 : rule.Rule = "allow" ∨ rule.Rule = "authenticated"
  · rw [if_pos h1]; exact h_ok
  rw [if_neg h1]
  by_cases h2 : isInternalUser m auth = true
  · rw [if_pos h2]; exact h_ok
  rw [if_neg h2]
  by_cases h3 : rule.Rule = "deny"
  · rw [if_pos h3]; exact h_err _
  rw [if_neg h3]
  by_cases h4 : rule.Rule = "match"
  · rw [if_pos h4]
    cases h : «match» m rule st.args
    · exact h_ok
    · exact h_err _
  rw [if_neg h4]
  by_cases h5 : rule.Rule = "and"
  · rw [if_pos h5]; exact h_and h5
  rw [if_neg h5]
  by_cases h6 : rule.Rule = "or"
  · rw [if_pos h6]; exact h_or h6
  rw [if_neg h6]
  by_cases h7 : rule.Rule = "webhook"
  · rw [if_pos h7]; exact h_webhook h7
  rw [if_neg h7]
  by_cases h8 : rule.Rule = "query"
  · rw [if_pos h8]; exact h_query h8
  rw [if_neg h8]
  by_cases h9 : rule.Rule = "force"
  · rw [if_pos h9]; exact h_force h9
  rw [if_neg h9]
  by_cases h10 : rule.Rule = "remove"
  · rw [if_pos h10]; exact h_remove h10
  rw [if_neg h10]
  exact h_err _

theorem resActions_mono (o : Outcome) (n k : Nat) (hnk : n ≤ k) (h : o.ResActions n) :
    o.ResActions k := by
  cases o with
  | panic => trivial
  | ret pp err =>
    cases err with
    | some e => trivial
    | none => exact ⟨h.1, Nat.le_trans h.2 hnk⟩

theorem resActions_empty (n : Nat) (err : Option Err) :
    (Outcome.ret (some ⟨[]⟩) err).ResActions n := by
  cases err with
  | some e => trivial
  | none => exact ⟨(fun a ha => by cases ha), Nat.zero_le _⟩

theorem forceWith_resActions (m : Module) (rule : Rule) (args : GoMap) (value : Value) :
    (forceWith m rule args value).2.ResActions 1 := by
  unfold forceWith
  by_cases h1 : HasPrefix rule.Field "res" = true
  · rw [if_pos h1]
    refine ⟨?_, Nat.le_refl _⟩
    intro a ha
    simp only [actionsOf, List.mem_singleton] at ha
    subst ha
    exact And.intro (Or.inl rfl) h1
  rw [if_neg h1]
  by_cases h2 : HasPrefix rule.Field "args" = true
  · rw [if_pos h2]
    exact resActions_empty 1 _
  · rw [if_neg h2]
    trivial

theorem matchRemoveLoop_resActions (m : Module) (fields : List String) :
    ∀ (args : GoMap) (actions : List PostProcessAction) (n : Nat),
      (∀ a ∈ actions, ResAction a) → actions.length ≤ n →
      (matchRemoveLoop m fields args actions).2.ResActions (n + fields.length) := by
  induction fields with
  | nil =>
    intro args actions n hall hlen
    exact ⟨hall, hlen⟩
  | cons f rest ih =>
    intro args actions n hall hlen
    cases hres : HasPrefix f "res"
    · cases hargs : HasPrefix f "args"
      · rw [matchRemoveLoop_cons_other m f rest args actions hres hargs]
        trivial
      · cases hd : m.DeleteValue f args with
        | mk args' err =>
          cases err with
          | none =>
            rw [matchRemoveLoop_cons_args_ok m f rest args args' actions hargs hd]
            exact resActions_mono _ _ _ (by simp only [List.length_cons]; omega)
              (ih args' actions n hall hlen)
          | some e =>
            rw [matchRemoveLoop_cons_args_err m f rest args args' actions e hargs hd]
            trivial
    · rw [matchRemoveLoop_cons_res m f rest args actions hres]
      have h := ih args (actions ++ [⟨"remove", f, Value.null⟩]) (n + 1)
        (by
          intro a ha
          rcases List.mem_append.1 ha with h1 | h1
          · exact hall a h1
          · simp only [List.mem_singleton] at h1
            subst h1
            exact And.intro (Or.inr ⟨rfl, rfl⟩) hres)
        (by simp only [List.length_append, List.length_singleton]; omega)
      exact resActions_mono _ _ _ (by simp only [List.length_cons]; omega) h

theorem webhook_resActions (m : Module) (rule : Rule) (st : State) (n : Nat) :
    (match matchFunc m rule st with
      | (st', some err) => (rule, st', Outcome.ret (some ⟨[]⟩) err)
      | (st', none) => (rule, st', Outcome.panic)).2.2.ResActions n := by
  split
  · exact resActions_empty _ _
  · trivial

theorem query_resActions (m : Module) (project : String) (rule : Rule) (st : State)
    (n : Nat) :
    (match matchQuery m project rule st with
      | (rule', st', some err) => (rule', st', Outcome.ret (some ⟨[]⟩) err)
      | (rule', st', none) => (rule', st', Outcome.panic)).2.2.ResActions n := by
  split
  · exact resActions_empty _ _
  · trivial

theorem actionBound_mk (r t : String) (cs : List Rule) (db col : String) (f : GoMap)
    (u : String) (fs : List String) (fd : String) (v : Value) :
    actionBound (Rule.mk r t cs db col f u fs fd v)
      = (if r = "force" then 1 else 0) + (if r = "remove" then fs.length else 0)
        + actionBoundList cs := by
  rw [actionBound]

theorem actionBoundList_cons (r : Rule) (rs : List Rule) :
    actionBoundList (r :: rs) = actionBound r + actionBoundList rs := by
  rw [actionBoundList]

theorem actionBoundList_nil : actionBoundList [] = 0 := by
  rw [actionBoundList]

theorem matchRule_resActions (m : Module) (project : String) (auth : GoMap) (rule : Rule) :
    ∀ st, (matchRule m project rule st auth).2.2.ResActions (actionBound rule) :=
  Rule.rec
    (motive_1 := fun rule =>
      ∀ st, (matchRule m project rule st auth).2.2.ResActions (actionBound rule))
    (motive_2 := fun cs =>
      (∀ (st : State) (acc : List PostProcessAction) (n : Nat),
        (∀ a ∈ acc, ResAction a) → acc.length ≤ n →
        (matchAndLoop m project cs st auth acc).2.2.ResActions (n + actionBoundList cs)) ∧
      (∀ st : State, (matchOrLoop m project cs st auth).2.2.ResActions (actionBoundList cs)))
    (fun r t cs db col f u fs fd v ih st => by
      rw [actionBound_mk]
      apply matchRule_cases_kind m project _ st auth
        (fun x => x.2.2.ResActions ((if r = "force" then 1 else 0)
          + (if r = "remove" then fs.length else 0) + actionBoundList cs))
      · intro e; trivial
      · exact resActions_empty _ _
      · intro _
        have h := ih.1 st [] 0 (fun a ha => by cases ha) (Nat.le_refl _)
        exact resActions_mono _ _ _ (by omega) h
      · intro _
        exact resActions_mono _ _ _ (by omega) (ih.2 st)
      · intro _
        exact webhook_resActions m _ st _
      · intro _
        exact query_resActions m project _ st _
      · intro hr
        simp only [Rule.Rule] at hr
        rw [matchForce_eq_forceWith]
        exact resActions_mono _ _ _ (by rw [if_pos hr]; omega)
          (forceWith_resActions m _ st.args _)
      · intro hr
        simp only [Rule.Rule] at hr
        have h := matchRemoveLoop_resActions m fs st.args [] 0 (fun a ha => by cases ha)
          (Nat.le_refl _)
        exact resActions_mono _ _ _ (by rw [if_pos hr]; omega) h)
    (by
      constructor
      · intro st acc n hall hlen
        rw [matchAndLoop_nil, actionBoundList_nil]
        exact ⟨hall, hlen⟩
      · intro st
        rw [matchOrLoop_nil]
        trivial)
    (fun head tail ih1 ih2 => by
      constructor
      · intro st acc n hall hlen
        rw [matchAndLoop_cons, actionBoundList_cons]
        have hhead := ih1 st
        split
        · trivial
        · trivial
        · trivial
        · rename_i r' st' postProcess heq
          rw [heq] at hhead
          have h := ih2.1 st' (acc ++ postProcess.PostProcessAction) (n + actionBound head)
            (by
              intro a ha
              rcases List.mem_append.1 ha with h1 | h1
              · exact hall a h1
              · exact hhead.1 a h1)
            (by
              have := hhead.2
              simp only [actionsOf] at this
              simp only [List.length_append]
              omega)
          rw [Nat.add_assoc] at h
          exact h
      · intro st
        rw [matchOrLoop_cons, actionBoundList_cons]
        have hhead := ih1 st
        split
        · trivial
        · rename_i r' st' postProcess heq
          rw [heq] at hhead
          exact resActions_mono _ _ _ (by omega) hhead
        · exact resActions_mono _ _ _ (by omega) (ih2.2 _))
    rule

theorem matchFunc_no_token (m : Module) (rule : Rule) (st : State)
    (h : ¬ HasToken st.args) : matchFunc m rule st = (st, none) := by
  unfold matchFunc
  split
  · rename_i obj hargs
    split
    · rename_i token htoken
      exact absurd ⟨obj, token, hargs, htoken⟩ h
    · rfl
  · rfl

theorem matchFunc_with_token (m : Module) (rule : Rule) (st : State)
    (h : HasToken st.args) : ∃ st' err, matchFunc m rule st = (st', some err) := by
  obtain ⟨obj, token, hargs, htoken⟩ := h
  cases hsc : m.GetSCAccessToken st.calls with
  | error err => exact ⟨_, _, matchFunc_run_err m rule st obj token err hargs htoken hsc⟩
  | ok scToken => exact ⟨_, _, matchFunc_run_ok m rule st obj token scToken hargs htoken hsc⟩

/-! # The claims -/

/-- C1: when `auth["id"]` is the string `utils.InternalUserID` and the project is the
module's, `matchRule` returns an empty `PostProcess` and a nil error for a rule of any
kind, and leaves the rule tree, `args` and the log of external calls as they were. -/
theorem matchRule_internal_user (m : Module) (project : String) (rule : Rule) (st : State)
    (auth : GoMap) (hp : project = m.project)
    (hid : mapGet "id" auth = some (Value.str m.InternalUserID)) :
    matchRule m project rule st auth = (rule, st, Outcome.ret (some ⟨[]⟩) none) := by
  have hi : isInternalUser m auth = true := (isInternalUser_eq_true_iff m auth).2 hid
  rw [matchRule_eq]
  by_cases h : rule.Rule = "allow" ∨ rule.Rule = "authenticated"
  · simp [hp, h]
  · simp [hp, h, hi]

theorem matchRule_internal_user_witness :
    "project" = exampleModule.project ∧
    mapGet "id" [("id", Value.str "internal-sc-user")]
      = some (Value.str exampleModule.InternalUserID) ∧
    matchRule exampleModule "project" (andRule [ruleOfKind "deny", webhookRule "http://hook"])
        ⟨argsOfUser "alice", []⟩ [("id", Value.str "internal-sc-user")]
      = (andRule [ruleOfKind "deny", webhookRule "http://hook"], ⟨argsOfUser "alice", []⟩,
          Outcome.ret (some ⟨[]⟩) none) :=
  ⟨rfl, rfl, matchRule_internal_user exampleModule "project" _ _ _ rfl rfl⟩

/-- C2: when the project argument differs from the module's project, `matchRule`
returns the invalid-project error with an empty `PostProcess` for every rule and every
`auth`, and leaves the rule tree, `args` and the log of external calls as they were. -/
theorem matchRule_invalid_project (m : Module) (project : String) (rule : Rule) (st : State)
    (auth : GoMap) (hp : project ≠ m.project) :
    matchRule m project rule st auth
      = (rule, st, Outcome.ret (some ⟨[]⟩) (some Err.invalidProject)) := by
  rw [matchRule_eq, if_pos hp]

theorem matchRule_invalid_project_witness :
    "other" ≠ exampleModule.project ∧
    matchRule exampleModule "other" (ruleOfKind "allow") ⟨argsOfUser "alice", []⟩
        [("id", Value.str "internal-sc-user")]
      = (ruleOfKind "allow", ⟨argsOfUser "alice", []⟩,
          Outcome.ret (some ⟨[]⟩) (some Err.invalidProject)) :=
  ⟨by decide, matchRule_invalid_project exampleModule "other" _ _ _ (by decide)⟩

/-- C3: for a matching project and an `auth` whose `"id"` is absent, not a string or a
string other than `utils.InternalUserID`, a `deny` rule returns `ErrIncorrectMatch` with
an empty `PostProcess`, and `args` is unchanged. -/
theorem matchRule_deny (m : Module) (project : String) (rule : Rule) (st : State)
    (auth : GoMap) (hp : project = m.project) (hr : rule.Rule = "deny")
    (hid : mapGet "id" auth ≠ some (Value.str m.InternalUserID)) :
    matchRule m project rule st auth
      = (rule, st, Outcome.ret (some ⟨[]⟩) (some Err.ErrIncorrectMatch)) :=
  matchRule_deny_eq m project rule st auth hp (isInternalUser_eq_false m auth hid) hr

theorem matchRule_deny_witness :
    "project" = exampleModule.project ∧ (ruleOfKind "deny").Rule = "deny" ∧
    mapGet "id" [("id", Value.int 7)] ≠ some (Value.str exampleModule.InternalUserID) ∧
    matchRule exampleModule "project" (ruleOfKind "deny") ⟨argsOfUser "alice", []⟩
        [("id", Value.int 7)]
      = (ruleOfKind "deny", ⟨argsOfUser "alice", []⟩,
          Outcome.ret (some ⟨[]⟩) (some Err.ErrIncorrectMatch)) :=
  ⟨rfl, rfl, by simp [mapGet],
    matchRule_deny exampleModule "project" _ _ _ rfl rfl (by simp [mapGet])⟩

/-- C4: `matchAnd` evaluates the clauses in order and stops at the first one that
returns an error: it returns exactly that error with an empty `PostProcess`, the state
is the one that clause left, and the clauses after it are untouched. In particular an
`and` rule whose first clause is a `deny`, or a `match` that mismatches, fails with
`ErrIncorrectMatch` whatever clauses follow, and `args` and the log of external calls
are as they were. -/
theorem matchAnd_short_circuit (m : Module) (project : String) (auth : GoMap) (st : State) :
    (∀ (rule : Rule) (pre post pre' : List Rule) (c c' : Rule) (st1 st2 : State)
        (acts : List PostProcessAction) (pp : Option PostProcess) (e : Err),
        rule.Clauses = pre ++ c :: post →
        succeedAll m project auth pre st = some (pre', st1, acts) →
        matchRule m project c st1 auth = (c', st2, Outcome.ret pp (some e)) →
        matchAnd m project rule st auth
          = (rule.setClauses (pre' ++ c' :: post), st2,
              Outcome.ret (some ⟨[]⟩) (some e))) ∧
    (∀ (rule c : Rule) (rest : List Rule),
        project = m.project →
        mapGet "id" auth ≠ some (Value.str m.InternalUserID) →
        rule.Rule = "and" → rule.Clauses = c :: rest →
        (c.Rule = "deny" ∨
          (c.Rule = "match" ∧ «match» m c st.args = some Err.ErrIncorrectMatch)) →
        matchRule m project rule st auth
          = (rule, st, Outcome.ret (some ⟨[]⟩) (some Err.ErrIncorrectMatch))) := by
  constructor
  · intro rule pre post pre' c c' st1 st2 acts pp e hcl hpre hc
    unfold matchAnd
    rw [hcl, matchAndLoop_short_circuit m project auth pre st [] pre' st1 acts c post c' st2
      pp e hpre hc]
  · intro rule c rest hp hid hr hcl hc
    have hi := isInternalUser_eq_false m auth hid
    have hfirst : matchRule m project c st auth
        = (c, st, Outcome.ret (some ⟨[]⟩) (some Err.ErrIncorrectMatch)) := by
      rcases hc with hd | ⟨hm, hmm⟩
      · exact matchRule_deny_eq m project c st auth hp hi hd
      · rw [matchRule_match m project c st auth hp hi hm, hmm]
    rw [matchRule_and m project rule st auth hp hi hr]
    unfold matchAnd
    rw [hcl, matchAndLoop_cons_err m project auth c rest st [] c st _ _ hfirst]
    show (rule.setClauses (c :: rest), st, _) = _
    rw [← hcl, setClauses_self]

theorem matchAnd_short_circuit_witness :
    matchAnd exampleModule "project"
        (andRule [forceRule "res.a" (Value.int 1), forceRule "args.ts" (Value.str "now"),
          forceRule "out.b" Value.null, webhookRule "http://hook"])
        ⟨argsOfUser "alice", []⟩ []
      = (andRule [forceRule "res.a" (Value.int 1), forceRule "args.ts" (Value.str "now"),
          forceRule "out.b" Value.null, webhookRule "http://hook"],
        ⟨[("args", Value.obj [("auth", Value.obj [("id", Value.str "alice")]),
            ("token", Value.str "tkn"), ("ts", Value.str "now")])], []⟩,
        Outcome.ret (some ⟨[]⟩) (some Err.ErrIncorrectRuleFieldType)) ∧
    matchRule exampleModule "project"
        (andRule [matchRuleOf "string" "args.auth.id" (Value.str "admin"),
          forceRule "args.ts" (Value.str "now")])
        ⟨argsOfUser "alice", []⟩ []
      = (andRule [matchRuleOf "string" "args.auth.id" (Value.str "admin"),
          forceRule "args.ts" (Value.str "now")],
        ⟨argsOfUser "alice", []⟩, Outcome.ret (some ⟨[]⟩) (some Err.ErrIncorrectMatch)) ∧
    matchRule exampleModule "project" (andRule [ruleOfKind "deny", webhookRule "http://hook"])
        ⟨argsOfUser "alice", []⟩ []
      = (andRule [ruleOfKind "deny", webhookRule "http://hook"],
        ⟨argsOfUser "alice", []⟩, Outcome.ret (some ⟨[]⟩) (some Err.ErrIncorrectMatch)) :=
  ⟨(matchAnd_short_circuit exampleModule "project" [] ⟨argsOfUser "alice", []⟩).1
      (andRule [forceRule "res.a" (Value.int 1), forceRule "args.ts" (Value.str "now"),
          forceRule "out.b" Value.null, webhookRule "http://hook"])
      [forceRule "res.a" (Value.int 1), forceRule "args.ts" (Value.str "now")]
      [webhookRule "http://hook"]
      [forceRule "res.a" (Value.int 1), forceRule "args.ts" (Value.str "now")]
      (forceRule "out.b" Value.null) (forceRule "out.b" Value.null)
      ⟨[("args", Value.obj [("auth", Value.obj [("id", Value.str "alice")]),
            ("token", Value.str "tkn"), ("ts", Value.str "now")])], []⟩
      ⟨[("args", Value.obj [("auth", Value.obj [("id", Value.str "alice")]),
            ("token", Value.str "tkn"), ("ts", Value.str "now")])], []⟩
      [⟨"force", "res.a", Value.int 1⟩] none Err.ErrIncorrectRuleFieldType rfl rfl rfl,
    (matchAnd_short_circuit exampleModule "project" [] ⟨argsOfUser "alice", []⟩).2
      _ (matchRuleOf "string" "args.auth.id" (Value.str "admin"))
      [forceRule "args.ts" (Value.str "now")] rfl (by simp [mapGet]) rfl rfl
      (Or.inr ⟨rfl, rfl⟩),
    (matchAnd_short_circuit exampleModule "project" [] ⟨argsOfUser "alice", []⟩).2
      _ (ruleOfKind "deny") [webhookRule "http://hook"] rfl (by simp [mapGet]) rfl rfl
      (Or.inl rfl)⟩

/-- C5: when every clause of an `and` rule succeeds, each evaluated in the state left by
the one before, `matchAnd` succeeds and its `PostProcess` holds the action lists the
clauses returned, concatenated in clause order; with no clauses it succeeds with an
empty `PostProcess`. -/
theorem matchAnd_concatenates (m : Module) (project : String) (auth : GoMap) (st : State) :
    (∀ (rule : Rule) (cs' : List Rule) (st' : State) (acts : List PostProcessAction),
        succeedAll m project auth rule.Clauses st = some (cs', st', acts) →
        matchAnd m project rule st auth
          = (rule.setClauses cs', st', Outcome.ret (some ⟨acts⟩) none)) ∧
    (∀ (rule : Rule), rule.Clauses = [] →
        matchAnd m project rule st auth = (rule, st, Outcome.ret (some ⟨[]⟩) none)) := by
  constructor
  · intro rule cs' st' acts h
    unfold matchAnd
    rw [matchAndLoop_of_succeedAll m project auth rule.Clauses st [] cs' st' acts h]
    rfl
  · intro rule h
    unfold matchAnd
    rw [h, matchAndLoop_nil]
    show (rule.setClauses [], st, _) = _
    rw [← h, setClauses_self]

theorem matchAnd_concatenates_witness :
    matchAnd exampleModule "project"
        (andRule [forceRule "res.a" (Value.int 1), removeRule ["res.b", "args.token", "res.c"],
          ruleOfKind "allow", forceRule "res.d" (Value.str "args.auth.id")])
        ⟨argsOfUser "alice", []⟩ []
      = (andRule [forceRule "res.a" (Value.int 1), removeRule ["res.b", "args.token", "res.c"],
          ruleOfKind "allow", forceRule "res.d" (Value.str "args.auth.id")],
        ⟨[("args", Value.obj [("auth", Value.obj [("id", Value.str "alice")])])], []⟩,
        Outcome.ret (some ⟨[⟨"force", "res.a", Value.int 1⟩, ⟨"remove", "res.b", Value.null⟩,
          ⟨"remove", "res.c", Value.null⟩, ⟨"force", "res.d", Value.str "alice"⟩]⟩) none) ∧
    matchAnd exampleModule "project" (andRule []) ⟨argsOfUser "alice", []⟩ []
      = (andRule [], ⟨argsOfUser "alice", []⟩, Outcome.ret (some ⟨[]⟩) none) :=
  ⟨(matchAnd_concatenates exampleModule "project" [] ⟨argsOfUser "alice", []⟩).1 _ _ _ _ rfl,
    (matchAnd_concatenates exampleModule "project" [] ⟨argsOfUser "alice", []⟩).2 _ rfl⟩

/-- C6: when the clauses of an `or` rule before some clause all fail and that clause
succeeds, `matchOr` returns exactly the `PostProcess` that clause returned, the state is
the one that clause left, and the clauses after it are untouched. -/
theorem matchOr_first_success (m : Module) (project : String) (auth : GoMap) (st : State)
    (rule : Rule) (pre post pre' : List Rule) (c c' : Rule) (st1 st2 : State)
    (pp : Option PostProcess)
    (hcl : rule.Clauses = pre ++ c :: post)
    (hpre : failAll m project auth pre st = some (pre', st1))
    (hc : matchRule m project c st1 auth = (c', st2, Outcome.ret pp none)) :
    matchOr m project rule st auth
      = (rule.setClauses (pre' ++ c' :: post), st2, Outcome.ret pp none) := by
  unfold matchOr
  rw [hcl, matchOrLoop_first_success m project auth pre st pre' st1 c post c' st2 pp hpre hc]

theorem matchOr_first_success_witness :
    matchOr exampleModule "project"
        (orRule [ruleOfKind "deny", forceRule "res.a" (Value.int 1),
          forceRule "res.b" (Value.int 2), webhookRule "http://hook"])
        ⟨argsOfUser "alice", []⟩ []
      = (orRule [ruleOfKind "deny", forceRule "res.a" (Value.int 1),
          forceRule "res.b" (Value.int 2), webhookRule "http://hook"],
        ⟨argsOfUser "alice", []⟩,
        Outcome.ret (some ⟨[⟨"force", "res.a", Value.int 1⟩]⟩) none) :=
  matchOr_first_success exampleModule "project" [] ⟨argsOfUser "alice", []⟩ _
    [ruleOfKind "deny"] [forceRule "res.b" (Value.int 2), webhookRule "http://hook"]
    [ruleOfKind "deny"] (forceRule "res.a" (Value.int 1)) (forceRule "res.a" (Value.int 1))
    ⟨argsOfUser "alice", []⟩ ⟨argsOfUser "alice", []⟩ _ rfl rfl rfl

/-- C7: when every clause of an `or` rule fails, each evaluated in the state left by the
one before, `matchOr` returns `ErrIncorrectMatch` with an empty `PostProcess`, whatever
errors the clauses returned; so does an `or` rule with no clauses. -/
theorem matchOr_all_fail (m : Module) (project : String) (auth : GoMap) (st : State)
    (rule : Rule) (cs' : List Rule) (st' : State)
    (h : failAll m project auth rule.Clauses st = some (cs', st')) :
    matchOr m project rule st auth
      = (rule.setClauses cs', st',
          Outcome.ret (some ⟨[]⟩) (some Err.ErrIncorrectMatch)) := by
  unfold matchOr
  rw [matchOrLoop_of_failAll m project auth rule.Clauses st cs' st' h]

theorem matchOr_all_fail_witness :
    matchRule exampleModule "project" (forceRule "out.b" Value.null) ⟨argsOfUser "alice", []⟩ []
      = (forceRule "out.b" Value.null, ⟨argsOfUser "alice", []⟩,
          Outcome.ret none (some Err.ErrIncorrectRuleFieldType)) ∧
    matchOr exampleModule "project" (orRule [forceRule "out.b" Value.null, ruleOfKind "deny"])
        ⟨argsOfUser "alice", []⟩ []
      = (orRule [forceRule "out.b" Value.null, ruleOfKind "deny"], ⟨argsOfUser "alice", []⟩,
          Outcome.ret (some ⟨[]⟩) (some Err.ErrIncorrectMatch)) :=
  ⟨rfl, matchOr_all_fail exampleModule "project" [] ⟨argsOfUser "alice", []⟩ _ _ _ rfl⟩

/-- C8 fails on the code: evaluating the query rule `{find: {"owner": "args.auth.id"}}`
for the caller `alice` leaves the rule with the find filter `{"owner": "alice"}`
(`matchQuery` assigns the adjusted filter to `rule.Find`), and evaluating the rule so
left for the caller `bob` reads with the filter `{"owner": "alice"}`. -/
theorem matchQuery_overwrites_rule_find :
    (queryRule "db" "col" [("owner", Value.str "args.auth.id")]).Find
      = [("owner", Value.str "args.auth.id")] ∧
    matchRule exampleModule "project"
        (queryRule "db" "col" [("owner", Value.str "args.auth.id")])
        ⟨argsOfUser "alice", []⟩ []
      = (queryRule "db" "col" [("owner", Value.str "alice")],
        ⟨argsOfUser "alice", [Call.read "db" "project" "col"
          ⟨[("owner", Value.str "alice")], One⟩]⟩,
        Outcome.ret (some ⟨[]⟩) none) ∧
    matchRule exampleModule "project" (queryRule "db" "col" [("owner", Value.str "alice")])
        ⟨argsOfUser "bob", []⟩ []
      = (queryRule "db" "col" [("owner", Value.str "alice")],
        ⟨argsOfUser "bob", [Call.read "db" "project" "col"
          ⟨[("owner", Value.str "alice")], One⟩]⟩,
        Outcome.ret (some ⟨[]⟩) none) :=
  ⟨rfl, rfl, rfl⟩

/-- C9: for a force rule whose field starts with `"res"`, `matchForce` returns a nil
error and a `PostProcess` with the single action `{"force", rule.Field, value}`, where
`value` is the effective value, and `args` is unchanged. -/
theorem matchForce_res (m : Module) (rule : Rule) (args : GoMap)
    (h : HasPrefix rule.Field "res" = true) :
    matchForce m rule args
      = (args, Outcome.ret
          (some ⟨[⟨"force", rule.Field, effectiveValue m rule args⟩]⟩) none) := by
  rw [matchForce_value, if_pos h]

theorem matchForce_res_witness :
    HasPrefix (forceRule "res.owner" (Value.str "args.auth.id")).Field "res" = true ∧
    matchForce exampleModule (forceRule "res.owner" (Value.str "args.auth.id"))
        (argsOfUser "alice")
      = (argsOfUser "alice",
          Outcome.ret (some ⟨[⟨"force", "res.owner", Value.str "alice"⟩]⟩) none) :=
  ⟨by decide, matchForce_res exampleModule _ _ (by decide)⟩

/-- C10: for a force rule whose field starts with `"args"`, `matchForce` stores the
effective value into `args` at `rule.Field` through `utils.StoreValue` and returns an
empty `PostProcess` together with the error `StoreValue` returned (nil on success). -/
theorem matchForce_args (m : Module) (rule : Rule) (args : GoMap)
    (h : HasPrefix rule.Field "args" = true) :
    matchForce m rule args
      = ((m.StoreValue rule.Field (effectiveValue m rule args) args).1,
          Outcome.ret (some ⟨[]⟩)
            (m.StoreValue rule.Field (effectiveValue m rule args) args).2) := by
  rw [matchForce_value, hasPrefix_args_not_res _ h, h]
  rfl

theorem matchForce_args_witness :
    HasPrefix (forceRule "args.find.owner" (Value.str "args.auth.id")).Field "args" = true ∧
    matchForce exampleModule (forceRule "args.owner" (Value.str "args.auth.id"))
        (argsOfUser "alice")
      = ([("args", Value.obj [("auth", Value.obj [("id", Value.str "alice")]),
            ("token", Value.str "tkn"), ("owner", Value.str "alice")])],
          Outcome.ret (some ⟨[]⟩) none) ∧
    matchForce exampleModule (forceRule "args.find.owner" (Value.str "args.auth.id"))
        (argsOfUser "alice")
      = (argsOfUser "alice", Outcome.ret (some ⟨[]⟩) (some (Err.other "invalid path"))) :=
  ⟨by decide, matchForce_args exampleModule _ _ (by decide),
    matchForce_args exampleModule _ _ (by decide)⟩

/-- C11 fails on the code: the paths `"result"` and `"resx.a"` are of neither form
`res.*` nor `args.*`, yet a force rule on `"result"` succeeds with a force action and a
remove rule on `"resx.a"` succeeds with a remove action. -/
theorem field_target_accepts_bare_prefixes :
    (HasPrefix "result" "res." = false ∧ HasPrefix "result" "args." = false ∧
      HasPrefix "resx.a" "res." = false ∧ HasPrefix "resx.a" "args." = false) ∧
    matchRule exampleModule "project" (forceRule "result" (Value.int 1))
        ⟨argsOfUser "alice", []⟩ []
      = (forceRule "result" (Value.int 1), ⟨argsOfUser "alice", []⟩,
          Outcome.ret (some ⟨[⟨"force", "result", Value.int 1⟩]⟩) none) ∧
    matchRule exampleModule "project" (removeRule ["resx.a"]) ⟨argsOfUser "alice", []⟩ []
      = (removeRule ["resx.a"], ⟨argsOfUser "alice", []⟩,
          Outcome.ret (some ⟨[⟨"remove", "resx.a", Value.null⟩]⟩) none) :=
  ⟨by decide, rfl, rfl⟩

/-- C11, amended: for a caller that is not the internal user and a matching project, a
force rule whose field starts with neither `"res"` nor `"args"` fails with
`ErrIncorrectRuleFieldType`; so does a remove rule whose fields hold an entry that starts
with neither, when the entries before it start with one of the two and their `args`
deletions succeed. -/
theorem matchRule_field_target (m : Module) (project : String) (st : State) (auth : GoMap)
    (hp : project = m.project)
    (hid : mapGet "id" auth ≠ some (Value.str m.InternalUserID)) :
    (∀ (rule : Rule), rule.Rule = "force" →
        HasPrefix rule.Field "res" = false → HasPrefix rule.Field "args" = false →
        matchRule m project rule st auth
          = (rule, st, Outcome.ret none (some Err.ErrIncorrectRuleFieldType))) ∧
    (∀ (rule : Rule) (pre post : List String) (f : String) (args1 : GoMap),
        rule.Rule = "remove" → rule.Fields = pre ++ f :: post →
        (∀ g ∈ pre, HasPrefix g "res" = true ∨ HasPrefix g "args" = true) →
        HasPrefix f "res" = false → HasPrefix f "args" = false →
        deleteEach m (argsFields pre) st.args = some args1 →
        matchRule m project rule st auth
          = (rule, { st with args := args1 },
              Outcome.ret none (some Err.ErrIncorrectRuleFieldType))) := by
  have hi := isInternalUser_eq_false m auth hid
  constructor
  · intro rule hr hres hargs
    rw [matchRule_force m project rule st auth hp hi hr, matchForce_eq_forceWith]
    simp [forceWith, hres, hargs]
  · intro rule pre post f args1 hr hf hall hres hargs hd
    rw [matchRule_remove m project rule st auth hp hi hr]
    unfold matchRemove
    rw [hf, matchRemoveLoop_run m pre st.args args1 [] (f :: post) hall hd,
      matchRemoveLoop_cons_other m f post args1 _ hres hargs]

theorem matchRule_field_target_witness :
    matchRule exampleModule "project" (forceRule "out.b" (Value.int 1))
        ⟨argsOfUser "alice", []⟩ []
      = (forceRule "out.b" (Value.int 1), ⟨argsOfUser "alice", []⟩,
          Outcome.ret none (some Err.ErrIncorrectRuleFieldType)) ∧
    matchRule exampleModule "project" (removeRule ["res.a", "args.token", "out.b", "res.c"])
        ⟨argsOfUser "alice", []⟩ []
      = (removeRule ["res.a", "args.token", "out.b", "res.c"],
          ⟨[("args", Value.obj [("auth", Value.obj [("id", Value.str "alice")])])], []⟩,
          Outcome.ret none (some Err.ErrIncorrectRuleFieldType)) :=
  ⟨(matchRule_field_target exampleModule "project" ⟨argsOfUser "alice", []⟩ [] rfl
      (by simp [mapGet])).1 _ rfl (by decide) (by decide),
    (matchRule_field_target exampleModule "project" ⟨argsOfUser "alice", []⟩ [] rfl
      (by simp [mapGet])).2 _ ["res.a", "args.token"] ["res.c"] "out.b" _ rfl rfl
      (by decide) (by decide) (by decide) rfl⟩

/-- C12: for a force rule whose field starts with neither `"res"` nor `"args"`,
`matchForce` returns a nil `PostProcess` with `ErrIncorrectRuleFieldType`, and `args` is
unchanged. -/
theorem matchForce_other (m : Module) (rule : Rule) (args : GoMap)
    (hres : HasPrefix rule.Field "res" = false) (hargs : HasPrefix rule.Field "args" = false) :
    matchForce m rule args
      = (args, Outcome.ret none (some Err.ErrIncorrectRuleFieldType)) := by
  rw [matchForce_eq_forceWith]
  simp [forceWith, hres, hargs]

theorem matchForce_other_witness :
    HasPrefix (forceRule "auth.role" (Value.str "admin")).Field "res" = false ∧
    HasPrefix (forceRule "auth.role" (Value.str "admin")).Field "args" = false ∧
    matchForce exampleModule (forceRule "auth.role" (Value.str "admin")) (argsOfUser "alice")
      = (argsOfUser "alice", Outcome.ret none (some Err.ErrIncorrectRuleFieldType)) :=
  ⟨by decide, by decide, matchForce_other exampleModule _ _ (by decide) (by decide)⟩

/-- C13: for a remove rule all of whose fields start with `"res"` or `"args"` and whose
`args` deletions all succeed, `matchRemove` succeeds; its actions are one
`{"remove", f, nil}` for each field `f` starting with `"res"`, in list order, and `args`
is what deleting the fields starting with `"args"`, in list order, through
`utils.DeleteValue` leaves. With an empty list it succeeds with no actions and `args`
unchanged. -/
theorem matchRemove_success (m : Module) (rule : Rule) (args args' : GoMap)
    (hall : ∀ f ∈ rule.Fields, HasPrefix f "res" = true ∨ HasPrefix f "args" = true)
    (hd : deleteEach m (argsFields rule.Fields) args = some args') :
    matchRemove m rule args
        = (args', Outcome.ret (some ⟨removeActions rule.Fields⟩) none) ∧
      (rule.Fields = [] →
        matchRemove m rule args = (args, Outcome.ret (some ⟨[]⟩) none)) := by
  constructor
  · unfold matchRemove
    have h := matchRemoveLoop_run m rule.Fields args args' [] [] hall hd
    rw [List.append_nil] at h
    rw [h, matchRemoveLoop_nil, List.nil_append]
  · intro hnil
    unfold matchRemove
    rw [hnil, matchRemoveLoop_nil]

theorem matchRemove_success_witness :
    matchRemove exampleModule (removeRule ["res.a", "args.token", "res.b", "args.auth.id"])
        (argsOfUser "alice")
      = ([("args", Value.obj [("auth", Value.obj [])])],
          Outcome.ret (some ⟨[⟨"remove", "res.a", Value.null⟩,
            ⟨"remove", "res.b", Value.null⟩]⟩) none) :=
  (matchRemove_success exampleModule
    (removeRule ["res.a", "args.token", "res.b", "args.auth.id"]) (argsOfUser "alice") _
    (by decide) rfl).1

/-- C14: for a remove rule whose fields hold an entry that starts with neither `"res"`
nor `"args"`, when the entries before it start with one of the two and their `args`
deletions succeed, `matchRemove` returns a nil `PostProcess` with
`ErrIncorrectRuleFieldType`: none of the remove actions gathered so far is returned, and
`args` is what the deletions before that entry left, whatever entries follow it. -/
theorem matchRemove_abort (m : Module) (rule : Rule) (args args1 : GoMap)
    (pre post : List String) (f : String)
    (hf : rule.Fields = pre ++ f :: post)
    (hall : ∀ g ∈ pre, HasPrefix g "res" = true ∨ HasPrefix g "args" = true)
    (hres : HasPrefix f "res" = false) (hargs : HasPrefix f "args" = false)
    (hd : deleteEach m (argsFields pre) args = some args1) :
    matchRemove m rule args
      = (args1, Outcome.ret none (some Err.ErrIncorrectRuleFieldType)) := by
  unfold matchRemove
  rw [hf, matchRemoveLoop_run m pre args args1 [] (f :: post) hall hd,
    matchRemoveLoop_cons_other m f post args1 _ hres hargs]

theorem matchRemove_abort_witness :
    matchRemove exampleModule (removeRule ["res.a", "args.token", "user", "args.auth"])
        (argsOfUser "alice")
      = ([("args", Value.obj [("auth", Value.obj [("id", Value.str "alice")])])],
          Outcome.ret none (some Err.ErrIncorrectRuleFieldType)) :=
  matchRemove_abort exampleModule _ (argsOfUser "alice") _ ["res.a", "args.token"]
    ["args.auth"] "user" rfl (by decide) (by decide) (by decide) rfl

/-- C15: whenever `matchRule` returns a non-nil error, the `PostProcess` it returns is
nil or has an empty action list. -/
theorem matchRule_error_no_actions (m : Module) (project : String) (rule : Rule)
    (st : State) (auth : GoMap) (rule' : Rule) (st' : State) (pp : Option PostProcess)
    (e : Err) (h : matchRule m project rule st auth = (rule', st', Outcome.ret pp (some e))) :
    actionsOf pp = [] := by
  have hs := matchRule_errNoActions m project auth rule st
  rw [h] at hs
  exact hs

theorem matchRule_error_no_actions_witness :
    matchRule (exampleModuleWith (Except.ok "sc-token") (some (Err.other "timeout")) none)
        "project" (andRule [forceRule "res.a" (Value.int 1), webhookRule "http://hook"])
        ⟨argsOfUser "alice", []⟩ []
      = (andRule [forceRule "res.a" (Value.int 1), webhookRule "http://hook"],
          ⟨[("args", Value.obj [("auth", Value.obj [("id", Value.str "alice")])])],
            [Call.http "POST" "http://hook" "tkn" "sc-token"
              [("auth", Value.obj [("id", Value.str "alice")])]]⟩,
          Outcome.ret (some ⟨[]⟩) (some (Err.other "timeout"))) ∧
    actionsOf (some (⟨[]⟩ : PostProcess)) = [] :=
  ⟨rfl, matchRule_error_no_actions
    (exampleModuleWith (Except.ok "sc-token") (some (Err.other "timeout")) none) "project"
    (andRule [forceRule "res.a" (Value.int 1), webhookRule "http://hook"])
    ⟨argsOfUser "alice", []⟩ [] _ _ _ _ rfl⟩

/-- C16: for a query rule, a caller that is not the internal user and a matching
project, with `find` the map `utils.Adjust` resolves `rule.Find` to: `matchRule` appends
exactly one read to the log of external calls, with db alias `rule.DB`, the project,
collection `rule.Col` and the request `{Find: find, Operation: One}`, leaves `args`
unchanged, and returns an empty `PostProcess` with the error of that read; replacing the
value the read returns changes nothing. -/
theorem matchRule_query_read (m : Module) (project : String) (rule : Rule) (st : State)
    (auth : GoMap) (find : GoMap) (hp : project = m.project)
    (hid : mapGet "id" auth ≠ some (Value.str m.InternalUserID))
    (hr : rule.Rule = "query")
    (ha : m.Adjust (Value.obj rule.Find) st.args = Value.obj find) :
    (matchRule m project rule st auth).2
        = ({ st with calls := st.calls ++ [Call.read rule.DB project rule.Col ⟨find, One⟩] },
            Outcome.ret (some ⟨[]⟩)
              (m.crudRead st.calls rule.DB project rule.Col ⟨find, One⟩).2) ∧
      (∀ g : Value → Value,
        matchRule (withReadValue m g) project rule st auth
          = matchRule m project rule st auth) := by
  have hi := isInternalUser_eq_false m auth hid
  constructor
  · rw [matchRule_query_run m project rule st auth find hp hi hr ha]
  · intro g
    rw [matchRule_query_run m project rule st auth find hp hi hr ha,
      matchRule_query_run (withReadValue m g) project rule st auth find hp hi hr ha]
    rfl

theorem matchRule_query_read_witness :
    (matchRule (exampleModuleWith (Except.ok "sc-token") none (some (Err.other "no rows")))
        "project" (queryRule "db" "col" [("owner", Value.str "args.auth.id")])
        ⟨argsOfUser "alice", []⟩ []).2
      = (⟨argsOfUser "alice",
            [Call.read "db" "project" "col" ⟨[("owner", Value.str "alice")], One⟩]⟩,
          Outcome.ret (some ⟨[]⟩) (some (Err.other "no rows"))) :=
  (matchRule_query_read
    (exampleModuleWith (Except.ok "sc-token") none (some (Err.other "no rows"))) "project"
    (queryRule "db" "col" [("owner", Value.str "args.auth.id")]) ⟨argsOfUser "alice", []⟩ []
    [("owner", Value.str "alice")] rfl (by simp [mapGet]) rfl rfl).1

/-- C17: for a webhook rule, a caller that is not the internal user and a matching
project, when `args["args"]` is a map `obj` holding the string `token` under `"token"`:
if the token provider returns `scToken`, exactly one HTTP call is appended to the log,
`POST` to `rule.URL` with `token`, `scToken` and `obj` without its `"token"` key, and the
result is an empty `PostProcess` with the requester's error; if the provider returns an
error, that error is returned and nothing is appended to the log. In both cases
`args["args"]` afterwards is `obj` without `"token"`. -/
theorem matchRule_webhook_call (m : Module) (project : String) (rule : Rule) (st : State)
    (auth : GoMap) (obj : GoMap) (token : String) (hp : project = m.project)
    (hid : mapGet "id" auth ≠ some (Value.str m.InternalUserID))
    (hr : rule.Rule = "webhook")
    (hargs : mapGet "args" st.args = some (Value.obj obj))
    (htoken : mapGet "token" obj = some (Value.str token)) :
    (∀ scToken, m.GetSCAccessToken st.calls = Except.ok scToken →
        matchRule m project rule st auth
          = (rule,
              ⟨mapSet "args" (Value.obj (mapDelete "token" obj)) st.args,
                st.calls ++
                  [Call.http "POST" rule.URL token scToken (mapDelete "token" obj)]⟩,
              Outcome.ret (some ⟨[]⟩)
                (m.makeHttpRequest st.calls "POST" rule.URL token scToken
                  (mapDelete "token" obj)))) ∧
      (∀ err, m.GetSCAccessToken st.calls = Except.error err →
        matchRule m project rule st auth
          = (rule, ⟨mapSet "args" (Value.obj (mapDelete "token" obj)) st.args, st.calls⟩,
              Outcome.ret (some ⟨[]⟩) (some err))) ∧
      mapGet "args" (matchRule m project rule st auth).2.1.args
        = some (Value.obj (mapDelete "token" obj)) ∧
      mapGet "token" (mapDelete "token" obj) = none := by
  have hi := isInternalUser_eq_false m auth hid
  have hok : ∀ scToken, m.GetSCAccessToken st.calls = Except.ok scToken →
      matchRule m project rule st auth
        = (rule,
            ⟨mapSet "args" (Value.obj (mapDelete "token" obj)) st.args,
              st.calls ++ [Call.http "POST" rule.URL token scToken (mapDelete "token" obj)]⟩,
            Outcome.ret (some ⟨[]⟩)
              (m.makeHttpRequest st.calls "POST" rule.URL token scToken
                (mapDelete "token" obj))) := by
    intro scToken hsc
    rw [matchRule_webhook m project rule st auth hp hi hr,
      matchFunc_run_ok m rule st obj token scToken hargs htoken hsc]
  have herr : ∀ err, m.GetSCAccessToken st.calls = Except.error err →
      matchRule m project rule st auth
        = (rule, ⟨mapSet "args" (Value.obj (mapDelete "token" obj)) st.args, st.calls⟩,
            Outcome.ret (some ⟨[]⟩) (some err)) := by
    intro err hsc
    rw [matchRule_webhook m project rule st auth hp hi hr,
      matchFunc_run_err m rule st obj token err hargs htoken hsc]
  refine ⟨hok, herr, ?_, mapGet_mapDelete_self "token" obj⟩
  cases hsc : m.GetSCAccessToken st.calls with
  | error err => rw [herr err hsc]; exact mapGet_mapSet_self _ _ _
  | ok scToken => rw [hok scToken hsc]; exact mapGet_mapSet_self _ _ _

theorem matchRule_webhook_call_witness :
    matchRule (exampleModuleWith (Except.ok "sc-token") (some (Err.other "timeout")) none)
        "project" (webhookRule "http://hook") ⟨argsOfUser "alice", []⟩ []
      = (webhookRule "http://hook",
          ⟨[("args", Value.obj [("auth", Value.obj [("id", Value.str "alice")])])],
            [Call.http "POST" "http://hook" "tkn" "sc-token"
              [("auth", Value.obj [("id", Value.str "alice")])]]⟩,
          Outcome.ret (some ⟨[]⟩) (some (Err.other "timeout"))) ∧
    matchRule (exampleModuleWith (Except.error (Err.other "no secret")) none none)
        "project" (webhookRule "http://hook") ⟨argsOfUser "alice", []⟩ []
      = (webhookRule "http://hook",
          ⟨[("args", Value.obj [("auth", Value.obj [("id", Value.str "alice")])])], []⟩,
          Outcome.ret (some ⟨[]⟩) (some (Err.other "no secret"))) :=
  ⟨(matchRule_webhook_call
      (exampleModuleWith (Except.ok "sc-token") (some (Err.other "timeout")) none) "project"
      (webhookRule "http://hook") ⟨argsOfUser "alice", []⟩ []
      [("auth", Value.obj [("id", Value.str "alice")]), ("token", Value.str "tkn")] "tkn"
      rfl (by simp [mapGet]) rfl rfl rfl).1 "sc-token" rfl,
    (matchRule_webhook_call
      (exampleModuleWith (Except.error (Err.other "no secret")) none none) "project"
      (webhookRule "http://hook") ⟨argsOfUser "alice", []⟩ []
      [("auth", Value.obj [("id", Value.str "alice")]), ("token", Value.str "tkn")] "tkn"
      rfl (by simp [mapGet]) rfl rfl rfl).2.1 (Err.other "no secret") rfl⟩

/-- C18: for a matching project, a rule of kind `allow` or `authenticated` returns an
empty `PostProcess` and a nil error for every `args` and every `auth`, the empty one
included, and the rule tree, `args` and the log of external calls are unchanged. -/
theorem matchRule_allow (m : Module) (project : String) (rule : Rule) (st : State)
    (auth : GoMap) (hp : project = m.project)
    (hr : rule.Rule = "allow" ∨ rule.Rule = "authenticated") :
    matchRule m project rule st auth = (rule, st, Outcome.ret (some ⟨[]⟩) none) := by
  rw [matchRule_eq, if_neg (by simp [hp]), if_pos hr]

theorem matchRule_allow_witness :
    matchRule exampleModule "project" (ruleOfKind "authenticated") ⟨argsOfUser "alice", []⟩ []
      = (ruleOfKind "authenticated", ⟨argsOfUser "alice", []⟩,
          Outcome.ret (some ⟨[]⟩) none) :=
  matchRule_allow exampleModule "project" _ _ [] rfl (Or.inr rfl)

/-- C19: for a matching project and a caller that is not the internal user, a rule whose
kind is none of `allow`, `authenticated`, `deny`, `match`, `and`, `or`, `webhook`,
`query`, `force`, `remove` returns `ErrIncorrectMatch` with an empty `PostProcess`, and
nothing changes. -/
theorem matchRule_unknown_kind (m : Module) (project : String) (rule : Rule) (st : State)
    (auth : GoMap) (hp : project = m.project)
    (hid : mapGet "id" auth ≠ some (Value.str m.InternalUserID))
    (hr : rule.Rule ∉ ["allow", "authenticated", "deny", "match", "and", "or", "webhook",
      "query", "force", "remove"]) :
    matchRule m project rule st auth
      = (rule, st, Outcome.ret (some ⟨[]⟩) (some Err.ErrIncorrectMatch)) := by
  have hi := isInternalUser_eq_false m auth hid
  simp only [List.mem_cons, List.mem_singleton, List.not_mem_nil, or_false, not_or] at hr
  obtain ⟨h1, h2, h3, h4, h5, h6, h7, h8, h9, h10⟩ := hr
  rw [matchRule_eq]
  simp [hp, hi, h1, h2, h3, h4, h5, h6, h7, h8, h9, h10]

theorem matchRule_unknown_kind_witness :
    matchRule exampleModule "project" (ruleOfKind "") ⟨argsOfUser "alice", []⟩ []
      = (ruleOfKind "", ⟨argsOfUser "alice", []⟩,
          Outcome.ret (some ⟨[]⟩) (some Err.ErrIncorrectMatch)) :=
  matchRule_unknown_kind exampleModule "project" _ _ [] rfl (by simp [mapGet]) (by decide)

/-- C20: the value `matchForce` goes on with is what `utils.LoadValue` resolves
`rule.Value` to when `rule.Value` is a string and the resolution succeeds, and
`rule.Value` itself when it is a string whose resolution fails or is not a string; the
error of a failed resolution is not returned: a force rule on a field starting with
`"res"` then succeeds with the literal value. -/
theorem matchForce_effective_value (m : Module) (rule : Rule) (args : GoMap) :
    (∀ s v, rule.Value = Value.str s → m.LoadValue s args = Except.ok v →
        matchForce m rule args = forceWith m rule args v) ∧
    (∀ s e, rule.Value = Value.str s → m.LoadValue s args = Except.error e →
        matchForce m rule args = forceWith m rule args rule.Value) ∧
    ((∀ s, rule.Value ≠ Value.str s) →
        matchForce m rule args = forceWith m rule args rule.Value) ∧
    (∀ s e, rule.Value = Value.str s → m.LoadValue s args = Except.error e →
        HasPrefix rule.Field "res" = true →
        matchForce m rule args
          = (args, Outcome.ret (some ⟨[⟨"force", rule.Field, Value.str s⟩]⟩) none)) := by
  have h2 : ∀ s e, rule.Value = Value.str s → m.LoadValue s args = Except.error e →
      matchForce m rule args = forceWith m rule args rule.Value := by
    intro s e hs hl
    rw [matchForce_eq_forceWith]
    simp only [effectiveValue, hs, hl]
  refine ⟨?_, h2, ?_, ?_⟩
  · intro s v hs hl
    rw [matchForce_eq_forceWith]
    simp only [effectiveValue, hs, hl]
  · intro hns
    rw [matchForce_eq_forceWith]
    unfold effectiveValue
    split
    · rename_i s hs
      exact absurd hs (hns s)
    · rfl
  · intro s e hs hl hres
    rw [h2 s e hs hl, hs]
    simp [forceWith, hres]

theorem matchForce_effective_value_witness :
    matchForce exampleModule (forceRule "res.owner" (Value.str "args.auth.id"))
        (argsOfUser "alice")
      = (argsOfUser "alice",
          Outcome.ret (some ⟨[⟨"force", "res.owner", Value.str "alice"⟩]⟩) none) ∧
    matchForce exampleModule (forceRule "res.owner" (Value.str "args.auth.name"))
        (argsOfUser "alice")
      = (argsOfUser "alice",
          Outcome.ret (some ⟨[⟨"force", "res.owner", Value.str "args.auth.name"⟩]⟩) none) ∧
    matchForce exampleModule (forceRule "res.owner" (Value.int 7)) (argsOfUser "alice")
      = (argsOfUser "alice",
          Outcome.ret (some ⟨[⟨"force", "res.owner", Value.int 7⟩]⟩) none) :=
  ⟨(matchForce_effective_value exampleModule
      (forceRule "res.owner" (Value.str "args.auth.id")) (argsOfUser "alice")).1
      "args.auth.id" (Value.str "alice") rfl rfl,
    (matchForce_effective_value exampleModule
      (forceRule "res.owner" (Value.str "args.auth.name")) (argsOfUser "alice")).2.2.2
      "args.auth.name" (Err.other "key not found") rfl rfl (by decide),
    (matchForce_effective_value exampleModule
      (forceRule "res.owner" (Value.int 7)) (argsOfUser "alice")).2.2.1
      (by intro s h; cases h)⟩

/-- C21: when `request.Update` has no entry under the requested operator (a nil update
map, or a map holding only other operators), `generateUpdateQuery` returns an error, the
empty statement text and nil parameters, in every dialect. -/
theorem generateUpdateQuery_missing_operator (s : SQL) (project col : String)
    (req : UpdateRequest) (op : String) (h : mapGet op req.Update = none) :
    generateUpdateQuery s project col req op
      = ("", none, some CompileErr.MissingOperatorPayload) := by
  apply generateUpdateQuery_of_error
  simp only [updatePieces, h]

theorem generateUpdateQuery_missing_operator_witness :
    generateUpdateQuery ⟨Dialect.mysql⟩ "project" "col"
        ⟨[("FindString1", Value.str "1"), ("FindString2", Value.str "2")], []⟩ "$set"
      = ("", none, some CompileErr.MissingOperatorPayload) ∧
    generateUpdateQuery ⟨Dialect.postgres⟩ "project" "col"
        ⟨[("op1", Value.int 1), ("op2", Value.int 2)],
          [("$set", Value.obj [("String1", Value.intN 64 18446744)])]⟩ "$mul"
      = ("", none, some CompileErr.MissingOperatorPayload) :=
  ⟨generateUpdateQuery_missing_operator _ _ _ _ _ rfl,
    generateUpdateQuery_missing_operator _ _ _ _ _ rfl⟩

/-- C22: under `$inc`, `$mul`, `$min` or `$max`, when the operand of some field is a
string, `generateUpdateQuery` returns an error, the empty statement text and nil
parameters, in every dialect: a string is never coerced to a number. -/
theorem generateUpdateQuery_string_operand (s : SQL) (project col : String)
    (req : UpdateRequest) (op : String) (m : GoMap) (field v : String)
    (hop : op ∈ ["$inc", "$mul", "$min", "$max"])
    (hm : mapGet op req.Update = some (Value.obj m))
    (hf : (field, Value.str v) ∈ m) :
    generateUpdateQuery s project col req op
      = ("", none, some CompileErr.InvalidOperand) := by
  apply generateUpdateQuery_of_error
  exact updatePieces_of_fragment_error project col req op m hm (numeric_supported op hop)
    ⟨(field, Value.str v), hf, fun k =>
      ⟨CompileErr.InvalidOperand, setFragment_numeric_string op field v k hop⟩⟩

theorem generateUpdateQuery_string_operand_witness :
    generateUpdateQuery ⟨Dialect.mysql⟩ "project" "col"
        ⟨[("today", Value.str "1")], [("$inc", Value.obj [("String1", Value.str "1")])]⟩ "$inc"
      = ("", none, some CompileErr.InvalidOperand) ∧
    generateUpdateQuery ⟨Dialect.sqlserver⟩ "project" "col"
        ⟨[("op1", Value.str "67"), ("op2", Value.str "78")],
          [("$max", Value.obj [("String1", Value.int 5), ("s2", Value.str "s18446")])]⟩ "$max"
      = ("", none, some CompileErr.InvalidOperand) :=
  ⟨generateUpdateQuery_string_operand _ _ _ _ "$inc" [("String1", Value.str "1")] "String1"
      "1" (by decide) rfl (List.mem_cons_self _ _),
    generateUpdateQuery_string_operand _ _ _ _ "$max"
      [("String1", Value.int 5), ("s2", Value.str "s18446")] "s2" "s18446" (by decide) rfl
      (List.mem_cons_of_mem _ (List.mem_cons_self _ _))⟩

/-- C23: on a successful compile under `$inc`, `$mul`, `$min` or `$max`, the parameters
are one per field of the operator map, in order, followed by the parameters of the find
values; the parameter of an integer operand of any width is the 64-bit signed integer of
the same value and the parameter of a float operand is the 64-bit float of the same
value. -/
theorem generateUpdateQuery_numeric_coercion (s : SQL) (project col : String)
    (req : UpdateRequest) (op : String) (text : String) (params : Option (List Value))
    (hop : op ∈ ["$inc", "$mul", "$min", "$max"])
    (h : generateUpdateQuery s project col req op = (text, params, none)) :
    ∃ (m : GoMap) (ps : List Value), mapGet op req.Update = some (Value.obj m) ∧
      params = some (ps ++ findParams req.Find) ∧
      List.Forall₂ (fun (kv : String × Value) p => Coerced kv.2 p) m ps := by
  obtain ⟨pieces, hp, _, hparams⟩ := generateUpdateQuery_ok s project col req op text params h
  obtain ⟨m, frags, hm, _, hall, hpieces⟩ := updatePieces_ok project col req op pieces hp
  have hsingle : List.Forall₂ (fun (ikv : Nat × String × Value) frag =>
      ∃ p, Coerced ikv.2.2 p ∧ placeholders frag = [(ikv.1, p)]) (m.enumFrom 1) frags := by
    refine hall.imp ?_
    intro ikv frag hfrag
    obtain ⟨⟨p, hc, hph⟩, _⟩ :=
      setFragment_numeric_ok s.dbType op ikv.2.1 ikv.2.2 ikv.1 frag hop hfrag
    exact ⟨p, checkIfNum_coerced _ _ hc, hph⟩
  obtain ⟨ps, hps, hflat⟩ := placeholders_of_single Coerced m 1 frags hsingle
  refine ⟨m, ps, hm, ?_, hps⟩
  have hlen : ps.length = m.length := hps.length_eq.symm
  rw [hparams, hpieces, placeholders_statement, hflat, List.map_append, ← hlen,
    map_snd_zip_range', findParams, ← List.length_map req.Find (fun kv => findParam kv.2),
    map_snd_zip_range']

theorem generateUpdateQuery_numeric_coercion_witness :
    generateUpdateQuery ⟨Dialect.mysql⟩ "project" "col"
        ⟨[("op1", Value.int 1), ("op2", Value.int 2)],
          [("$min", Value.obj [("String1", Value.int 6), ("s2", Value.intN 64 18),
            ("s3", Value.float 0xC01A28F5C28F5C29)])]⟩ "$min"
      = ("UPDATE project.col SET String1=LEAST(String1,?),s2=LEAST(s2,?),s3=LEAST(s3,?) WHERE ((op1 = ?) AND (op2 = ?))",
          some [Value.intN 64 6, Value.intN 64 18, Value.float 0xC01A28F5C28F5C29,
            Value.intN 64 1, Value.intN 64 2], none) ∧
    (∃ (m : GoMap) (ps : List Value),
      mapGet "$min" [("$min", Value.obj [("String1", Value.int 6), ("s2", Value.intN 64 18),
            ("s3", Value.float 0xC01A28F5C28F5C29)])] = some (Value.obj m) ∧
      some [Value.intN 64 6, Value.intN 64 18, Value.float 0xC01A28F5C28F5C29,
            Value.intN 64 1, Value.intN 64 2]
        = some (ps ++ findParams [("op1", Value.int 1), ("op2", Value.int 2)]) ∧
      List.Forall₂ (fun (kv : String × Value) p => Coerced kv.2 p) m ps) :=
  ⟨rfl, generateUpdateQuery_numeric_coercion ⟨Dialect.mysql⟩ "project" "col"
    ⟨[("op1", Value.int 1), ("op2", Value.int 2)],
      [("$min", Value.obj [("String1", Value.int 6), ("s2", Value.intN 64 18),
        ("s3", Value.float 0xC01A28F5C28F5C29)])]⟩ "$min" _ _ (by decide) rfl⟩

/-- C24 fails on the golden output for postgres, `$currentDate` with type `timestamp`
and the find `{today: "1", op2: "2"}`: the first placeholder of the statement carries the
ordinal 2 and the second the ordinal 3, while the parameter list has two entries. -/
theorem currentDate_ordinals_start_after_set :
    generateUpdateQuery ⟨Dialect.postgres⟩ "project" "col"
        ⟨[("today", Value.str "1"), ("op2", Value.str "2")],
          [("$currentDate",
            Value.obj [("String1", Value.obj [("$type", Value.str "timestamp")])])]⟩
        "$currentDate"
      = ("UPDATE project.col SET String1=CURRENT_TIMESTAMP WHERE ((today = $2) AND (op2 = $3))",
          some [Value.str "1", Value.str "2"], none) ∧
    ∃ pieces,
      updatePieces "project" "col"
        ⟨[("today", Value.str "1"), ("op2", Value.str "2")],
          [("$currentDate",
            Value.obj [("String1", Value.obj [("$type", Value.str "timestamp")])])]⟩
        "$currentDate" = Except.ok pieces ∧
      (placeholders pieces).map Prod.fst = [2, 3] ∧
      (placeholders pieces).map Prod.fst ≠ List.range' 1 (placeholders pieces).length :=
  ⟨rfl, _, rfl, rfl, by decide⟩

/-- C24, amended: on every successful compile the parameters are the values bound to the
placeholders of the statement, read left to right. Under `$set`, `$inc`, `$mul`, `$min`
and `$max` the N-th placeholder carries the ordinal N, so the ordinals are 1 up to the
number of parameters. Under `$currentDate` every SET field uses up one ordinal without a
placeholder or a parameter, so the placeholders, all in the WHERE clause, carry the
ordinals from the number of SET fields plus one on. -/
theorem generateUpdateQuery_ordinals (s : SQL) (project col : String) (req : UpdateRequest)
    (op : String) (text : String) (params : Option (List Value))
    (h : generateUpdateQuery s project col req op = (text, params, none)) :
    ∃ (pieces : List Piece) (m : GoMap),
      updatePieces project col req op = Except.ok pieces ∧
      text = render s.dbType pieces ∧
      params = some ((placeholders pieces).map Prod.snd) ∧
      mapGet op req.Update = some (Value.obj m) ∧
      (op ≠ "$currentDate" →
        (placeholders pieces).map Prod.fst = List.range' 1 (placeholders pieces).length) ∧
      (op = "$currentDate" →
        (placeholders pieces).map Prod.fst
          = List.range' (m.length + 1) req.Find.length) := by
  obtain ⟨pieces, hp, htext, hparams⟩ :=
    generateUpdateQuery_ok s project col req op text params h
  obtain ⟨m, setPh, hm, hph, hval, hdate⟩ := placeholders_updatePieces project col req op pieces hp
  refine ⟨pieces, m, hp, htext, hparams, hm, ?_, ?_⟩
  · intro hne
    obtain ⟨ps, hlen, hset, _⟩ := hval hne
    have hfl := length_findParams req.Find
    rw [hph, hset, List.map_append, List.length_append, ← hlen, map_fst_zip_range', ← hfl,
      map_fst_zip_range']
    simp only [List.length_zip, List.length_range', Nat.min_self]
    rw [Nat.add_comm ps.length 1, List.range'_append_1, Nat.add_comm]
  · intro heq
    have hfl := length_findParams req.Find
    rw [hph, hdate heq, List.nil_append, ← hfl, map_fst_zip_range']

theorem generateUpdateQuery_ordinals_witness :
    ∃ (pieces : List Piece) (m : GoMap),
      updatePieces "project" "col"
        ⟨[("op1", Value.int 121), ("op2", Value.int 21)],
          [("$max", Value.obj [("String1", Value.int 6132), ("s2", Value.int 12)])]⟩ "$max"
        = Except.ok pieces ∧
      "UPDATE project.col SET String1=GREATEST(String1,$1),s2=GREATEST(s2,$2) WHERE ((op1 = $3) AND (op2 = $4))"
        = render Dialect.postgres pieces ∧
      some [Value.intN 64 6132, Value.intN 64 12, Value.intN 64 121, Value.intN 64 21]
        = some ((placeholders pieces).map Prod.snd) ∧
      mapGet "$max" [("$max", Value.obj [("String1", Value.int 6132), ("s2", Value.int 12)])]
        = some (Value.obj m) ∧
      ("$max" ≠ "$currentDate" →
        (placeholders pieces).map Prod.fst = List.range' 1 (placeholders pieces).length) ∧
      ("$max" = "$currentDate" →
        (placeholders pieces).map Prod.fst = List.range' (m.length + 1) 2) :=
  generateUpdateQuery_ordinals ⟨Dialect.postgres⟩ "project" "col"
    ⟨[("op1", Value.int 121), ("op2", Value.int 21)],
      [("$max", Value.obj [("String1", Value.int 6132), ("s2", Value.int 12)])]⟩ "$max"
    _ _ rfl

/-- C25: a `$currentDate` update of one field with `$type` `"timestamp"` or `"date"`
compiles, in every dialect, to the SET fragment `field=CURRENT_TIMESTAMP` or
`field=CURRENT_DATE` followed by the WHERE clause numbered from 2: the placeholders of
the statement carry the ordinals 2, 3, ..., k+1 for a find of k predicates, and the
parameters are exactly the k parameters of the find values. -/
theorem generateUpdateQuery_currentDate_numbering (s : SQL) (project col : String)
    (req : UpdateRequest) (field : String) (operand : Value) (t : String)
    (hm : mapGet "$currentDate" req.Update = some (Value.obj [(field, operand)]))
    (ht : HasDateType operand t) (hty : t = "timestamp" ∨ t = "date") :
    ∃ pieces, updatePieces project col req "$currentDate" = Except.ok pieces ∧
      generateUpdateQuery s project col req "$currentDate"
        = ("UPDATE " ++ project ++ "." ++ col ++ " SET " ++ (field ++ "=" ++ dateKeyword t)
            ++ render s.dbType (whereClause req.Find 2),
          some (findParams req.Find), none) ∧
      (placeholders pieces).map Prod.fst = List.range' 2 req.Find.length ∧
      (findParams req.Find).length = req.Find.length := by
  have hfrag := setFragment_currentDate_of_type field operand 1 t ht hty
  have hp := updatePieces_of_fragments project col req "$currentDate" [(field, operand)]
    [[Piece.text (field ++ "=" ++ dateKeyword t)]] hm (by decide)
    (List.Forall₂.cons hfrag List.Forall₂.nil)
  have hfl := length_findParams req.Find
  have hph : placeholders (Piece.text ("UPDATE " ++ project ++ "." ++ col ++ " SET ")
      :: joinFragments [[Piece.text (field ++ "=" ++ dateKeyword t)]]
        ++ whereClause req.Find ([(field, operand)].length + 1))
      = (List.range' 2 req.Find.length).zip (findParams req.Find) := by
    rw [placeholders_statement]
    rfl
  refine ⟨_, hp, ?_, ?_, hfl⟩
  · rw [generateUpdateQuery_of_pieces s project col req _ _ hp, hph, render_statement]
    conv_lhs => rw [← hfl, map_snd_zip_range']
    simp [joinComma, render, renderPiece]
  · rw [hph, ← hfl, map_fst_zip_range']

theorem generateUpdateQuery_currentDate_numbering_witness :
    generateUpdateQuery ⟨Dialect.sqlserver⟩ "project" "col"
        ⟨[("today", Value.str "1"), ("op2", Value.str "2")],
          [("$currentDate",
            Value.obj [("String1", Value.obj [("$type", Value.str "timestamp")])])]⟩
        "$currentDate"
      = ("UPDATE project.col SET String1=CURRENT_TIMESTAMP WHERE ((today = @p2) AND (op2 = @p3))",
          some [Value.str "1", Value.str "2"], none) ∧
    generateUpdateQuery ⟨Dialect.postgres⟩ "project" "col"
        ⟨[("today", Value.str "1")],
          [("$currentDate", Value.obj [("String1", Value.obj [("$type", Value.str "date")])])]⟩
        "$currentDate"
      = ("UPDATE project.col SET String1=CURRENT_DATE WHERE (today = $2)",
          some [Value.str "1"], none) ∧
    ∃ pieces,
      updatePieces "project" "col"
        ⟨[("today", Value.str "1"), ("op2", Value.str "2")],
          [("$currentDate",
            Value.obj [("String1", Value.obj [("$type", Value.str "timestamp")])])]⟩
        "$currentDate" = Except.ok pieces ∧
      generateUpdateQuery ⟨Dialect.sqlserver⟩ "project" "col"
        ⟨[("today", Value.str "1"), ("op2", Value.str "2")],
          [("$currentDate",
            Value.obj [("String1", Value.obj [("$type", Value.str "timestamp")])])]⟩
        "$currentDate"
        = ("UPDATE " ++ "project" ++ "." ++ "col" ++ " SET "
              ++ ("String1" ++ "=" ++ dateKeyword "timestamp")
              ++ render Dialect.sqlserver
                (whereClause [("today", Value.str "1"), ("op2", Value.str "2")] 2),
            some (findParams [("today", Value.str "1"), ("op2", Value.str "2")]), none) ∧
      (placeholders pieces).map Prod.fst = List.range' 2 2 ∧
      (findParams [("today", Value.str "1"), ("op2", Value.str "2")]).length = 2 :=
  ⟨rfl, rfl, generateUpdateQuery_currentDate_numbering ⟨Dialect.sqlserver⟩ "project" "col"
    ⟨[("today", Value.str "1"), ("op2", Value.str "2")],
      [("$currentDate",
        Value.obj [("String1", Value.obj [("$type", Value.str "timestamp")])])]⟩
    "String1" (Value.obj [("$type", Value.str "timestamp")]) "timestamp" rfl
    ⟨[("$type", Value.str "timestamp")], rfl, rfl⟩ (Or.inl rfl)⟩

/-- C26: on a successful compile under `$set`, `$inc`, `$mul`, `$min` or `$max`, in every
dialect, the statement is `UPDATE <project>.<col> SET ` followed by one fragment for each
field of the operator map, joined by commas, the fragment of the field `f` being `f=<ph>`,
`f=f+<ph>`, `f=f*<ph>`, `f=LEAST(f,<ph>)` or `f=GREATEST(f,<ph>)` with `<ph>` the
placeholder of the dialect, followed by the WHERE clause; under `$set` the parameters of
the operands are the operands as given. -/
theorem generateUpdateQuery_statement (s : SQL) (project col : String) (req : UpdateRequest)
    (op : String) (text : String) (params : Option (List Value))
    (hop : op ∈ ["$set", "$inc", "$mul", "$min", "$max"])
    (h : generateUpdateQuery s project col req op = (text, params, none)) :
    ∃ m : GoMap, mapGet op req.Update = some (Value.obj m) ∧
      text = "UPDATE " ++ project ++ "." ++ col ++ " SET "
        ++ joinComma ((m.enumFrom 1).map fun ikv => fragmentText s.dbType op ikv.2.1 ikv.1)
        ++ render s.dbType (whereClause req.Find (m.length + 1)) ∧
      (op = "$set" → params = some (m.map Prod.snd ++ findParams req.Find)) := by
  obtain ⟨pieces, hp, htext, hparams⟩ :=
    generateUpdateQuery_ok s project col req op text params h
  obtain ⟨m, frags, hm, _, hall, hpieces⟩ := updatePieces_ok project col req op pieces hp
  refine ⟨m, hm, ?_, ?_⟩
  · have hmap : frags.map (render s.dbType)
        = (m.enumFrom 1).map fun ikv => fragmentText s.dbType op ikv.2.1 ikv.1 := by
      apply map_eq_of_forall₂
      refine hall.imp ?_
      intro ikv frag hfrag
      exact setFragment_render s.dbType op ikv.2.1 ikv.2.2 ikv.1 frag hop hfrag
    rw [htext, hpieces, render_statement, hmap]
  · intro hset
    subst hset
    have hsingle : List.Forall₂ (fun (ikv : Nat × String × Value) frag =>
        ∃ p, (fun v p => p = v) ikv.2.2 p ∧ placeholders frag = [(ikv.1, p)])
        (m.enumFrom 1) frags := by
      refine hall.imp ?_
      intro ikv frag hfrag
      exact ⟨ikv.2.2, rfl,
        (setFragment_set_ok s.dbType ikv.2.1 ikv.2.2 ikv.1 frag hfrag).1⟩
    obtain ⟨ps, hps, hflat⟩ := placeholders_of_single (fun v p => p = v) m 1 frags hsingle
    have hlen : ps.length = m.length := hps.length_eq.symm
    have hfl := length_findParams req.Find
    rw [hparams, hpieces, placeholders_statement, hflat, List.map_append, ← hlen,
      map_snd_zip_range', ← hfl, map_snd_zip_range', eq_map_snd_of_forall₂ m ps hps]

theorem generateUpdateQuery_statement_witness :
    generateUpdateQuery ⟨Dialect.mysql⟩ "project" "col"
        ⟨[("FindString1", Value.str "1"), ("FindString2", Value.str "2")],
          [("$set", Value.obj [("String1", Value.str "1")])]⟩ "$set"
      = ("UPDATE project.col SET String1=? WHERE ((FindString1 = ?) AND (FindString2 = ?))",
          some [Value.str "1", Value.str "1", Value.str "2"], none) ∧
    generateUpdateQuery ⟨Dialect.sqlserver⟩ "project" "col"
        ⟨[("op1", Value.int 67), ("op2", Value.int 78)],
          [("$inc", Value.obj [("String1", Value.int 18446)])]⟩ "$inc"
      = ("UPDATE project.col SET String1=String1+@p1 WHERE ((op1 = @p2) AND (op2 = @p3))",
          some [Value.intN 64 18446, Value.intN 64 67, Value.intN 64 78], none) ∧
    ∃ m : GoMap,
      mapGet "$mul" [("$mul", Value.obj [("String1", Value.int 6)])] = some (Value.obj m) ∧
      "UPDATE project.col SET String1=String1*$1 WHERE ((op1 = $2) AND (op2 = $3))"
        = "UPDATE " ++ "project" ++ "." ++ "col" ++ " SET "
          ++ joinComma ((m.enumFrom 1).map fun ikv =>
            fragmentText Dialect.postgres "$mul" ikv.2.1 ikv.1)
          ++ render Dialect.postgres
            (whereClause [("op1", Value.int 1), ("op2", Value.int 2)] (m.length + 1)) ∧
      ("$mul" = "$set" →
        some [Value.intN 64 6, Value.intN 64 1, Value.intN 64 2]
          = some (m.map Prod.snd ++ findParams [("op1", Value.int 1), ("op2", Value.int 2)])) :=
  ⟨rfl, rfl, generateUpdateQuery_statement ⟨Dialect.postgres⟩ "project" "col"
    ⟨[("op1", Value.int 1), ("op2", Value.int 2)],
      [("$mul", Value.obj [("String1", Value.int 6)])]⟩ "$mul" _ _ (by decide) rfl⟩

/-- C27: on every successful compile, in every dialect, the SET fragments of the fields
of the operator map, in the map's key order, are joined by commas, and the parameters
are the parameters of the SET operands in that order followed by the parameters of the
find values in the order of the WHERE predicates: one for each field, the operand as
given or coerced, under the five operators that bind a value, none under `$currentDate`,
so that their number is the number of value-bearing SET fragments plus the number of
find predicates. -/
theorem generateUpdateQuery_parameter_order (s : SQL) (project col : String)
    (req : UpdateRequest) (op : String) (text : String) (params : Option (List Value))
    (h : generateUpdateQuery s project col req op = (text, params, none)) :
    ∃ (m : GoMap) (frags : List (List Piece)) (setParams : List Value),
      mapGet op req.Update = some (Value.obj m) ∧
      List.Forall₂ (fun (ikv : Nat × String × Value) frag =>
        setFragment op ikv.2.1 ikv.2.2 ikv.1 = Except.ok frag) (m.enumFrom 1) frags ∧
      text = "UPDATE " ++ project ++ "." ++ col ++ " SET "
        ++ joinComma (frags.map (render s.dbType))
        ++ render s.dbType (whereClause req.Find (m.length + 1)) ∧
      params = some (setParams ++ findParams req.Find) ∧
      (op ≠ "$currentDate" →
        List.Forall₂ (fun (kv : String × Value) p => p = kv.2 ∨ Coerced kv.2 p) m setParams) ∧
      (op = "$currentDate" → setParams = []) ∧
      (setParams ++ findParams req.Find).length
        = (if op = "$currentDate" then 0 else m.length) + req.Find.length := by
  obtain ⟨pieces, hp, htext, hparams⟩ :=
    generateUpdateQuery_ok s project col req op text params h
  obtain ⟨m, frags, hm, _, hall, hpieces⟩ := updatePieces_ok project col req op pieces hp
  obtain ⟨m', setPh, hm', hph, hval, hdate⟩ :=
    placeholders_updatePieces project col req op pieces hp
  have hmm : m' = m := by
    rw [hm] at hm'
    simp only [Option.some.injEq, Value.obj.injEq] at hm'
    exact hm'.symm
  subst hmm
  have hfl := length_findParams req.Find
  have hfind : ((List.range' (m'.length + 1) req.Find.length).zip (findParams req.Find)).map
      Prod.snd = findParams req.Find := by
    rw [← hfl, map_snd_zip_range']
  refine ⟨m', frags, setPh.map Prod.snd, hm, hall, ?_, ?_, ?_, ?_, ?_⟩
  · rw [htext, hpieces, render_statement]
  · rw [hparams, hph, List.map_append, hfind]
  · intro hne
    obtain ⟨ps, hlen, hset, hps⟩ := hval hne
    rw [hset, ← hlen, map_snd_zip_range']
    exact hps
  · intro heq
    rw [hdate heq]
    rfl
  · by_cases hcd : op = "$currentDate"
    · rw [hdate hcd, if_pos hcd]
      simp [hfl]
    · obtain ⟨ps, hlen, hset, _⟩ := hval hcd
      rw [hset, ← hlen, map_snd_zip_range', if_neg hcd, List.length_append, hfl]

theorem generateUpdateQuery_parameter_order_witness :
    generateUpdateQuery ⟨Dialect.sqlserver⟩ "project" "col"
        ⟨[("op1", Value.int 121), ("op2", Value.int 21)],
          [("$max", Value.obj [("String1", Value.int 6132), ("s2", Value.int 12)])]⟩ "$max"
      = ("UPDATE project.col SET String1=GREATEST(String1,@p1),s2=GREATEST(s2,@p2) WHERE ((op1 = @p3) AND (op2 = @p4))",
          some [Value.intN 64 6132, Value.intN 64 12, Value.intN 64 121, Value.intN 64 21],
          none) ∧
    ∃ (m : GoMap) (frags : List (List Piece)) (setParams : List Value),
      mapGet "$max" [("$max", Value.obj [("String1", Value.int 6132), ("s2", Value.int 12)])]
        = some (Value.obj m) ∧
      List.Forall₂ (fun (ikv : Nat × String × Value) frag =>
        setFragment "$max" ikv.2.1 ikv.2.2 ikv.1 = Except.ok frag) (m.enumFrom 1) frags ∧
      "UPDATE project.col SET String1=GREATEST(String1,$1),s2=GREATEST(s2,$2) WHERE ((op1 = $3) AND (op2 = $4))"
        = "UPDATE " ++ "project" ++ "." ++ "col" ++ " SET "
          ++ joinComma (frags.map (render Dialect.postgres))
          ++ render Dialect.postgres
            (whereClause [("op1", Value.int 121), ("op2", Value.int 21)] (m.length + 1)) ∧
      some [Value.intN 64 6132, Value.intN 64 12, Value.intN 64 121, Value.intN 64 21]
        = some (setParams ++ findParams [("op1", Value.int 121), ("op2", Value.int 21)]) ∧
      ("$max" ≠ "$currentDate" →
        List.Forall₂ (fun (kv : String × Value) p => p = kv.2 ∨ Coerced kv.2 p) m setParams) ∧
      ("$max" = "$currentDate" → setParams = []) ∧
      (setParams ++ findParams [("op1", Value.int 121), ("op2", Value.int 21)]).length
        = (if "$max" = "$currentDate" then 0 else m.length) + 2 :=
  ⟨rfl, generateUpdateQuery_parameter_order ⟨Dialect.postgres⟩ "project" "col"
    ⟨[("op1", Value.int 121), ("op2", Value.int 21)],
      [("$max", Value.obj [("String1", Value.int 6132), ("s2", Value.int 12)])]⟩ "$max"
    _ _ rfl⟩

/-- C28: a `$currentDate` update in which the operand of every field is a map whose
`$type` is the string `"timestamp"` or `"date"` compiles in every dialect; the SET
fragment of a field is `field=CURRENT_TIMESTAMP` or `field=CURRENT_DATE`, without a
placeholder, and the parameters are the parameters of the find values only. -/
theorem generateUpdateQuery_currentDate (s : SQL) (project col : String)
    (req : UpdateRequest) (m : GoMap)
    (hm : mapGet "$currentDate" req.Update = some (Value.obj m))
    (hall : ∀ kv ∈ m, ∃ t, HasDateType kv.2 t ∧ (t = "timestamp" ∨ t = "date")) :
    ∃ texts : List String,
      List.Forall₂ (fun (kv : String × Value) txt =>
        ∃ t, HasDateType kv.2 t ∧ txt = kv.1 ++ "=" ++ dateKeyword t) m texts ∧
      generateUpdateQuery s project col req "$currentDate"
        = ("UPDATE " ++ project ++ "." ++ col ++ " SET " ++ joinComma texts
            ++ render s.dbType (whereClause req.Find (m.length + 1)),
          some (findParams req.Find), none) ∧
      dateKeyword "timestamp" = "CURRENT_TIMESTAMP" ∧ dateKeyword "date" = "CURRENT_DATE" := by
  obtain ⟨frags, texts, hfr, htx, hrender, hflat⟩ := currentDate_fragments s.dbType m hall 1
  have hp := updatePieces_of_fragments project col req "$currentDate" m frags hm
    (by decide) hfr
  have hfl := length_findParams req.Find
  refine ⟨texts, htx, ?_, by decide, by decide⟩
  rw [generateUpdateQuery_of_pieces s project col req _ _ hp, placeholders_statement, hflat,
    List.nil_append, render_statement, hrender]
  conv_lhs => rw [← hfl, map_snd_zip_range']

theorem generateUpdateQuery_currentDate_witness :
    generateUpdateQuery ⟨Dialect.mysql⟩ "project" "col"
        ⟨[("today", Value.str "1")],
          [("$currentDate",
            Value.obj [("String1", Value.obj [("$type", Value.str "timestamp")])])]⟩
        "$currentDate"
      = ("UPDATE project.col SET String1=CURRENT_TIMESTAMP WHERE (today = ?)",
          some [Value.str "1"], none) ∧
    generateUpdateQuery ⟨Dialect.mysql⟩ "project" "col"
        ⟨[("today", Value.str "1")],
          [("$currentDate", Value.obj [("String1", Value.obj [("$type", Value.str "date")])])]⟩
        "$currentDate"
      = ("UPDATE project.col SET String1=CURRENT_DATE WHERE (today = ?)",
          some [Value.str "1"], none) ∧
    ∃ texts : List String,
      List.Forall₂ (fun (kv : String × Value) txt =>
        ∃ t, HasDateType kv.2 t ∧ txt = kv.1 ++ "=" ++ dateKeyword t)
        [("String1", Value.obj [("$type", Value.str "date")])] texts ∧
      generateUpdateQuery ⟨Dialect.mysql⟩ "project" "col"
        ⟨[("today", Value.str "1")],
          [("$currentDate", Value.obj [("String1", Value.obj [("$type", Value.str "date")])])]⟩
        "$currentDate"
        = ("UPDATE " ++ "project" ++ "." ++ "col" ++ " SET " ++ joinComma texts
            ++ render Dialect.mysql (whereClause [("today", Value.str "1")] (1 + 1)),
          some (findParams [("today", Value.str "1")]), none) ∧
      dateKeyword "timestamp" = "CURRENT_TIMESTAMP" ∧ dateKeyword "date" = "CURRENT_DATE" :=
  ⟨rfl, rfl, generateUpdateQuery_currentDate ⟨Dialect.mysql⟩ "project" "col"
    ⟨[("today", Value.str "1")],
      [("$currentDate", Value.obj [("String1", Value.obj [("$type", Value.str "date")])])]⟩
    [("String1", Value.obj [("$type", Value.str "date")])] rfl
    (by
      intro kv hkv
      simp only [List.mem_singleton] at hkv
      subst hkv
      exact ⟨"date", ⟨[("$type", Value.str "date")], rfl, rfl⟩, Or.inr rfl⟩)⟩

/-- C29: a `$currentDate` update in which the operand of some field is not a map, or is
a map whose `$type` is missing, not a string, or a string other than `"timestamp"` and
`"date"`, returns an error, the empty statement text and nil parameters, in every
dialect. -/
theorem generateUpdateQuery_currentDate_invalid (s : SQL) (project col : String)
    (req : UpdateRequest) (m : GoMap) (field : String) (operand : Value)
    (hm : mapGet "$currentDate" req.Update = some (Value.obj m))
    (hf : (field, operand) ∈ m)
    (hbad : ∀ t, HasDateType operand t → t ≠ "timestamp" ∧ t ≠ "date") :
    generateUpdateQuery s project col req "$currentDate"
      = ("", none, some CompileErr.InvalidOperand) := by
  apply generateUpdateQuery_of_error
  exact updatePieces_of_fragment_error project col req "$currentDate" m hm (by decide)
    ⟨(field, operand), hf, fun k =>
      ⟨CompileErr.InvalidOperand, setFragment_currentDate_bad field operand k hbad⟩⟩

theorem generateUpdateQuery_currentDate_invalid_witness :
    generateUpdateQuery ⟨Dialect.mysql⟩ "project" "col"
        ⟨[("today", Value.str "1")],
          [("$currentDate", Value.obj [("String1", Value.obj [("$type", Value.str "")])])]⟩
        "$currentDate"
      = ("", none, some CompileErr.InvalidOperand) ∧
    generateUpdateQuery ⟨Dialect.postgres⟩ "project" "col"
        ⟨[("op1", Value.str "67"), ("op2", Value.str "78")],
          [("$currentDate", Value.obj [("String1", Value.str "s18446")])]⟩ "$currentDate"
      = ("", none, some CompileErr.InvalidOperand) ∧
    generateUpdateQuery ⟨Dialect.sqlserver⟩ "project" "col"
        ⟨[("op1", Value.str "67"), ("op2", Value.str "78")],
          [("$currentDate", Value.obj [("String1", Value.obj [("$type", Value.int 1)])])]⟩
        "$currentDate"
      = ("", none, some CompileErr.InvalidOperand) :=
  ⟨generateUpdateQuery_currentDate_invalid _ _ _ _
      [("String1", Value.obj [("$type", Value.str "")])] "String1"
      (Value.obj [("$type", Value.str "")]) rfl (List.mem_cons_self _ _)
      (by
        rintro t ⟨operandMap, hobj, ht⟩
        simp only [Value.obj.injEq] at hobj
        subst hobj
        simp only [mapGet, if_true, Option.some.injEq, Value.str.injEq] at ht
        subst ht
        decide),
    generateUpdateQuery_currentDate_invalid _ _ _ _
      [("String1", Value.str "s18446")] "String1" (Value.str "s18446") rfl
      (List.mem_cons_self _ _)
      (by rintro t ⟨operandMap, hobj, _⟩; cases hobj),
    generateUpdateQuery_currentDate_invalid _ _ _ _
      [("String1", Value.obj [("$type", Value.int 1)])] "String1"
      (Value.obj [("$type", Value.int 1)]) rfl (List.mem_cons_self _ _)
      (by
        rintro t ⟨operandMap, hobj, ht⟩
        simp only [Value.obj.injEq] at hobj
        subst hobj
        simp [mapGet] at ht)⟩

/-- C30: for an operator name that is none of `$set`, `$inc`, `$mul`, `$min`, `$max`,
`$currentDate`, `generateUpdateQuery` returns an error, the empty statement text and nil
parameters, in every dialect and for every request: the unsupported-operator error when
`request.Update` holds an operand map under that very name, however well-formed. -/
theorem generateUpdateQuery_unsupported_operator (s : SQL) (project col : String)
    (req : UpdateRequest) (op : String) (hop : op ∉ supportedOperators) :
    (∃ e, generateUpdateQuery s project col req op = ("", none, some e)) ∧
      (∀ m, mapGet op req.Update = some (Value.obj m) →
        generateUpdateQuery s project col req op
          = ("", none, some CompileErr.UnsupportedOperator)) := by
  have hmap : ∀ m, mapGet op req.Update = some (Value.obj m) →
      generateUpdateQuery s project col req op
        = ("", none, some CompileErr.UnsupportedOperator) := by
    intro m hm
    apply generateUpdateQuery_of_error
    simp only [updatePieces, hm, if_neg hop]
  refine ⟨?_, hmap⟩
  cases hp : updatePieces project col req op with
  | error e => exact ⟨e, generateUpdateQuery_of_error s project col req op e hp⟩
  | ok pieces =>
    obtain ⟨_, _, _, hsup, _⟩ := updatePieces_ok project col req op pieces hp
    exact absurd hsup hop

theorem generateUpdateQuery_unsupported_operator_witness :
    generateUpdateQuery ⟨Dialect.mysql⟩ "project" "col"
        ⟨[("op1", Value.str "67"), ("op2", Value.str "78")],
          [("$max", Value.obj [("String1", Value.str "s18446")])]⟩ "$maxjgf"
      = ("", none, some CompileErr.MissingOperatorPayload) ∧
    generateUpdateQuery ⟨Dialect.postgres⟩ "project" "col"
        ⟨[("op1", Value.int 1)], [("$push", Value.obj [("String1", Value.int 6)])]⟩ "$push"
      = ("", none, some CompileErr.UnsupportedOperator) :=
  ⟨rfl, (generateUpdateQuery_unsupported_operator ⟨Dialect.postgres⟩ "project" "col"
    ⟨[("op1", Value.int 1)], [("$push", Value.obj [("String1", Value.int 6)])]⟩ "$push"
    (by decide)).2 [("String1", Value.int 6)] rfl⟩

/-- C31: on every successful compile, in every dialect, the statement is the SET part,
`UPDATE <project>.<col> SET ` and the comma-joined fragments of the fields of the
operator map, followed by the WHERE clause and nothing else: with no find predicate the
statement is the SET part alone; with one predicate it is the SET part followed by
` WHERE (f1 = <ph>)`; with two or more it is the SET part followed by ` WHERE (`, the
predicates `(f = <ph>)` joined by ` AND `, and `)`. The placeholders of the predicates
carry the ordinals after one ordinal for each SET field. -/
theorem generateUpdateQuery_where (s : SQL) (project col : String) (req : UpdateRequest)
    (op : String) (text : String) (params : Option (List Value))
    (h : generateUpdateQuery s project col req op = (text, params, none)) :
    ∃ (m : GoMap) (frags : List (List Piece)),
      mapGet op req.Update = some (Value.obj m) ∧
      List.Forall₂ (fun (ikv : Nat × String × Value) frag =>
        setFragment op ikv.2.1 ikv.2.2 ikv.1 = Except.ok frag) (m.enumFrom 1) frags ∧
      (req.Find = [] →
        text = "UPDATE " ++ project ++ "." ++ col ++ " SET "
          ++ joinComma (frags.map (render s.dbType))) ∧
      (∀ f v, req.Find = [(f, v)] →
        text = "UPDATE " ++ project ++ "." ++ col ++ " SET "
          ++ joinComma (frags.map (render s.dbType))
          ++ (" WHERE " ++ ("(" ++ f ++ " = " ++ placeholder s.dbType (m.length + 1) ++ ")"))) ∧
      (2 ≤ req.Find.length →
        text = "UPDATE " ++ project ++ "." ++ col ++ " SET "
          ++ joinComma (frags.map (render s.dbType))
          ++ (" WHERE (" ++ joinAnd ((req.Find.enumFrom (m.length + 1)).map fun ikv =>
              "(" ++ ikv.2.1 ++ " = " ++ placeholder s.dbType ikv.1 ++ ")") ++ ")")) := by
  obtain ⟨pieces, hp, htext, _⟩ := generateUpdateQuery_ok s project col req op text params h
  obtain ⟨m, frags, hm, _, hall, hpieces⟩ := updatePieces_ok project col req op pieces hp
  have ht : text = "UPDATE " ++ project ++ "." ++ col ++ " SET "
      ++ joinComma (frags.map (render s.dbType))
      ++ whereText s.dbType req.Find (m.length + 1) := by
    rw [htext, hpieces, render_statement, render_whereClause]
  refine ⟨m, frags, hm, hall, ?_, ?_, ?_⟩
  · intro hf
    rw [ht, hf]
    show _ ++ "" = _
    rw [String.append_empty]
  · intro f v hf
    rw [ht, hf]
    rfl
  · intro hlen
    rw [ht]
    cases hfind : req.Find with
    | nil => rw [hfind] at hlen; simp at hlen
    | cons kv rest =>
      cases rest with
      | nil => rw [hfind] at hlen; simp at hlen
      | cons next rest' => rfl

theorem generateUpdateQuery_where_witness :
    generateUpdateQuery ⟨Dialect.mysql⟩ "project" "col"
        ⟨[], [("$set", Value.obj [("String1", Value.str "1")])]⟩ "$set"
      = ("UPDATE project.col SET String1=?", some [Value.str "1"], none) ∧
    generateUpdateQuery ⟨Dialect.mysql⟩ "project" "col"
        ⟨[("today", Value.str "1")],
          [("$currentDate",
            Value.obj [("String1", Value.obj [("$type", Value.str "timestamp")])])]⟩
        "$currentDate"
      = ("UPDATE project.col SET String1=CURRENT_TIMESTAMP WHERE (today = ?)",
          some [Value.str "1"], none) ∧
    ∃ (m : GoMap) (frags : List (List Piece)),
      mapGet "$set" [("$set", Value.obj [("String1", Value.str "1")])]
        = some (Value.obj m) ∧
      List.Forall₂ (fun (ikv : Nat × String × Value) frag =>
        setFragment "$set" ikv.2.1 ikv.2.2 ikv.1 = Except.ok frag) (m.enumFrom 1) frags ∧
      (([("FindString1", Value.str "1"), ("FindString2", Value.str "2")] : GoMap) = [] →
        "UPDATE project.col SET String1=$1 WHERE ((FindString1 = $2) AND (FindString2 = $3))"
          = "UPDATE " ++ "project" ++ "." ++ "col" ++ " SET "
            ++ joinComma (frags.map (render Dialect.postgres))) ∧
      (∀ f v, ([("FindString1", Value.str "1"), ("FindString2", Value.str "2")] : GoMap)
          = [(f, v)] →
        "UPDATE project.col SET String1=$1 WHERE ((FindString1 = $2) AND (FindString2 = $3))"
          = "UPDATE " ++ "project" ++ "." ++ "col" ++ " SET "
            ++ joinComma (frags.map (render Dialect.postgres))
            ++ (" WHERE " ++ ("(" ++ f ++ " = " ++ placeholder Dialect.postgres (m.length + 1)
              ++ ")"))) ∧
      (2 ≤ ([("FindString1", Value.str "1"), ("FindString2", Value.str "2")] : GoMap).length →
        "UPDATE project.col SET String1=$1 WHERE ((FindString1 = $2) AND (FindString2 = $3))"
          = "UPDATE " ++ "project" ++ "." ++ "col" ++ " SET "
            ++ joinComma (frags.map (render Dialect.postgres))
            ++ (" WHERE (" ++ joinAnd
              ((([("FindString1", Value.str "1"), ("FindString2", Value.str "2")]
                  : GoMap).enumFrom (m.length + 1)).map fun ikv =>
                "(" ++ ikv.2.1 ++ " = " ++ placeholder Dialect.postgres ikv.1 ++ ")")
              ++ ")")) :=
  ⟨rfl, rfl, generateUpdateQuery_where ⟨Dialect.postgres⟩ "project" "col"
    ⟨[("FindString1", Value.str "1"), ("FindString2", Value.str "2")],
      [("$set", Value.obj [("String1", Value.str "1")])]⟩ "$set" _ _ rfl⟩

/-- C32: whenever `matchRule` returns a nil error, the `PostProcess` it returns is not
nil, so the loop of `matchAnd` goes on with that clause's actions appended instead of
dereferencing nil; `matchForce` and `matchRemove` return a nil `PostProcess` only with an
error. -/
theorem matchRule_success_postprocess (m : Module) (project : String) (auth : GoMap) :
    (∀ (rule rule' : Rule) (st st' : State) (pp : Option PostProcess),
        matchRule m project rule st auth = (rule', st', Outcome.ret pp none) →
        ∃ p, pp = some p ∧
          ∀ (rest : List Rule) (acc : List PostProcessAction),
            matchAndLoop m project (rule :: rest) st auth acc
              = (rule' :: (matchAndLoop m project rest st' auth
                    (acc ++ p.PostProcessAction)).1,
                  (matchAndLoop m project rest st' auth (acc ++ p.PostProcessAction)).2)) ∧
    (∀ (rule : Rule) (args args' : GoMap) (err : Option Err),
        matchForce m rule args = (args', Outcome.ret none err) → err ≠ none) ∧
    (∀ (rule : Rule) (args args' : GoMap) (err : Option Err),
        matchRemove m rule args = (args', Outcome.ret none err) → err ≠ none) := by
  refine ⟨?_, ?_, ?_⟩
  · intro rule rule' st st' pp h
    obtain ⟨p, rfl⟩ := matchRule_ok_some m project auth rule st rule' st' pp h
    exact ⟨p, rfl, fun rest acc =>
      matchAndLoop_cons_ok m project auth rule rest st acc rule' st' (some p) h⟩
  · intro rule args args' err h herr
    have hs := matchForce_sound m rule args
    rw [h, herr] at hs
    exact hs
  · intro rule args args' err h herr
    have hs := matchRemoveLoop_sound m rule.Fields args []
    unfold matchRemove at h
    rw [h, herr] at hs
    exact hs

theorem matchRule_success_postprocess_witness :
    matchRule exampleModule "project" (removeRule ["args.token"]) ⟨argsOfUser "alice", []⟩ []
      = (removeRule ["args.token"],
          ⟨[("args", Value.obj [("auth", Value.obj [("id", Value.str "alice")])])], []⟩,
          Outcome.ret (some ⟨[]⟩) none) ∧
    (∃ p, some (⟨[]⟩ : PostProcess) = some p ∧
      ∀ (rest : List Rule) (acc : List PostProcessAction),
        matchAndLoop exampleModule "project" (removeRule ["args.token"] :: rest)
            ⟨argsOfUser "alice", []⟩ [] acc
          = (removeRule ["args.token"] :: (matchAndLoop exampleModule "project" rest
                ⟨[("args", Value.obj [("auth", Value.obj [("id", Value.str "alice")])])], []⟩
                [] (acc ++ p.PostProcessAction)).1,
              (matchAndLoop exampleModule "project" rest
                ⟨[("args", Value.obj [("auth", Value.obj [("id", Value.str "alice")])])], []⟩
                [] (acc ++ p.PostProcessAction)).2)) :=
  ⟨rfl, (matchRule_success_postprocess exampleModule "project" []).1
    (removeRule ["args.token"]) _ ⟨argsOfUser "alice", []⟩ _ _ rfl⟩

/-- C33: when `matchRule` succeeds, every action of the returned `PostProcess` is a
`"force"` or a `"remove"` on a field that starts with `"res"`, every `"remove"` action has
a nil value, and there are at most as many actions as the rule tree has force nodes plus
fields of remove nodes. -/
theorem matchRule_actions_shape (m : Module) (project : String) (rule : Rule) (st : State)
    (auth : GoMap) (rule' : Rule) (st' : State) (pp : Option PostProcess)
    (h : matchRule m project rule st auth = (rule', st', Outcome.ret pp none)) :
    (∀ a ∈ actionsOf pp,
        (a.Action = "force" ∨ a.Action = "remove") ∧ HasPrefix a.Field "res" = true ∧
          (a.Action = "remove" → a.Value = Value.null)) ∧
      (actionsOf pp).length ≤ actionBound rule := by
  have hs := matchRule_resActions m project auth rule st
  rw [h] at hs
  refine ⟨?_, hs.2⟩
  intro a ha
  obtain ⟨hkind, hres⟩ := hs.1 a ha
  refine ⟨?_, hres, ?_⟩
  · rcases hkind with hf | ⟨hr, _⟩
    · exact Or.inl hf
    · exact Or.inr hr
  · intro hrem
    rcases hkind with hf | ⟨_, hv⟩
    · rw [hf] at hrem
      exact absurd hrem (by decide)
    · exact hv

theorem matchRule_actions_shape_witness :
    matchRule exampleModule "project"
        (andRule [forceRule "res.a" (Value.int 1), removeRule ["res.b", "args.token"],
          orRule [ruleOfKind "deny", forceRule "res.c" (Value.str "args.auth.id"),
            forceRule "res.d" Value.null]])
        ⟨argsOfUser "alice", []⟩ []
      = (andRule [forceRule "res.a" (Value.int 1), removeRule ["res.b", "args.token"],
          orRule [ruleOfKind "deny", forceRule "res.c" (Value.str "args.auth.id"),
            forceRule "res.d" Value.null]],
        ⟨[("args", Value.obj [("auth", Value.obj [("id", Value.str "alice")])])], []⟩,
        Outcome.ret (some ⟨[⟨"force", "res.a", Value.int 1⟩,
          ⟨"remove", "res.b", Value.null⟩, ⟨"force", "res.c", Value.str "alice"⟩]⟩) none) ∧
    actionBound
        (andRule [forceRule "res.a" (Value.int 1), removeRule ["res.b", "args.token"],
          orRule [ruleOfKind "deny", forceRule "res.c" (Value.str "args.auth.id"),
            forceRule "res.d" Value.null]]) = 5 ∧
    ((∀ a ∈ actionsOf (some ⟨[⟨"force", "res.a", Value.int 1⟩,
          ⟨"remove", "res.b", Value.null⟩, ⟨"force", "res.c", Value.str "alice"⟩]⟩),
        (a.Action = "force" ∨ a.Action = "remove") ∧ HasPrefix a.Field "res" = true ∧
          (a.Action = "remove" → a.Value = Value.null)) ∧
      (actionsOf (some ⟨[⟨"force", "res.a", Value.int 1⟩,
          ⟨"remove", "res.b", Value.null⟩, ⟨"force", "res.c", Value.str "alice"⟩]⟩)).length
        ≤ actionBound
          (andRule [forceRule "res.a" (Value.int 1), removeRule ["res.b", "args.token"],
            orRule [ruleOfKind "deny", forceRule "res.c" (Value.str "args.auth.id"),
              forceRule "res.d" Value.null]])) :=
  ⟨rfl, rfl, matchRule_actions_shape exampleModule "project"
    (andRule [forceRule "res.a" (Value.int 1), removeRule ["res.b", "args.token"],
      orRule [ruleOfKind "deny", forceRule "res.c" (Value.str "args.auth.id"),
        forceRule "res.d" Value.null]])
    ⟨argsOfUser "alice", []⟩ [] _ _ _ rfl⟩

/-- C34: evaluation is not atomic on `args`. When an `and` rule fails at a clause, the
state after `matchAnd` is the state that clause left, evaluated after the clauses before
it: their mutations of `args` are kept. When a remove rule aborts at a field, because the
field starts with neither `"res"` nor `"args"` or because its deletion fails, `args` is
what the deletions before it (and the failed one) left. -/
theorem matchAnd_keeps_mutations (m : Module) (project : String) (auth : GoMap)
    (st : State) :
    (∀ (rule : Rule) (pre post pre' : List Rule) (c c' : Rule) (st1 st2 : State)
        (acts : List PostProcessAction) (pp : Option PostProcess) (e : Err),
        rule.Clauses = pre ++ c :: post →
        succeedAll m project auth pre st = some (pre', st1, acts) →
        matchRule m project c st1 auth = (c', st2, Outcome.ret pp (some e)) →
        (matchAnd m project rule st auth).2.1 = st2) ∧
    (∀ (rule : Rule) (pre post : List String) (f : String) (args1 : GoMap),
        rule.Fields = pre ++ f :: post →
        (∀ g ∈ pre, HasPrefix g "res" = true ∨ HasPrefix g "args" = true) →
        HasPrefix f "res" = false → HasPrefix f "args" = false →
        deleteEach m (argsFields pre) st.args = some args1 →
        (matchRemove m rule st.args).1 = args1) ∧
    (∀ (rule : Rule) (pre post : List String) (f : String) (args1 args2 : GoMap) (e : Err),
        rule.Fields = pre ++ f :: post →
        (∀ g ∈ pre, HasPrefix g "res" = true ∨ HasPrefix g "args" = true) →
        HasPrefix f "args" = true →
        deleteEach m (argsFields pre) st.args = some args1 →
        m.DeleteValue f args1 = (args2, some e) →
        matchRemove m rule st.args = (args2, Outcome.ret none (some e))) := by
  refine ⟨?_, ?_, ?_⟩
  · intro rule pre post pre' c c' st1 st2 acts pp e hcl hpre hc
    unfold matchAnd
    rw [hcl, matchAndLoop_short_circuit m project auth pre st [] pre' st1 acts c post c' st2
      pp e hpre hc]
  · intro rule pre post f args1 hf hall hres hargs hd
    unfold matchRemove
    rw [hf, matchRemoveLoop_run m pre st.args args1 [] (f :: post) hall hd,
      matchRemoveLoop_cons_other m f post args1 _ hres hargs]
  · intro rule pre post f args1 args2 e hf hall hargs hd hdel
    unfold matchRemove
    rw [hf, matchRemoveLoop_run m pre st.args args1 [] (f :: post) hall hd,
      matchRemoveLoop_cons_args_err m f post args1 args2 _ e hargs hdel]

theorem matchAnd_keeps_mutations_witness :
    (matchAnd exampleModule "project"
        (andRule [forceRule "args.ts" (Value.str "now"), removeRule ["args.token"],
          ruleOfKind "deny", forceRule "args.late" Value.null])
        ⟨argsOfUser "alice", []⟩ []).2.1
      = ⟨[("args", Value.obj [("auth", Value.obj [("id", Value.str "alice")]),
          ("ts", Value.str "now")])], []⟩ ∧
    (matchRemove exampleModule (removeRule ["args.token", "res.a", "user", "args.auth"])
        (argsOfUser "alice")).1
      = [("args", Value.obj [("auth", Value.obj [("id", Value.str "alice")])])] ∧
    matchRemove exampleModule (removeRule ["args.token", "args.find.owner", "args.auth"])
        (argsOfUser "alice")
      = ([("args", Value.obj [("auth", Value.obj [("id", Value.str "alice")])])],
          Outcome.ret none (some (Err.other "invalid path"))) :=
  ⟨(matchAnd_keeps_mutations exampleModule "project" [] ⟨argsOfUser "alice", []⟩).1
      (andRule [forceRule "args.ts" (Value.str "now"), removeRule ["args.token"],
        ruleOfKind "deny", forceRule "args.late" Value.null])
      [forceRule "args.ts" (Value.str "now"), removeRule ["args.token"]]
      [forceRule "args.late" Value.null]
      [forceRule "args.ts" (Value.str "now"), removeRule ["args.token"]]
      (ruleOfKind "deny") (ruleOfKind "deny")
      ⟨[("args", Value.obj [("auth", Value.obj [("id", Value.str "alice")]),
          ("ts", Value.str "now")])], []⟩
      ⟨[("args", Value.obj [("auth", Value.obj [("id", Value.str "alice")]),
          ("ts", Value.str "now")])], []⟩
      [] (some ⟨[]⟩) Err.ErrIncorrectMatch rfl rfl rfl,
    (matchAnd_keeps_mutations exampleModule "project" [] ⟨argsOfUser "alice", []⟩).2.1
      (removeRule ["args.token", "res.a", "user", "args.auth"]) ["args.token", "res.a"]
      ["args.auth"] "user" _ rfl (by decide) (by decide) (by decide) rfl,
    (matchAnd_keeps_mutations exampleModule "project" [] ⟨argsOfUser "alice", []⟩).2.2
      (removeRule ["args.token", "args.find.owner", "args.auth"]) ["args.token"]
      ["args.auth"] "args.find.owner" _ _ (Err.other "invalid path") rfl (by decide)
      (by decide) rfl rfl⟩

/-- C35: `matchFunc` gets past its two type assertions exactly when `args["args"]` is a
map that holds a string under `"token"`: then it returns an error value (that of the
token provider or of the HTTP requester), otherwise it panics and leaves the state as it
was; `matchRule` checks nothing before the call, so a webhook rule evaluated for a caller
that is not the internal user panics whenever that shape is missing. -/
theorem matchFunc_token_precondition (m : Module) (rule : Rule) (st : State) :
    (HasToken st.args → ∃ st' err, matchFunc m rule st = (st', some err)) ∧
    (¬ HasToken st.args → matchFunc m rule st = (st, none)) ∧
    (∀ (project : String) (auth : GoMap), project = m.project →
        mapGet "id" auth ≠ some (Value.str m.InternalUserID) →
        rule.Rule = "webhook" → ¬ HasToken st.args →
        matchRule m project rule st auth = (rule, st, Outcome.panic)) := by
  refine ⟨matchFunc_with_token m rule st, matchFunc_no_token m rule st, ?_⟩
  intro project auth hp hid hr hno
  rw [matchRule_webhook m project rule st auth hp (isInternalUser_eq_false m auth hid) hr,
    matchFunc_no_token m rule st hno]

theorem matchFunc_token_precondition_witness :
    matchRule exampleModule "project" (webhookRule "http://hook")
        ⟨[("args", Value.obj [("token", Value.int 7)])], []⟩ []
      = (webhookRule "http://hook", ⟨[("args", Value.obj [("token", Value.int 7)])], []⟩,
          Outcome.panic) ∧
    matchFunc exampleModule (webhookRule "http://hook") ⟨[], []⟩ = (⟨[], []⟩, none) ∧
    ∃ st' err, matchFunc exampleModule (webhookRule "http://hook") ⟨argsOfUser "alice", []⟩
      = (st', some err) :=
  ⟨(matchFunc_token_precondition exampleModule (webhookRule "http://hook")
      ⟨[("args", Value.obj [("token", Value.int 7)])], []⟩).2.2 "project" [] rfl
      (by simp [mapGet]) rfl
      (by
        rintro ⟨obj, token, hargs, htoken⟩
        simp only [mapGet, if_true, Option.some.injEq, Value.obj.injEq] at hargs
        subst hargs
        simp [mapGet] at htoken),
    (matchFunc_token_precondition exampleModule (webhookRule "http://hook") ⟨[], []⟩).2.1
      (by rintro ⟨obj, token, hargs, _⟩; simp [mapGet] at hargs),
    (matchFunc_token_precondition exampleModule (webhookRule "http://hook")
      ⟨argsOfUser "alice", []⟩).1
      ⟨[("auth", Value.obj [("id", Value.str "alice")]), ("token", Value.str "tkn")], "tkn",
        rfl, rfl⟩⟩

end SpaceCloud
